import Mathlib

/-!
# Medical appointment booking: slot ledger and booking coordinator

A shallow embedding of the server routes of the booking application
(`server/src/routes/appointment.routes.js`, `slot.routes.js`,
`video.routes.js`, `payment.routes.js`) and of the Mongoose models they use.

Modelling conventions

* An `ObjectId` is a natural number; a `Date` is an integer number of
  milliseconds since the epoch.  JavaScript `Number` fields that the routes
  only copy, compare, increment or decrement (`bookedCount`, `maxPatients`,
  the two fees) are integers.
* A field that Mongoose may leave unset is an `Option`.
* The database is a record of three collections.  A MongoDB session with a
  transaction is a pair of the snapshot taken by `startTransaction` and the
  working copy that reads and writes carrying `{ session }` act on;
  `abortTransaction` keeps the snapshot, `commitTransaction` keeps the
  working copy.
* A handler runs atomically (one request at a time).
* What an external collaborator answers (the Stripe client, the mailer, the
  storage engine rejecting a write) is an input of the handler; the calls a
  handler makes to Stripe are part of its output.
* A JavaScript `Number` of the rating aggregate is an IEEE 754 double, a sign
  and a magnitude counted in units of `2^-1074`; the operators `*`, `+` and `/`
  round to nearest, a tie going to the even neighbour, and `Math.round` goes
  to the nearest integer, a tie going up.
* The field `score` of the rating request, which no middleware validates, is a
  JavaScript value.  What the JavaScript runtime makes of a string in a
  numeric context is an input of the handler.
* Routes that write only fields left out of the models (the video room and the
  end of a video session, the prescription reference) are not among the requests
  of the transition system.
* The server clock is in UTC, so `d.setDate(d.getDate() + 1)` adds 24 hours.
* The TTL monitor of MongoDB, which the index on `lock.expiresAt` of
  `models/Slot.js` would let remove a slot whose lock has expired, is not a
  request of the transition system: the booking route sets the lock and clears
  it inside one transaction, so no reachable state stores a slot with a lock
  (`reachable_unlocked`).
-/

namespace MedBook

abbrev ObjectId := Nat

/-- Milliseconds since the epoch, the value of a JavaScript `Date`. -/
abbrev Date := Int

/-! ## JavaScript numbers -/

/-- A JavaScript `Number`, an IEEE 754 binary64 value.  A finite value is a sign and
a magnitude; the magnitude counts units of `2^-1074`, the smallest positive double,
so `1` is `finite false (2^1074)` and the two zeros are `finite false 0` and
`finite true 0`.  The doubles are the finite values whose magnitude `m` is below
`2^2098` and a multiple of `2^(bitLength m - 53)`, the two infinities and `NaN`;
the operations below return doubles. -/
inductive JsNumber
  | finite (negative : Bool) (units : Nat)
  | infinite (negative : Bool)
  | nan
  deriving DecidableEq, Repr

/-- The magnitude of `1`, in units of `2^-1074`. -/
def unitsPerOne : Nat := 1 <<< 1074

/-- The shifts of the binary search of `bitLength`. -/
def bitSteps : List Nat := [4096, 2048, 1024, 512, 256, 128, 64, 32, 16, 8, 4, 2, 1]

/-- Binary search for the highest binary digit of `n`: `acc` counts the digits
already shifted out. -/
def bitLengthFrom : List Nat → Nat → Nat → Nat
  | [], n, acc => if n = 0 then acc else acc + 1
  | s :: rest, n, acc =>
    if n >>> s = 0 then bitLengthFrom rest n acc else bitLengthFrom rest (n >>> s) (acc + s)

/-- The number of binary digits of `n`, for `n < 2^8192`; the quotients that the
operations on doubles round are below `2^4200`. -/
def bitLength (n : Nat) : Nat := bitLengthFrom bitSteps n 0

/-- The integer nearest to `p / q`, a tie going to the even one. -/
def roundHalfEven (p q : Nat) : Nat :=
  let f := p / q
  let r := p % q
  if 2 * r < q then f
  else if q < 2 * r then f + 1
  else if f % 2 = 0 then f else f + 1

/-- The magnitude of the double nearest to `p / q` units (round to nearest, ties to
even), `none` when the result overflows: the magnitudes of `53 + k` binary digits
are `2^k` units apart, and the largest double is below `2^2098` units. -/
def roundMagnitude (p q : Nat) : Option Nat :=
  let k := bitLength (p / q) - 53
  let m := roundHalfEven p (q <<< k) <<< k
  if m < 1 <<< 2098 then some m else none

/-- The double of a sign and a rounded magnitude. -/
def JsNumber.ofRounded (negative : Bool) : Option Nat → JsNumber
  | some m => JsNumber.finite negative m
  | none => JsNumber.infinite negative

/-- The double nearest to the natural number `k`. -/
def JsNumber.ofNat (k : Nat) : JsNumber :=
  JsNumber.ofRounded false (roundMagnitude (k * unitsPerOne) 1)

/-- The double nearest to `m / 10^e`, the value of the decimal literal. -/
def JsNumber.ofDecimal (m e : Nat) : JsNumber :=
  JsNumber.ofRounded false (roundMagnitude (m * unitsPerOne) (10 ^ e))

/-- Whether the Number is `NaN`. -/
def JsNumber.isNaN : JsNumber → Bool
  | JsNumber.nan => true
  | _ => false

/-- JavaScript truthiness of a Number: the zeros and `NaN` are falsy. -/
def JsNumber.truthy : JsNumber → Bool
  | JsNumber.finite _ m => decide (m ≠ 0)
  | JsNumber.infinite _ => true
  | JsNumber.nan => false

/-- The operator `*` on Numbers. -/
def jsMul : JsNumber → JsNumber → JsNumber
  | JsNumber.nan, _ => JsNumber.nan
  | _, JsNumber.nan => JsNumber.nan
  | JsNumber.finite s a, JsNumber.finite t b =>
    JsNumber.ofRounded (s != t) (roundMagnitude (a * b) unitsPerOne)
  | JsNumber.finite s a, JsNumber.infinite t =>
    if a = 0 then JsNumber.nan else JsNumber.infinite (s != t)
  | JsNumber.infinite s, JsNumber.finite t b =>
    if b = 0 then JsNumber.nan else JsNumber.infinite (s != t)
  | JsNumber.infinite s, JsNumber.infinite t => JsNumber.infinite (s != t)

/-- The operator `+` on Numbers. -/
def jsAdd : JsNumber → JsNumber → JsNumber
  | JsNumber.nan, _ => JsNumber.nan
  | _, JsNumber.nan => JsNumber.nan
  | JsNumber.finite s a, JsNumber.finite t b =>
    if s = t then JsNumber.ofRounded s (roundMagnitude (a + b) 1)
    else if a = b then JsNumber.finite false 0
    else if b < a then JsNumber.ofRounded s (roundMagnitude (a - b) 1)
    else JsNumber.ofRounded t (roundMagnitude (b - a) 1)
  | JsNumber.finite _ _, JsNumber.infinite t => JsNumber.infinite t
  | JsNumber.infinite s, JsNumber.finite _ _ => JsNumber.infinite s
  | JsNumber.infinite s, JsNumber.infinite t =>
    if s = t then JsNumber.infinite s else JsNumber.nan

/-- The operator `/` on Numbers. -/
def jsDiv : JsNumber → JsNumber → JsNumber
  | JsNumber.nan, _ => JsNumber.nan
  | _, JsNumber.nan => JsNumber.nan
  | JsNumber.finite s a, JsNumber.finite t b =>
    if b = 0 then (if a = 0 then JsNumber.nan else JsNumber.infinite (s != t))
    else JsNumber.ofRounded (s != t) (roundMagnitude (a * unitsPerOne) b)
  | JsNumber.finite s _, JsNumber.infinite t => JsNumber.finite (s != t) 0
  | JsNumber.infinite s, JsNumber.finite t _ => JsNumber.infinite (s != t)
  | JsNumber.infinite _, JsNumber.infinite _ => JsNumber.nan

/-- The operator `<` on Numbers. -/
def jsLt : JsNumber → JsNumber → Bool
  | JsNumber.nan, _ => false
  | _, JsNumber.nan => false
  | JsNumber.finite s a, JsNumber.finite t b =>
    match s, t with
    | false, false => decide (a < b)
    | true, true => decide (b < a)
    | true, false => !(decide (a = 0) && decide (b = 0))
    | false, true => false
  | JsNumber.finite _ _, JsNumber.infinite t => !t
  | JsNumber.infinite s, JsNumber.finite _ _ => s
  | JsNumber.infinite s, JsNumber.infinite t => s && !t

/-- The function `Math.round`: the nearest integer, a tie going up; a value in
`[-0.5, 0)` gives the negative zero. -/
def mathRound : JsNumber → JsNumber
  | JsNumber.finite false a =>
    JsNumber.finite false ((2 * a + unitsPerOne) / (2 * unitsPerOne) * unitsPerOne)
  | JsNumber.finite true a =>
    JsNumber.finite true ((2 * a + unitsPerOne - 1) / (2 * unitsPerOne) * unitsPerOne)
  | x => x

/-! ## Models -/

/-- Field `role` of the `User` model. -/
inductive Role
  | patient
  | doctor
  | admin
  deriving DecidableEq, Repr

/-- The authenticated user that `authenticate` stores in `req.user`. -/
structure User where
  _id : ObjectId
  role : Role
  phone : Option String := none
  deriving DecidableEq, Repr

/-- The flags `availability.<weekday>.isAvailable` of the `Doctor` model, with
the schema defaults. -/
structure Availability where
  sunday : Bool := false
  monday : Bool := true
  tuesday : Bool := true
  wednesday : Bool := true
  thursday : Bool := true
  friday : Bool := true
  saturday : Bool := false
  deriving DecidableEq, Repr

/-- The nested `rating` path of the `Doctor` model, with the schema defaults
`average: 0` and `count: 0`; the schema puts no bound on either. -/
structure DoctorRating where
  average : JsNumber := JsNumber.finite false 0
  count : JsNumber := JsNumber.finite false 0
  deriving DecidableEq, Repr

/-- The `Doctor` model (`models/Doctor.js`): the fields the routes read. -/
structure Doctor where
  _id : ObjectId
  user : ObjectId
  consultationFee : Int
  videoConsultationFee : Option Int := none
  availability : Availability := {}
  isAcceptingAppointments : Bool := true
  rating : DoctorRating := {}
  isVerified : Bool := false
  deriving DecidableEq, Repr

/-- The nested `lock` path of the `Slot` model. -/
structure Lock where
  lockedBy : Option ObjectId := none
  lockedAt : Option Date := none
  expiresAt : Option Date := none
  deriving DecidableEq, Repr

/-- The `Slot` model (`models/Slot.js`) with its schema defaults. -/
structure Slot where
  _id : ObjectId
  doctor : ObjectId
  date : Date
  startTime : String
  endTime : String
  isAvailable : Bool := true
  isBlocked : Bool := false
  blockedReason : Option String := none
  maxPatients : Int := 1
  bookedCount : Int := 0
  lock : Lock := {}
  deriving DecidableEq, Repr

/-- Enum of `Appointment.type`. -/
inductive ApptType
  | inPerson
  | video
  deriving DecidableEq, Repr

/-- Enum of `Appointment.status`. -/
inductive Status
  | pending
  | confirmed
  | inProgress
  | completed
  | cancelled
  | noShow
  deriving DecidableEq, Repr

/-- Enum of `Appointment.payment.status`. -/
inductive PayStatus
  | pending
  | held
  | captured
  | refunded
  | failed
  deriving DecidableEq, Repr

/-- Enum of `Appointment.cancelledBy`. -/
inductive CancelledBy
  | patient
  | doctor
  | admin
  | system
  deriving DecidableEq, Repr

/-- The nested `payment` path of the `Appointment` model. -/
structure Payment where
  status : PayStatus := PayStatus.pending
  amount : Int
  currency : String := "usd"
  stripePaymentIntentId : String
  paidAt : Option Date := none
  refundedAt : Option Date := none
  deriving DecidableEq, Repr

/-- The nested `rating` path of the `Appointment` model. -/
structure AppointmentRating where
  score : Option JsNumber := none
  review : Option String := none
  createdAt : Option Date := none
  deriving DecidableEq, Repr

/-- The `Appointment` model (`models/Appointment.js`) with its schema defaults. -/
structure Appointment where
  _id : ObjectId
  patient : ObjectId
  doctor : ObjectId
  slot : ObjectId
  date : Date
  startTime : String
  endTime : String
  type : ApptType := ApptType.inPerson
  status : Status := Status.pending
  reason : Option String := none
  symptoms : List String := []
  payment : Payment
  videoStartedAt : Option Date := none
  rating : AppointmentRating := {}
  cancelledBy : Option CancelledBy := none
  cancellationReason : Option String := none
  cancelledAt : Option Date := none
  deriving DecidableEq, Repr

/-- The three collections the routes work on. -/
structure Db where
  doctors : List Doctor := []
  slots : List Slot := []
  appointments : List Appointment := []
  deriving DecidableEq, Repr

/-! ## Sessions and transactions -/

/-- A session with an open transaction: `snapshot` is the database at
`startTransaction`, `working` is what operations carrying the session see
and write. -/
structure Session where
  snapshot : Db
  working : Db
  deriving DecidableEq, Repr

/-- The pair `mongoose.startSession()` and `session.startTransaction()`. -/
def startTransaction (db : Db) : Session :=
  { snapshot := db, working := db }

/-- Method `session.abortTransaction()`: every write of the session is dropped. -/
def abortTransaction (s : Session) : Db := s.snapshot

/-- Method `session.commitTransaction()`: the writes of the session become durable. -/
def commitTransaction (s : Session) : Db := s.working

/-! ## Collection helpers -/

/-- Query `Doctor.findById(id)`. -/
def findDoctorById (db : Db) (id : ObjectId) : Option Doctor :=
  db.doctors.find? (fun d => decide (d._id = id))

/-- Query `Doctor.findOne({ user })`. -/
def findDoctorByUser (db : Db) (user : ObjectId) : Option Doctor :=
  db.doctors.find? (fun d => decide (d.user = user))

/-- Query `Slot.findById(id)`. -/
def findSlotById (db : Db) (id : ObjectId) : Option Slot :=
  db.slots.find? (fun s => decide (s._id = id))

/-- Query `Appointment.findById(id)`. -/
def findAppointmentById (db : Db) (id : ObjectId) : Option Appointment :=
  db.appointments.find? (fun a => decide (a._id = id))

/-- Writing a slot document back by `_id` (`slot.save()` of a loaded document). -/
def saveSlot (db : Db) (s : Slot) : Db :=
  { db with slots := db.slots.map (fun t => if t._id = s._id then s else t) }

/-- Writing an appointment document back by `_id`. -/
def saveAppointment (db : Db) (a : Appointment) : Db :=
  { db with appointments := db.appointments.map (fun b => if b._id = a._id then a else b) }

/-- Writing a doctor document back by `_id` (`doctor.save()` of a loaded document). -/
def saveDoctor (db : Db) (d : Doctor) : Db :=
  { db with doctors := db.doctors.map (fun e => if e._id = d._id then d else e) }

/-- Inserting a new appointment document. -/
def insertAppointment (db : Db) (a : Appointment) : Db :=
  { db with appointments := db.appointments ++ [a] }

/-! ## The Stripe collaborator (`services/payment.service.js`) -/

/-- A call made to the Stripe client. -/
inductive StripeCall
  | create (amount : Int) (doctorId patientId slotId : ObjectId)
  | capture (paymentIntentId : String)
  | cancel (paymentIntentId : String)
  deriving DecidableEq, Repr

/-- What `stripe.paymentIntents.create` resolves to. -/
structure PaymentIntent where
  id : String
  client_secret : String
  deriving DecidableEq, Repr

/-! ## Booking: `router.post('/')` of `appointment.routes.js` -/

/-- Body of the booking request, after `createAppointmentValidation`. -/
structure BookRequest where
  doctorId : ObjectId
  slotId : ObjectId
  date : Date
  type : ApptType
  reason : Option String := none
  symptoms : List String := []
  deriving DecidableEq, Repr

/-- What the surroundings answer during one booking request. -/
structure BookEnv where
  /-- the value of `new Date()` and `Date.now()` -/
  now : Date
  /-- the `_id` Mongoose generates for `new Appointment(...)` -/
  newId : ObjectId
  /-- the answer of `createPaymentIntent`; `none` when it throws -/
  paymentIntent : Option PaymentIntent
  /-- whether the storage engine accepts `appointment.save` -/
  appointmentSaveOk : Bool := true
  /-- whether the storage engine accepts `slot.save` -/
  slotSaveOk : Bool := true
  deriving DecidableEq, Repr

/-- How the booking handler answers. -/
inductive BookResult
  /-- `res.status(201).json({ appointment, clientSecret })` -/
  | created (appointment : Appointment) (clientSecret : String)
  /-- `res.status(400).json({ message: 'Doctor not available' })` -/
  | doctorUnavailable
  /-- `res.status(400).json({ message: 'Slot not available' })` -/
  | slotUnavailable
  /-- `next(error)` of the `catch` block -/
  | error
  deriving DecidableEq, Repr

/-- The branch `{ 'lock.expiresAt': { $lt: now } }`: MongoDB matches it only
when the field holds a date before `now`. -/
def lockExpired (l : Lock) (now : Date) : Bool :=
  match l.expiresAt with
  | none => false
  | some e => decide (e < now)

/-- The `$or` of the acquisition filter, lines 36-40: `lockedBy` is null or
missing, or the lock has expired, or the requester holds the lock. -/
def lockFilter (l : Lock) (requester : ObjectId) (now : Date) : Bool :=
  l.lockedBy = none || lockExpired l now || l.lockedBy = some requester

/-- The filter of the conditional `findOneAndUpdate`, lines 31-41, without the
`_id` condition: `isAvailable: true`, `isBlocked: false`,
`bookedCount: { $lt: Decimal128('1') }` and the `$or` on the lock. -/
def acquireFilter (s : Slot) (requester : ObjectId) (now : Date) : Bool :=
  s.isAvailable && !s.isBlocked && decide (s.bookedCount < 1) &&
    lockFilter s.lock requester now

/-- The length of the lock lease, `5 * 60 * 1000`. -/
def leaseMs : Int := 5 * 60 * 1000

/-- The `$set` of lines 43-47. -/
def setLock (s : Slot) (requester : ObjectId) (now : Date) : Slot :=
  { s with lock := { lockedBy := some requester, lockedAt := some now,
                     expiresAt := some (now + leaseMs) } }

/-- The conditional `Slot.findOneAndUpdate(filter, { $set: lock }, { new: true, session })`:
the first slot with this `_id` that passes the filter gets the lock and is
returned in its new state. -/
def tryAcquire (db : Db) (slotId requester : ObjectId) (now : Date) : Option (Slot × Db) :=
  match db.slots.find? (fun s => decide (s._id = slotId) && acquireFilter s requester now) with
  | none => none
  | some s =>
    let locked := setLock s requester now
    some (locked, saveSlot db locked)

/-- JavaScript `a || b` on an optional number: `undefined` and `0` are falsy. -/
def orElse (a : Option Int) (b : Int) : Int :=
  match a with
  | none => b
  | some v => if v = 0 then b else v

/-- The fee of lines 58-60. -/
def calcFee (doctor : Doctor) (type : ApptType) : Int :=
  match type with
  | ApptType.video => orElse doctor.videoConsultationFee doctor.consultationFee
  | ApptType.inPerson => doctor.consultationFee

/-- The document built by `new Appointment({...})`, lines 71-86. -/
def newAppointment (env : BookEnv) (user : User) (req : BookRequest) (doctor : Doctor)
    (slot : Slot) (fee : Int) (pi : PaymentIntent) : Appointment :=
  { _id := env.newId
    patient := user._id
    doctor := doctor._id
    slot := slot._id
    date := req.date
    startTime := slot.startTime
    endTime := slot.endTime
    type := req.type
    reason := req.reason
    symptoms := req.symptoms
    payment := { status := PayStatus.pending, amount := fee, stripePaymentIntentId := pi.id } }

/-- The `length` of a JavaScript string: the number of its UTF-16 code units, two for
a code point above `0xFFFF`. -/
def utf16Length (s : String) : Nat :=
  (s.toList.map (fun c => if c.toNat < 65536 then 1 else 2)).sum

/-- Schema validation of `appointment.save`: `reason` has `maxlength: 500`, which
Mongoose tests on the `length` of the string. -/
def appointmentValid (a : Appointment) : Bool :=
  match a.reason with
  | none => true
  | some r => decide (utf16Length r ≤ 500)

/-- The slot update of lines 91-93. -/
def commitSlot (slot : Slot) : Slot :=
  let bookedCount := slot.bookedCount + 1
  { slot with
    bookedCount := bookedCount
    isAvailable := decide (bookedCount < slot.maxPatients)
    lock := {} }

/-- Whether `appointment.save({ session })` goes through: the document passes
schema validation, its `_id` is not taken, and the storage engine accepts the
write. -/
def appointmentSaves (db : Db) (env : BookEnv) (a : Appointment) : Bool :=
  appointmentValid a && (findAppointmentById db a._id).isNone && env.appointmentSaveOk

/-- The booking handler: answer, database after the request, calls made to Stripe. -/
def book (db : Db) (env : BookEnv) (user : User) (req : BookRequest) :
    BookResult × Db × List StripeCall :=
  let session := startTransaction db
  match findDoctorById session.working req.doctorId with
  | none => (BookResult.doctorUnavailable, abortTransaction session, [])
  | some doctor =>
    if !doctor.isAcceptingAppointments then
      (BookResult.doctorUnavailable, abortTransaction session, [])
    else
      match tryAcquire session.working req.slotId user._id env.now with
      | none => (BookResult.slotUnavailable, abortTransaction session, [])
      | some (slot, working1) =>
        let session1 : Session := { session with working := working1 }
        let fee := calcFee doctor req.type
        let call := StripeCall.create fee doctor._id user._id slot._id
        match env.paymentIntent with
        | none => (BookResult.error, abortTransaction session1, [call])
        | some pi =>
          let appointment := newAppointment env user req doctor slot fee pi
          if !appointmentSaves session1.working env appointment then
            (BookResult.error, abortTransaction session1, [call])
          else
            let session2 : Session :=
              { session1 with working := insertAppointment session1.working appointment }
            let slot2 := commitSlot slot
            if !env.slotSaveOk then
              (BookResult.error, abortTransaction session2, [call])
            else
              let session3 : Session :=
                { session2 with working := saveSlot session2.working slot2 }
              (BookResult.created appointment pi.client_secret,
                commitTransaction session3, [call])

/-! ## Slots: `slot.routes.js` -/

/-- Why a `save` of a new document is rejected. -/
inductive SaveError
  /-- a unique index is violated (`err.code === 11000`) -/
  | duplicateKey
  /-- a required path is missing -/
  | validation
  deriving DecidableEq, Repr

/-- The unique index `{ doctor: 1, date: 1, startTime: 1 }` of `models/Slot.js`,
together with the uniqueness of `_id`: whether a stored slot collides with `s`. -/
def slotCollides (db : Db) (s : Slot) : Bool :=
  db.slots.any (fun t =>
    decide (t._id = s._id) ||
      (decide (t.doctor = s.doctor) && decide (t.date = s.date) &&
        decide (t.startTime = s.startTime)))

/-- Saving a new slot document (`slot.save()` after `new Slot(...)`). -/
def insertSlot (db : Db) (s : Slot) : Except SaveError Db :=
  if slotCollides db s then Except.error SaveError.duplicateKey
  else Except.ok { db with slots := db.slots ++ [s] }

/-- A decimal digit between `0` and `hi`. -/
def digitUpTo (c hi : Char) : Bool := decide ('0' ≤ c) && decide (c ≤ hi)

/-- The regular expression `^([01]\d|2[0-3]):([0-5]\d)$` of `createSlotValidation`. -/
def validTime (t : String) : Bool :=
  match t.toList with
  | [h1, h2, c, m1, m2] =>
    ((digitUpTo h1 '1' && digitUpTo h2 '9') || (h1 == '2' && digitUpTo h2 '3')) &&
      c == ':' && digitUpTo m1 '5' && digitUpTo m2 '9'
  | _ => false

/-- Body of `POST /slots`; `date` has passed `isISO8601`. -/
structure CreateSlotBody where
  date : Date
  startTime : String
  endTime : String
  maxPatients : Option Int := none
  deriving DecidableEq, Repr

/-- How a slot route answers. -/
inductive SlotResult
  /-- `res.status(201).json({ slot })` -/
  | created (slot : Slot)
  /-- `res.status(201).json({ message, slots })` of the bulk route -/
  | createdMany (slots : List Slot)
  /-- `res.json(...)` with status 200 -/
  | ok
  /-- `res.status(400).json({ message: 'Validation Error' })` -/
  | validationError
  /-- `res.status(400).json({ message: 'Slot already exists' })` -/
  | alreadyExists
  /-- `res.status(400).json({ message: 'Missing required fields' })` -/
  | missingFields
  /-- `res.status(400).json({ message: 'Cannot delete slot with bookings' })` -/
  | hasBookings
  /-- `res.status(403).json({ message: 'Not authorized to access this resource' })` -/
  | forbidden
  /-- `res.status(404).json({ message: 'Doctor profile not found' })` -/
  | noDoctorProfile
  /-- `res.status(404).json({ message: 'Slot not found' })` -/
  | notFound
  /-- `next(error)` -/
  | error
  deriving DecidableEq, Repr

/-- The middleware `authorize(...roles)` of `middleware/auth.js`. -/
def authorize (roles : List Role) (user : User) : Bool := roles.contains user.role

/-- Handler `router.post('/')` of `slot.routes.js`; `newId` is the `_id` Mongoose
generates for the new document. -/
def createSlot (db : Db) (newId : ObjectId) (user : User) (body : CreateSlotBody) :
    SlotResult × Db :=
  if !authorize [Role.doctor] user then (SlotResult.forbidden, db)
  else if !(validTime body.startTime && validTime body.endTime) then
    (SlotResult.validationError, db)
  else
    match findDoctorByUser db user._id with
    | none => (SlotResult.noDoctorProfile, db)
    | some doctor =>
      let maxPatients := body.maxPatients.getD 1
      let existingSlot := db.slots.find? (fun s =>
        decide (s.doctor = doctor._id) && decide (s.date = body.date) &&
          decide (s.startTime = body.startTime))
      match existingSlot with
      | some _ => (SlotResult.alreadyExists, db)
      | none =>
        let slot : Slot :=
          { _id := newId, doctor := doctor._id, date := body.date,
            startTime := body.startTime, endTime := body.endTime,
            maxPatients := maxPatients }
        match insertSlot db slot with
        | Except.ok db1 => (SlotResult.created slot, db1)
        | Except.error _ => (SlotResult.error, db)

/-- One element of `req.body.slots` of the bulk route; nothing validates it. -/
structure SlotTime where
  startTime : Option String
  endTime : Option String
  maxPatients : Option Int := none
  deriving DecidableEq, Repr

/-- Body of `POST /slots/bulk`. -/
structure BulkBody where
  startDate : Option Date
  endDate : Option Date
  slots : List SlotTime
  deriving DecidableEq, Repr

/-- One day, in milliseconds. -/
def dayMs : Int := 24 * 60 * 60 * 1000

/-- Method `Date.prototype.getDay()` for a server clock in UTC: 0 is Sunday;
the epoch fell on a Thursday. -/
def getDay (d : Date) : Int := (d / dayMs + 4) % 7

/-- The lookup `doctor.availability[dayOfWeek]?.isAvailable` with `dayOfWeek`
taken from the array of weekday names indexed by `d.getDay()`. -/
def worksOn (doctor : Doctor) (d : Date) : Bool :=
  match getDay d with
  | 0 => doctor.availability.sunday
  | 1 => doctor.availability.monday
  | 2 => doctor.availability.tuesday
  | 3 => doctor.availability.wednesday
  | 4 => doctor.availability.thursday
  | 5 => doctor.availability.friday
  | _ => doctor.availability.saturday

/-- The mutable state of the two nested loops of the bulk route. -/
structure BulkState where
  db : Db
  /-- the `_id` the next `new Slot(...)` receives -/
  nextId : ObjectId
  /-- the array `createdSlots` -/
  createdSlots : List Slot := []
  /-- an error other than a duplicate key left the loops -/
  thrown : Bool := false
  deriving DecidableEq, Repr

/-- The expression `slotTime.maxPatients || 1`. -/
def maxPatientsOrOne (m : Option Int) : Int := orElse m 1

/-- Saving the document of one `slotTime` on day `d`: a missing required path
is a validation error, a unique-index violation has code 11000. -/
def saveSlotTime (db : Db) (id : ObjectId) (doctor : Doctor) (d : Date) (t : SlotTime) :
    Except SaveError (Slot × Db) :=
  match t.startTime, t.endTime with
  | some st, some en =>
    let slot : Slot :=
      { _id := id, doctor := doctor._id, date := d, startTime := st, endTime := en,
        maxPatients := maxPatientsOrOne t.maxPatients }
    match insertSlot db slot with
    | Except.ok db1 => Except.ok (slot, db1)
    | Except.error e => Except.error e
  | _, _ => Except.error SaveError.validation

/-- The inner loop `for (const slotTime of slotTimes)` with its `try`/`catch`:
a duplicate is skipped, any other error is thrown again. -/
def bulkDay (doctor : Doctor) (d : Date) : List SlotTime → BulkState → BulkState
  | [], st => st
  | t :: ts, st =>
    if st.thrown then st
    else
      match saveSlotTime st.db st.nextId doctor d t with
      | Except.ok (slot, db1) =>
        bulkDay doctor d ts
          { st with db := db1, nextId := st.nextId + 1,
                    createdSlots := st.createdSlots ++ [slot] }
      | Except.error SaveError.duplicateKey =>
        bulkDay doctor d ts { st with nextId := st.nextId + 1 }
      | Except.error SaveError.validation =>
        { st with nextId := st.nextId + 1, thrown := true }

/-- The outer loop `for (let d = new Date(start); d <= end; d.setDate(d.getDate() + 1))`,
run for at most `fuel` days. -/
def bulkLoop (doctor : Doctor) (endDate : Date) (slotTimes : List SlotTime) :
    Nat → Date → BulkState → BulkState
  | 0, _, st => st
  | fuel + 1, d, st =>
    if st.thrown then st
    else if d ≤ endDate then
      let st1 := if worksOn doctor d then bulkDay doctor d slotTimes st else st
      bulkLoop doctor endDate slotTimes fuel (d + dayMs) st1
    else st

/-- The number of days the outer loop can visit between `start` and `endDate`. -/
def bulkFuel (start endDate : Date) : Nat := ((endDate - start) / dayMs + 1).toNat

/-- Handler `router.post('/bulk')` of `slot.routes.js`.  The route opens no
transaction: slots saved before an error stay. -/
def bulkCreate (db : Db) (newId : ObjectId) (user : User) (body : BulkBody) :
    SlotResult × Db :=
  if !authorize [Role.doctor] user then (SlotResult.forbidden, db)
  else
    match findDoctorByUser db user._id with
    | none => (SlotResult.noDoctorProfile, db)
    | some doctor =>
      match body.startDate, body.endDate with
      | some start, some endDate =>
        if body.slots.isEmpty then (SlotResult.missingFields, db)
        else
          let st := bulkLoop doctor endDate body.slots (bulkFuel start endDate) start
            { db := db, nextId := newId }
          if st.thrown then (SlotResult.error, st.db)
          else (SlotResult.createdMany st.createdSlots, st.db)
      | _, _ => (SlotResult.missingFields, db)

/-- Body of `PATCH /slots/:id/block`. -/
structure BlockBody where
  blocked : Bool
  reason : Option String := none
  deriving DecidableEq, Repr

/-- Handler `router.patch('/:id/block')` of `slot.routes.js`.  When `blocked` is set
and the body has no `reason`, the update carries `blockedReason: undefined`, a key
that Mongoose drops: the stored reason stays. -/
def blockSlot (db : Db) (user : User) (id : ObjectId) (body : BlockBody) : SlotResult × Db :=
  if !authorize [Role.doctor] user then (SlotResult.forbidden, db)
  else
    match findDoctorByUser db user._id with
    | none => (SlotResult.noDoctorProfile, db)
    | some doctor =>
      match db.slots.find? (fun s => decide (s._id = id) && decide (s.doctor = doctor._id)) with
      | none => (SlotResult.notFound, db)
      | some slot =>
        let slot1 : Slot :=
          { slot with isBlocked := body.blocked
                      blockedReason :=
                        if body.blocked then
                          match body.reason with
                          | some reason => some reason
                          | none => slot.blockedReason
                        else none }
        (SlotResult.ok, saveSlot db slot1)

/-- Handler `router.delete('/:id')` of `slot.routes.js`. -/
def deleteSlot (db : Db) (user : User) (id : ObjectId) : SlotResult × Db :=
  if !authorize [Role.doctor] user then (SlotResult.forbidden, db)
  else
    match findDoctorByUser db user._id with
    | none => (SlotResult.noDoctorProfile, db)
    | some doctor =>
      match db.slots.find? (fun s => decide (s._id = id) && decide (s.doctor = doctor._id)) with
      | none => (SlotResult.notFound, db)
      | some slot =>
        if slot.bookedCount > 0 then (SlotResult.hasBookings, db)
        else (SlotResult.ok, { db with slots := db.slots.filter (fun s => s._id != slot._id) })

/-- The callback of `slots.filter(...)` in `router.get('/doctor/:doctorId')`, lines
45-48 of `slot.routes.js`: a slot without `lock.lockedBy` is kept; a locked slot is
kept when `slot.lock.expiresAt < new Date()`, which is false for a missing
`expiresAt`.  The query before it reads `doctor`, `isAvailable`, `isBlocked` and
`date` only. -/
def listingLockFilter (s : Slot) (now : Date) : Bool :=
  if s.lock.lockedBy.isNone then true
  else
    match s.lock.expiresAt with
    | none => false
    | some e => decide (e < now)

/-- The virtual `isBookable` of `models/Slot.js`, lines 60-65. -/
def isBookable (s : Slot) (now : Date) : Bool :=
  s.isAvailable && !s.isBlocked && decide (s.bookedCount < s.maxPatients) &&
    (s.lock.lockedBy.isNone ||
      (match s.lock.expiresAt with
        | none => false
        | some e => decide (e < now)))

/-! ## Appointment lifecycle: `appointment.routes.js`, `video.routes.js`, `payment.routes.js` -/

/-- How a lifecycle route answers. -/
inductive ApptResult
  /-- `res.json({ appointment })` -/
  | ok (appointment : Appointment)
  /-- `res.status(400).json({ message: 'Payment already processed' })` -/
  | alreadyProcessed
  /-- `res.status(400).json({ message: 'Cannot cancel this appointment' })` -/
  | cannotCancel
  /-- `res.status(400).json({ message: 'Cannot complete this appointment' })` -/
  | cannotComplete
  /-- `res.status(403).json({ message: 'Not authorized' })` -/
  | notAuthorized
  /-- `res.status(403).json(...)` of `authorize` or of the video routes -/
  | forbidden
  /-- `res.status(404).json({ message: 'Doctor profile not found' })` -/
  | noDoctorProfile
  /-- `res.status(404).json({ message: 'Appointment not found' })` -/
  | notFound
  /-- `next(error)` of the `catch` block -/
  | error
  /-- the `catch` block itself threw: no answer is sent -/
  | unhandled
  deriving DecidableEq, Repr

/-- What the surroundings answer during one lifecycle request. -/
structure ApptEnv where
  /-- the value of `new Date()` -/
  now : Date
  /-- whether the Stripe call of the handler resolves -/
  stripeOk : Bool := true
  /-- whether the storage engine accepts `appointment.save` -/
  appointmentSaveOk : Bool := true
  /-- whether the storage engine accepts the slot update -/
  slotUpdateOk : Bool := true
  /-- whether the mailer resolves -/
  emailOk : Bool := true
  /-- whether the SMS gateway resolves -/
  smsOk : Bool := true
  deriving DecidableEq, Repr

/-- The document that the confirm-payment handler saves, lines 130-131. -/
def confirmedAppointment (a : Appointment) : Appointment :=
  { a with payment := { a.payment with status := PayStatus.held }, status := Status.confirmed }

/-- Handler `router.post('/:id/confirm-payment')`. -/
def confirmPayment (db : Db) (env : ApptEnv) (user : User) (id : ObjectId) :
    ApptResult × Db :=
  match db.appointments.find? (fun a => decide (a._id = id) && decide (a.patient = user._id)) with
  | none => (ApptResult.notFound, db)
  | some appointment =>
    if appointment.payment.status ≠ PayStatus.pending then (ApptResult.alreadyProcessed, db)
    else
      let appointment1 := confirmedAppointment appointment
      if !env.appointmentSaveOk then (ApptResult.error, db)
      else
        let db1 := saveAppointment db appointment1
        -- `sendAppointmentConfirmation` reads `appointment.doctor.user`
        if (findDoctorById db appointment.doctor).isNone || !env.emailOk then
          (ApptResult.error, db1)
        else if user.phone.isSome && !env.smsOk then (ApptResult.error, db1)
        else (ApptResult.ok appointment1, db1)

/-- The update `Slot.findByIdAndUpdate(id, { $inc: { bookedCount: -1 }, isAvailable: true })`. -/
def releaseSlot (db : Db) (id : ObjectId) : Db :=
  match findSlotById db id with
  | none => db
  | some slot => saveSlot db { slot with bookedCount := slot.bookedCount - 1, isAvailable := true }

/-- Lines 267-271: a held payment becomes refunded at `now`; any other payment
is left alone. -/
def refundIfHeld (p : Payment) (now : Date) : Payment :=
  if p.status = PayStatus.held then
    { p with status := PayStatus.refunded, refundedAt := some now }
  else p

/-- The expression `isPatient ? 'patient' : (isDoctor ? 'doctor' : 'admin')`. -/
def cancelActor (isPatient isDoctor : Bool) : CancelledBy :=
  if isPatient then CancelledBy.patient
  else if isDoctor then CancelledBy.doctor else CancelledBy.admin

/-- The document that the cancel handler saves, lines 267-276. -/
def cancelledAppointment (a : Appointment) (now : Date) (actor : CancelledBy)
    (reason : Option String) : Appointment :=
  { a with
    payment := refundIfHeld a.payment now
    status := Status.cancelled
    cancelledBy := some actor
    cancellationReason := reason
    cancelledAt := some now }

/-- The Stripe call of the cancel handler: `cancelPayment` when the payment is held. -/
def cancelCalls (a : Appointment) : List StripeCall :=
  if a.payment.status = PayStatus.held then
    [StripeCall.cancel a.payment.stripePaymentIntentId]
  else []

/-- Whether the caller's doctor profile is the doctor of the appointment:
`doctor && appointment.doctor._id.toString() === doctor._id.toString()`. -/
def isDoctorOf (doctor : Option Doctor) (a : Appointment) : Bool :=
  match doctor with
  | none => false
  | some d => decide (a.doctor = d._id)

/-- Handler `router.post('/:id/cancel')`: answer, database after the request,
calls made to Stripe. -/
def cancel (db : Db) (env : ApptEnv) (user : User) (id : ObjectId) (reason : Option String) :
    ApptResult × Db × List StripeCall :=
  let session := startTransaction db
  match findAppointmentById session.working id with
  | none => (ApptResult.notFound, abortTransaction session, [])
  | some appointment =>
    let doctor := findDoctorByUser db user._id
    let isPatient := decide (appointment.patient = user._id)
    -- `appointment.doctor._id` of the populated path throws when the doctor is gone
    if doctor.isSome && (findDoctorById session.working appointment.doctor).isNone then
      (ApptResult.error, abortTransaction session, [])
    else
      let isDoctor := isDoctorOf doctor appointment
      let isAdmin := decide (user.role = Role.admin)
      if !isPatient && !isDoctor && !isAdmin then
        (ApptResult.notAuthorized, abortTransaction session, [])
      else if appointment.status = Status.completed ∨ appointment.status = Status.cancelled then
        (ApptResult.cannotCancel, abortTransaction session, [])
      else if decide (appointment.payment.status = PayStatus.held) && !env.stripeOk then
        (ApptResult.error, abortTransaction session, cancelCalls appointment)
      else
        let appointment1 :=
          cancelledAppointment appointment env.now (cancelActor isPatient isDoctor) reason
        if !env.appointmentSaveOk then
          (ApptResult.error, abortTransaction session, cancelCalls appointment)
        else
          let session1 : Session :=
            { session with working := saveAppointment session.working appointment1 }
          if !env.slotUpdateOk then
            (ApptResult.error, abortTransaction session1, cancelCalls appointment)
          else
            let session2 : Session :=
              { session1 with working := releaseSlot session1.working appointment1.slot }
            let db1 := commitTransaction session2
            -- after the commit `abortTransaction` of the `catch` block throws
            if !env.emailOk then (ApptResult.unhandled, db1, cancelCalls appointment)
            else (ApptResult.ok appointment1, db1, cancelCalls appointment)

/-- Lines 322-326: a held payment becomes captured at `now`; any other payment is
left alone. -/
def captureIfHeld (p : Payment) (now : Date) : Payment :=
  if p.status = PayStatus.held then
    { p with status := PayStatus.captured, paidAt := some now }
  else p

/-- The document that the complete handler saves, lines 322-328. -/
def completedAppointment (a : Appointment) (now : Date) : Appointment :=
  { a with payment := captureIfHeld a.payment now, status := Status.completed }

/-- The Stripe call of the complete handler: `capturePayment` when the payment is held. -/
def completeCalls (a : Appointment) : List StripeCall :=
  if a.payment.status = PayStatus.held then
    [StripeCall.capture a.payment.stripePaymentIntentId]
  else []

/-- Handler `router.post('/:id/complete')`: answer, database after the request,
calls made to Stripe. -/
def complete (db : Db) (env : ApptEnv) (user : User) (id : ObjectId) :
    ApptResult × Db × List StripeCall :=
  if !authorize [Role.doctor] user then (ApptResult.forbidden, db, [])
  else
    match findDoctorByUser db user._id with
    | none => (ApptResult.noDoctorProfile, db, [])
    | some doctor =>
      match db.appointments.find? (fun a => decide (a._id = id) && decide (a.doctor = doctor._id)) with
      | none => (ApptResult.notFound, db, [])
      | some appointment =>
        if appointment.status ≠ Status.confirmed ∧ appointment.status ≠ Status.inProgress then
          (ApptResult.cannotComplete, db, [])
        else if decide (appointment.payment.status = PayStatus.held) && !env.stripeOk then
          (ApptResult.error, db, completeCalls appointment)
        else
          let appointment1 := completedAppointment appointment env.now
          if !env.appointmentSaveOk then (ApptResult.error, db, completeCalls appointment)
          else (ApptResult.ok appointment1, saveAppointment db appointment1,
                  completeCalls appointment)

/-- The document that the start handler saves, lines 101-102 of `video.routes.js`. -/
def startedAppointment (a : Appointment) (now : Date) : Appointment :=
  { a with status := Status.inProgress, videoStartedAt := some now }

/-- Handler `router.post('/start/:appointmentId')` of `video.routes.js`. -/
def videoStart (db : Db) (env : ApptEnv) (user : User) (id : ObjectId) : ApptResult × Db :=
  match findDoctorByUser db user._id with
  | none => (ApptResult.forbidden, db)
  | some doctor =>
    match db.appointments.find? (fun a => decide (a._id = id) && decide (a.doctor = doctor._id)) with
    | none => (ApptResult.notFound, db)
    | some appointment =>
      let appointment1 := startedAppointment appointment env.now
      if !env.appointmentSaveOk then (ApptResult.error, db)
      else (ApptResult.ok appointment1, saveAppointment db appointment1)

/-- A Stripe event that passed `stripe.webhooks.constructEvent`. -/
inductive WebhookEvent
  /-- `payment_intent.succeeded` with the id of the intent -/
  | succeeded (id : String)
  /-- `payment_intent.payment_failed` with the id of the intent -/
  | paymentFailed (id : String)
  /-- `charge.refunded` with `payment_intent` of the charge -/
  | refunded (paymentIntent : String)
  /-- any other event type -/
  | other
  deriving DecidableEq, Repr

/-- The call `Appointment.findOneAndUpdate({ 'payment.stripePaymentIntentId': id }, update)`. -/
def updateByIntent (db : Db) (id : String) (update : Appointment → Appointment) : Db :=
  match db.appointments.find? (fun a => decide (a.payment.stripePaymentIntentId = id)) with
  | none => db
  | some a => saveAppointment db (update a)

/-- The update of the case `payment_intent.succeeded`. -/
def heldByWebhook (a : Appointment) : Appointment :=
  { a with payment := { a.payment with status := PayStatus.held } }

/-- The update of the case `payment_intent.payment_failed`. -/
def failedByWebhook (a : Appointment) : Appointment :=
  { a with
    payment := { a.payment with status := PayStatus.failed }
    status := Status.cancelled
    cancelledBy := some CancelledBy.system
    cancellationReason := some "Payment failed" }

/-- The update of the case `charge.refunded`. -/
def refundedByWebhook (now : Date) (a : Appointment) : Appointment :=
  { a with payment := { a.payment with status := PayStatus.refunded, refundedAt := some now } }

/-- Handler `router.post('/webhook')` of `payment.routes.js`, for an event with
a valid signature at time `now`. -/
def webhook (db : Db) (now : Date) (event : WebhookEvent) : Db :=
  match event with
  | WebhookEvent.succeeded id => updateByIntent db id heldByWebhook
  | WebhookEvent.paymentFailed id => updateByIntent db id failedByWebhook
  | WebhookEvent.refunded id => updateByIntent db id (refundedByWebhook now)
  | WebhookEvent.other => db

/-! ## Rating: `router.post('/:id/rate')` of `appointment.routes.js` -/

/-- A value of a field of the parsed JSON body. -/
inductive JsValue
  /-- the field is missing -/
  | undefined
  | null
  | bool (b : Bool)
  | number (x : JsNumber)
  | string (s : String)
  /-- an array or an object -/
  | object
  deriving DecidableEq, Repr

/-- Body of the rating request: no middleware checks the type of `score`. -/
structure RateBody where
  score : JsValue
  review : Option String := none
  deriving DecidableEq, Repr

/-- What the surroundings answer during one rating request. -/
structure RateEnv where
  /-- the value of `new Date()` -/
  now : Date
  /-- whether the storage engine accepts `appointment.save` -/
  appointmentSaveOk : Bool := true
  /-- whether the storage engine accepts `doctor.save` -/
  doctorSaveOk : Bool := true
  /-- the Number `Number(score)` that the JavaScript runtime makes of a `score` that
  is a string, an array or an object -/
  scoreAsNumber : JsNumber := JsNumber.nan
  /-- the Number that the runtime makes of the string `(average * count) + score`
  when `score` is a string, an array or an object -/
  sumAsNumber : JsNumber := JsNumber.nan
  deriving DecidableEq, Repr

/-- How the rating handler answers. -/
inductive RateResult
  /-- `res.json({ appointment })` -/
  | ok (appointment : Appointment)
  /-- `res.status(400).json({ message: 'Rating must be between 1 and 5' })` -/
  | invalidScore
  /-- `res.status(404).json({ message: 'Appointment not found or not completed' })` -/
  | notFound
  /-- `res.status(400).json({ message: 'Already rated' })` -/
  | alreadyRated
  /-- `next(error)` of the `catch` block -/
  | error
  deriving DecidableEq, Repr

/-- JavaScript truthiness of a stored optional Number: `undefined`, the zeros and
`NaN` are falsy. -/
def truthy (x : Option JsNumber) : Bool :=
  match x with
  | none => false
  | some v => v.truthy

/-- JavaScript truthiness of a value. -/
def JsValue.truthy : JsValue → Bool
  | JsValue.undefined => false
  | JsValue.null => false
  | JsValue.bool b => b
  | JsValue.number x => x.truthy
  | JsValue.string s => decide (s ≠ "")
  | JsValue.object => true

/-- The Number that `<`, `>` and the arithmetic `+` read in a value. -/
def toNumber (env : RateEnv) : JsValue → JsNumber
  | JsValue.undefined => JsNumber.nan
  | JsValue.null => JsNumber.finite false 0
  | JsValue.bool b => if b then JsNumber.ofNat 1 else JsNumber.finite false 0
  | JsValue.number x => x
  | JsValue.string _ => env.scoreAsNumber
  | JsValue.object => env.scoreAsNumber

/-- The guard `!score || score < 1 || score > 5` of line 342. -/
def scoreRejected (env : RateEnv) (score : JsValue) : Bool :=
  !score.truthy || jsLt (toNumber env score) (JsNumber.ofNat 1) ||
    jsLt (JsNumber.ofNat 5) (toNumber env score)

/-- The cast of Mongoose for a path of type `Number`: the outer `none` is a
`CastError`, the inner `none` a path left unset.  A boolean and a string are cast
by `Number(value)`, `NaN` is refused, and so are arrays and objects. -/
def castNumber (env : RateEnv) : JsValue → Option (Option JsNumber)
  | JsValue.undefined => some none
  | JsValue.null => some none
  | JsValue.bool b => some (some (toNumber env (JsValue.bool b)))
  | JsValue.number x => if x.isNaN then none else some (some x)
  | JsValue.string s =>
    if s = "" then some none
    else if env.scoreAsNumber.isNaN then none else some (some env.scoreAsNumber)
  | JsValue.object => none

/-- The validators `min: 1, max: 5` of `rating.score` in `models/Appointment.js`. -/
def scoreValid (score : Option JsNumber) : Bool :=
  match score with
  | none => true
  | some x => !jsLt x (JsNumber.ofNat 1) && !jsLt (JsNumber.ofNat 5) x

/-- The dividend `(doctor.rating.average * doctor.rating.count) + score` of line 370,
as the Number that `/` reads in it: `+` adds when `score` is a Number, a boolean,
`null` or `undefined`, and concatenates when it is a string, an array or an
object. -/
def scoreSum (env : RateEnv) (r : DoctorRating) (score : JsValue) : JsNumber :=
  match score with
  | JsValue.string _ => env.sumAsNumber
  | JsValue.object => env.sumAsNumber
  | v => jsAdd (jsMul r.average r.count) (toNumber env v)

/-- The score that is the Number `k`. -/
def JsValue.ofNat (k : Nat) : JsValue := JsValue.number (JsNumber.ofNat k)

/-- The doctor rating update of lines 369-375. -/
def recordRating (env : RateEnv) (r : DoctorRating) (score : JsValue) : DoctorRating :=
  let newCount := jsAdd r.count (JsNumber.ofNat 1)
  let newAverage := jsDiv (scoreSum env r score) newCount
  { average := jsDiv (mathRound (jsMul newAverage (JsNumber.ofNat 10))) (JsNumber.ofNat 10)
    count := newCount }

/-- The document that the rating handler saves, lines 360-364, `score` being the
cast of the score of the request. -/
def ratedAppointment (a : Appointment) (score : Option JsNumber) (review : Option String)
    (now : Date) : Appointment :=
  { a with rating := { score := score, review := review, createdAt := some now } }

/-- The doctor document that the rating handler saves, lines 372-375. -/
def ratedDoctor (env : RateEnv) (d : Doctor) (score : JsValue) : Doctor :=
  { d with rating := recordRating env d.rating score }

/-- Whether Mongoose casts the aggregate: a `NaN` is a `CastError`, which
`doctor.save` rejects with. -/
def ratingCasts (r : DoctorRating) : Bool := !r.average.isNaN && !r.count.isNaN

/-- Handler `router.post('/:id/rate')`.  The route opens no transaction: the
rating of the appointment stays when the doctor update fails. -/
def rate (db : Db) (env : RateEnv) (user : User) (id : ObjectId) (body : RateBody) :
    RateResult × Db :=
  if scoreRejected env body.score then (RateResult.invalidScore, db)
  else
    match db.appointments.find? (fun a =>
        decide (a._id = id) && decide (a.patient = user._id) &&
          decide (a.status = Status.completed)) with
    | none => (RateResult.notFound, db)
    | some appointment =>
      if truthy appointment.rating.score then (RateResult.alreadyRated, db)
      else
        -- `appointment.save` rejects with the `CastError` of `rating.score`
        match castNumber env body.score with
        | none => (RateResult.error, db)
        | some score =>
          let appointment1 := ratedAppointment appointment score body.review env.now
          if !(scoreValid score && env.appointmentSaveOk) then (RateResult.error, db)
          else
            let db1 := saveAppointment db appointment1
            -- `doctor.rating` throws when `Doctor.findById` found nothing
            match findDoctorById db1 appointment.doctor with
            | none => (RateResult.error, db1)
            | some doctor =>
              let doctor1 := ratedDoctor env doctor body.score
              if !(ratingCasts doctor1.rating && env.doctorSaveOk) then (RateResult.error, db1)
              else (RateResult.ok appointment1, saveDoctor db1 doctor1)

/-! ## The system as a transition system -/

/-- A request the server handles. -/
inductive Op
  | createSlot (newId : ObjectId) (user : User) (body : CreateSlotBody)
  | bulkCreate (newId : ObjectId) (user : User) (body : BulkBody)
  | blockSlot (user : User) (id : ObjectId) (body : BlockBody)
  | deleteSlot (user : User) (id : ObjectId)
  | book (env : BookEnv) (user : User) (req : BookRequest)
  | confirmPayment (env : ApptEnv) (user : User) (id : ObjectId)
  | cancel (env : ApptEnv) (user : User) (id : ObjectId) (reason : Option String)
  | complete (env : ApptEnv) (user : User) (id : ObjectId)
  | videoStart (env : ApptEnv) (user : User) (id : ObjectId)
  | webhook (now : Date) (event : WebhookEvent)
  | rate (env : RateEnv) (user : User) (id : ObjectId) (body : RateBody)
  /-- the admin and profile routes that rewrite the `Doctor` collection -/
  | setDoctors (doctors : List Doctor)
  deriving DecidableEq, Repr

/-- The database after one request. -/
def step (db : Db) : Op → Db
  | Op.createSlot newId user body => (createSlot db newId user body).2
  | Op.bulkCreate newId user body => (bulkCreate db newId user body).2
  | Op.blockSlot user id body => (blockSlot db user id body).2
  | Op.deleteSlot user id => (deleteSlot db user id).2
  | Op.book env user req => (book db env user req).2.1
  | Op.confirmPayment env user id => (confirmPayment db env user id).2
  | Op.cancel env user id reason => (cancel db env user id reason).2.1
  | Op.complete env user id => (complete db env user id).2.1
  | Op.videoStart env user id => (videoStart db env user id).2
  | Op.webhook now event => webhook db now event
  | Op.rate env user id body => (rate db env user id body).2
  | Op.setDoctors doctors => { db with doctors := doctors }

/-- The database after a sequence of requests. -/
def run (db : Db) (ops : List Op) : Db := ops.foldl step db

/-- The empty database. -/
def emptyDb : Db := {}

/-- A database is reachable when some sequence of requests leads to it from
the empty database. -/
def Reachable (db : Db) : Prop := ∃ ops : List Op, run emptyDb ops = db

/-! ## Answers and slot predicates of the specification -/

/-- Whether a booking answer is the 201 answer. -/
def BookResult.isCreated : BookResult → Bool
  | BookResult.created _ _ => true
  | _ => false

/-- The specification's clause `lock.expiresAt ≤ now`. -/
def lockExpiredSpec (l : Lock) (now : Date) : Bool :=
  match l.expiresAt with
  | none => false
  | some e => decide (e ≤ now)

/-- Bookable in the words of the specification: not blocked, `bookedCount` below
`maxCapacity`, and the lock absent, or `lock.expiresAt ≤ now`, or held by the
requester. -/
def specBookable (s : Slot) (requester : ObjectId) (now : Date) : Bool :=
  !s.isBlocked && decide (s.bookedCount < s.maxPatients) &&
    (s.lock.lockedBy.isNone || lockExpiredSpec s.lock now ||
      decide (s.lock.lockedBy = some requester))

/-- The appointment of a 201 answer. -/
def BookResult.appointment? : BookResult → Option Appointment
  | BookResult.created a _ => some a
  | _ => none

/-- The rational value of a finite Number, and 0 for the infinities and `NaN`. -/
def JsNumber.toRat : JsNumber → ℚ
  | JsNumber.finite s m => (if s then -1 else 1) * (m : ℚ) / (2 : ℚ) ^ 1074
  | _ => 0

/-- The rounding `round1` of the specification: to one decimal place, a half going
up. -/
def specRound1 (x : ℚ) : ℚ := (⌊x * 10 + 1 / 2⌋ : ℚ) / 10

/-- The average of the specification after a rating `s` on the aggregate
`{average a, count c}`: `round1((a*c + s) / (c+1))`. -/
def specAverage (a c s : ℚ) : ℚ := specRound1 ((a * c + s) / (c + 1))

/-! ## Invariants of the transition system -/

/-- The capacity bound that the transition system keeps: `bookedCount ≤ 1`. -/
def SlotsBounded (db : Db) : Prop := ∀ s ∈ db.slots, s.bookedCount ≤ 1

/-- The statuses that the cancel handler refuses to leave: `['completed', 'cancelled']`. -/
def Status.terminal : Status → Bool
  | Status.completed => true
  | Status.cancelled => true
  | _ => false

/-- An appointment that holds a place in slot `sid`: it references the slot and is
neither completed nor cancelled. -/
def activeOn (sid : ObjectId) (a : Appointment) : Bool :=
  decide (a.slot = sid) && !a.status.terminal

/-- The number of appointments that hold a place in slot `sid`. -/
def activeCount (db : Db) (sid : ObjectId) : Nat := db.appointments.countP (activeOn sid)

/-- The ledger invariant: appointment ids are unique, every slot counts at least
the appointments that hold a place in it, and every such appointment references a
stored slot. -/
structure LedgerInv (db : Db) : Prop where
  ids : (db.appointments.map (fun a => a._id)).Nodup
  covered : ∀ s ∈ db.slots, (activeCount db s._id : Int) ≤ s.bookedCount
  linked : ∀ a ∈ db.appointments, a.status.terminal = false →
    ∃ s ∈ db.slots, s._id = a.slot

/-- Whether a request is a payment confirmation or a video start that names an
appointment which is already completed or cancelled. -/
def restartsTerminal (db : Db) : Op → Bool
  | Op.confirmPayment _ _ id =>
    db.appointments.any (fun a => decide (a._id = id) && a.status.terminal)
  | Op.videoStart _ _ id =>
    db.appointments.any (fun a => decide (a._id = id) && a.status.terminal)
  | _ => false

/-- A sequence of requests, run from `db`, in which no payment confirmation and no
video start names a completed or cancelled appointment. -/
def noRestart (db : Db) : List Op → Bool
  | [] => true
  | op :: ops => !restartsTerminal db op && noRestart (step db op) ops

/-- The coupling of payment status and appointment status of the lifecycle table:
held goes with confirmed or in-progress, captured with completed, refunded with
cancelled. -/
def Coupled (a : Appointment) : Prop :=
  (a.payment.status = PayStatus.held →
    a.status = Status.confirmed ∨ a.status = Status.inProgress) ∧
  (a.payment.status = PayStatus.captured → a.status = Status.completed) ∧
  (a.payment.status = PayStatus.refunded → a.status = Status.cancelled)

/-- Every stored appointment is coupled. -/
def AllCoupled (db : Db) : Prop := ∀ a ∈ db.appointments, Coupled a

/-- Whether a request is none of these: a video start that names a completed or
cancelled appointment, a webhook event `payment_intent.succeeded`, a webhook event
`charge.refunded`. -/
def keepsCoupling (db : Db) : Op → Bool
  | Op.videoStart _ _ id =>
    !db.appointments.any (fun a => decide (a._id = id) && a.status.terminal)
  | Op.webhook _ (WebhookEvent.succeeded _) => false
  | Op.webhook _ (WebhookEvent.refunded _) => false
  | _ => true

/-- A sequence of requests, run from `db`, each of which keeps the coupling. -/
def coupledRun (db : Db) : List Op → Bool
  | [] => true
  | op :: ops => keepsCoupling db op && coupledRun (step db op) ops

/-- A property of slots that the slot writes of the routes keep: it holds for a new
slot, and it survives the block update, the lock and commit of a booking, and the
release of a cancellation. -/
structure SlotClosed (P : Slot → Prop) : Prop where
  fresh : ∀ s : Slot, s.bookedCount = 0 → s.lock = {} → s.isAvailable = true →
    s.isBlocked = false → P s
  block : ∀ (s : Slot) (b : Bool) (r : Option String), P s →
    P { s with isBlocked := b, blockedReason := r }
  commit : ∀ (s : Slot) (r : ObjectId) (now : Date), P s → acquireFilter s r now = true →
    P (commitSlot (setLock s r now))
  release : ∀ s : Slot, P s → P { s with bookedCount := s.bookedCount - 1, isAvailable := true }

/-- The status of every stored appointment, by `_id`. -/
def statusTable (db : Db) : List (ObjectId × Status) :=
  db.appointments.map (fun a => (a._id, a.status))

/-- The values of a slot under the two unique indexes of the collection: `_id`, and
`{ doctor, date, startTime }` of `models/Slot.js`, line 54. -/
def slotKey (s : Slot) : ObjectId × (ObjectId × Date × String) :=
  (s._id, (s.doctor, s.date, s.startTime))

/-- No two stored slots share an `_id`, and no two share `(doctor, date, startTime)`. -/
def SlotsUnique (db : Db) : Prop :=
  (db.slots.map slotKey).Pairwise (fun k1 k2 => k1.1 ≠ k2.1 ∧ k1.2 ≠ k2.2)

/-- The number of appointments that reference slot `sid` and are not cancelled. -/
def liveCount (db : Db) (sid : ObjectId) : Nat :=
  db.appointments.countP (fun a => decide (a.slot = sid) && decide (a.status ≠ Status.cancelled))

/-- A slot with this `(doctor, date, startTime)` is stored. -/
def tripleTaken (db : Db) (doctor : ObjectId) (d : Date) (b : String) : Prop :=
  ∃ s ∈ db.slots, s.doctor = doctor ∧ s.date = d ∧ s.startTime = b

/-- Every element of `req.body.slots` carries a `startTime` and an `endTime`. -/
def timesGiven (ts : List SlotTime) : Prop :=
  ∀ t ∈ ts, t.startTime.isSome = true ∧ t.endTime.isSome = true

/-- Every stored slot has an `_id` below `n`: the ids from `n` on are unused. -/
def idsBelow (db : Db) (n : ObjectId) : Prop := ∀ s ∈ db.slots, s._id < n

/-- The document `new Slot({...})` of lines 120-126 of the bulk route. -/
def bulkSlotDoc (id : ObjectId) (doctor : Doctor) (d : Date) (b e : String)
    (m : Option Int) : Slot :=
  { _id := id, doctor := doctor._id, date := d, startTime := b, endTime := e,
    maxPatients := maxPatientsOrOne m }

/-! ## Concrete scenarios -/

/-- A verified, accepting doctor with fee 150 and video fee 120. -/
def doctor1 : Doctor :=
  { _id := 10, user := 100, consultationFee := 150, videoConsultationFee := some 120,
    isVerified := true }

/-- A fresh slot of capacity 1 of `doctor1`. -/
def slotCap1 : Slot :=
  { _id := 20, doctor := 10, date := 86400000, startTime := "09:00", endTime := "09:30" }

/-- A fresh slot of capacity 2 of `doctor1`. -/
def slotCap2 : Slot := { slotCap1 with maxPatients := 2 }

/-- The slot `slotCap1` under a lock of user 2 that expires at 300000. -/
def slotLocked : Slot :=
  { slotCap1 with
    lock := { lockedBy := some 2, lockedAt := some 0, expiresAt := some 300000 } }

def dbCap1 : Db := { doctors := [doctor1], slots := [slotCap1] }

def dbCap2 : Db := { doctors := [doctor1], slots := [slotCap2] }

def patient1 : User := { _id := 1, role := Role.patient }

def patient2 : User := { _id := 2, role := Role.patient }

/-- The user account of `doctor1`. -/
def doctorUser1 : User := { _id := 100, role := Role.doctor }

/-- An in-person booking of slot 20 with doctor 10, on the date of the slot. -/
def bookReq : BookRequest :=
  { doctorId := 10, slotId := 20, date := 86400000, type := ApptType.inPerson }

/-- The same booking as a video consultation. -/
def bookReqVideo : BookRequest := { bookReq with type := ApptType.video }

def intent1 : PaymentIntent := { id := "pi_1", client_secret := "cs_1" }

def intent2 : PaymentIntent := { id := "pi_2", client_secret := "cs_2" }

def bookEnv1 : BookEnv := { now := 1000, newId := 30, paymentIntent := some intent1 }

def bookEnv2 : BookEnv := { now := 2000, newId := 31, paymentIntent := some intent2 }

/-- The payment collaborator refuses the hold. -/
def bookEnvNoHold : BookEnv := { now := 1000, newId := 30, paymentIntent := none }

/-- The hold is authorized, then the storage engine rejects `slot.save`. -/
def bookEnvSlotFails : BookEnv := { bookEnv1 with slotSaveOk := false }

/-- The doctor `doctor1` before an admin verified the profile. -/
def doctorUnverified : Doctor := { doctor1 with isVerified := false }

def dbUnverified : Db := { doctors := [doctorUnverified], slots := [slotCap1] }

/-- The doctor `doctor1` with the video fee set to 0. -/
def doctorFreeVideo : Doctor := { doctor1 with videoConsultationFee := some 0 }

def dbFreeVideo : Db := { doctors := [doctorFreeVideo], slots := [slotCap1] }

/-- The booking `bookReq` with a date one day after the date of the slot. -/
def bookReqOtherDay : BookRequest := { bookReq with date := 172800000 }

/-- The appointment that `book dbCap1 bookEnv1 patient1 bookReq` creates. -/
def appt1 : Appointment :=
  newAppointment bookEnv1 patient1 bookReq doctor1 (setLock slotCap1 1 1000) 150 intent1

/-- The appointment that `book dbCap1 bookEnv1 patient1 bookReqVideo` creates. -/
def apptVideo1 : Appointment :=
  newAppointment bookEnv1 patient1 bookReqVideo doctor1 (setLock slotCap1 1 1000) 120 intent1

/-- The slot `slotCap1` after `patient1` booked it at time 1000. -/
def slotBooked1 : Slot := commitSlot (setLock slotCap1 1 1000)

/-- The body with which `doctor1` creates the slot 09:00 to 09:30. -/
def createBody : CreateSlotBody :=
  { date := 86400000, startTime := "09:00", endTime := "09:30" }

/-- The answers of the surroundings during a lifecycle request at time 5000. -/
def apptEnv1 : ApptEnv := { now := 5000 }

/-- The doctor is registered and creates a slot with `maxPatients: 0`. -/
def traceCapacityZero : List Op :=
  [ Op.setDoctors [doctor1],
    Op.createSlot 20 doctorUser1 { createBody with maxPatients := some 0 } ]

/-- The doctor is registered and creates a slot with `maxPatients: -1`. -/
def traceCapacityNegative : List Op :=
  [ Op.setDoctors [doctor1],
    Op.createSlot 20 doctorUser1 { createBody with maxPatients := some (-1) } ]

/-- The doctor is registered and creates a slot with `maxPatients: 2`; a patient books
it. -/
def traceCap2Booked : List Op :=
  [ Op.setDoctors [doctor1],
    Op.createSlot 20 doctorUser1 { createBody with maxPatients := some 2 },
    Op.book bookEnv1 patient1 bookReq ]

/-- The doctor is registered and creates a slot of capacity 1; a patient books it. -/
def traceBooked : List Op :=
  [ Op.setDoctors [doctor1],
    Op.createSlot 20 doctorUser1 createBody,
    Op.book bookEnv1 patient1 bookReq ]

/-- The run `traceBooked`, then the patient cancels the appointment, whose payment
is still pending. -/
def traceCancelled : List Op := traceBooked ++ [Op.cancel apptEnv1 patient1 30 none]

/-- The run `traceBooked`, then the patient confirms the payment. -/
def traceConfirmed : List Op := traceBooked ++ [Op.confirmPayment apptEnv1 patient1 30]

/-- The run `traceConfirmed`, then the doctor completes the appointment. -/
def traceCompleted : List Op := traceConfirmed ++ [Op.complete apptEnv1 doctorUser1 30]

/-- The run `traceCancelled`, then the patient confirms the payment of the cancelled
appointment, whose payment is still pending, and cancels it again. -/
def traceRecancelled : List Op :=
  traceCancelled ++
    [Op.confirmPayment apptEnv1 patient1 30, Op.cancel apptEnv1 patient1 30 none]

/-- The run `traceCancelled`, then Stripe reports `payment_intent.succeeded` for the
intent of the cancelled appointment 30. -/
def traceCancelledHeld : List Op :=
  traceCancelled ++ [Op.webhook 6000 (WebhookEvent.succeeded "pi_1")]

/-- The run `traceConfirmed`, then the doctor blocks slot 20. -/
def traceConfirmedBlocked : List Op :=
  traceConfirmed ++ [Op.blockSlot doctorUser1 20 { blocked := true }]

/-- The slot 20 after `traceRecancelled`: released twice after one booking. -/
def slotReleasedTwice : Slot := { slotCap1 with bookedCount := -1 }

/-- The database after `traceBooked`: appointment 30 is pending with a pending payment. -/
def dbBooked : Db := run emptyDb traceBooked

/-- The database after `traceCancelled`. -/
def dbCancelled : Db := run emptyDb traceCancelled

/-- The database after `traceConfirmed`: appointment 30 is confirmed with a held payment. -/
def dbConfirmed : Db := run emptyDb traceConfirmed

/-- The database after `traceCompleted`: appointment 30 is completed, the payment captured. -/
def dbCompleted : Db := run emptyDb traceCompleted

/-- The status of the stored appointment `id`. -/
def statusOf (db : Db) (id : ObjectId) : Option Status :=
  (findAppointmentById db id).map (fun a => a.status)

/-- The payment status of the stored appointment `id`. -/
def payStatusOf (db : Db) (id : ObjectId) : Option PayStatus :=
  (findAppointmentById db id).map (fun a => a.payment.status)

/-- An administrator. -/
def adminUser : User := { _id := 900, role := Role.admin }

/-- A patient who has no part in appointment 30. -/
def patientOther : User := { _id := 3, role := Role.patient }

/-- The run `traceBooked`, then Stripe reports `payment_intent.succeeded` for the
intent of appointment 30. -/
def traceWebhookHeld : List Op :=
  traceBooked ++ [Op.webhook 6000 (WebhookEvent.succeeded "pi_1")]

/-- The run `traceConfirmed`, then Stripe reports `charge.refunded` for the intent of
appointment 30. -/
def traceWebhookRefunded : List Op :=
  traceConfirmed ++ [Op.webhook 6000 (WebhookEvent.refunded "pi_1")]

/-- The run `traceCompleted`, then the doctor starts a video session on the completed
appointment. -/
def traceRestarted : List Op :=
  traceCompleted ++ [Op.videoStart apptEnv1 doctorUser1 30]

/-- The answers of the surroundings during a rating request at time 7000. -/
def rateEnv1 : RateEnv := { now := 7000 }

/-- A rating of 5 without a review. -/
def rateBody5 : RateBody := { score := JsValue.ofNat 5 }

/-- A rating of 1 without a review. -/
def rateBody1 : RateBody := { score := JsValue.ofNat 1 }

/-- The storage engine rejects `doctor.save` during the rating request. -/
def rateEnvDoctorDown : RateEnv := { rateEnv1 with doctorSaveOk := false }

/-- The aggregate after the ratings 2, 5, 5, 5, 5, 5, 5: average 4.6, count 7. -/
def rating46 : DoctorRating :=
  { average := JsNumber.ofDecimal 46 1, count := JsNumber.ofNat 7 }

/-- The aggregate after the ratings 1, 1, 1, 1, 1, 1, 4: average 1.4, count 7. -/
def rating14 : DoctorRating :=
  { average := JsNumber.ofDecimal 14 1, count := JsNumber.ofNat 7 }

/-- The database `dbCompleted` with the aggregate `rating46` on `doctor1`. -/
def dbRated46 : Db :=
  run emptyDb (traceCompleted ++ [Op.setDoctors [{ doctor1 with rating := rating46 }]])

/-- The database `dbCompleted` with the aggregate `{average 5, count 1}` on
`doctor1`. -/
def dbRated51 : Db :=
  run emptyDb (traceCompleted ++
    [Op.setDoctors
      [{ doctor1 with rating := { average := JsNumber.ofNat 5, count := JsNumber.ofNat 1 } }]])

/-- A rating whose score is the string `"4"`. -/
def rateBodyString4 : RateBody := { score := JsValue.string "4" }

/-- The answers of the surroundings while `rateBodyString4` is rated on the aggregate
`{average 5, count 1}`: `Number("4")` is 4, and `(5 * 1) + "4"` is the string `"54"`,
which `/` reads as 54. -/
def rateEnvString4 : RateEnv :=
  { now := 7000, scoreAsNumber := JsNumber.ofNat 4, sumAsNumber := JsNumber.ofNat 54 }

/-- The completed appointment 30 of `dbCompleted`. -/
def apptCompleted : Appointment := completedAppointment (confirmedAppointment appt1) 5000

/-- The mailer throws during the request. -/
def apptEnvNoMail : ApptEnv := { apptEnv1 with emailOk := false }

/-- The SMS gateway throws during the request. -/
def apptEnvNoSms : ApptEnv := { apptEnv1 with smsOk := false }

/-- The account of `patient1` with a phone number on file. -/
def patientPhone1 : User := { patient1 with phone := some "+15550100" }

/-- The run `traceBooked`, then Stripe reports `payment_intent.payment_failed` for the
intent of appointment 30. -/
def tracePaymentFailed : List Op :=
  traceBooked ++ [Op.webhook 6000 (WebhookEvent.paymentFailed "pi_1")]

/-- The run `traceCancelled`, then the doctor starts a video session on the cancelled
appointment. -/
def traceStartCancelled : List Op :=
  traceCancelled ++ [Op.videoStart apptEnv1 doctorUser1 30]

/-- A second doctor, with fee 90. -/
def doctor2 : Doctor := { _id := 11, user := 101, consultationFee := 90, isVerified := true }

/-- Two doctors are registered and `doctor1` creates slot 20. -/
def traceTwoDoctors : List Op :=
  [ Op.setDoctors [doctor1, doctor2],
    Op.createSlot 20 doctorUser1 createBody ]

/-- The database after `traceTwoDoctors`: slot 20 belongs to doctor 10. -/
def dbTwoDoctors : Db := run emptyDb traceTwoDoctors

/-- A booking that names doctor 11 and slot 20, a slot of doctor 10. -/
def bookReqOtherDoctor : BookRequest := { bookReq with doctorId := 11 }

/-- A bulk request of `doctor1` for Friday 2 and Saturday 3 January 1970 with the
times 09:00 and 10:00. -/
def bulkBody1 : BulkBody :=
  { startDate := some 86400000, endDate := some 172800000,
    slots := [ { startTime := some "09:00", endTime := some "09:30" },
               { startTime := some "10:00", endTime := some "10:30" } ] }

/-! ## Lemmas on the booking handler -/

theorem book_created_inv (db : Db) (env : BookEnv) (user : User) (req : BookRequest)
    (a : Appointment) (cs : String) (h : (book db env user req).1 = BookResult.created a cs) :
    ∃ doctor slot w pi,
      findDoctorById db req.doctorId = some doctor ∧
      doctor.isAcceptingAppointments = true ∧
      tryAcquire db req.slotId user._id env.now = some (slot, w) ∧
      env.paymentIntent = some pi ∧
      a = newAppointment env user req doctor slot (calcFee doctor req.type) pi ∧
      cs = pi.client_secret ∧
      (book db env user req).2.1 = saveSlot (insertAppointment w a) (commitSlot slot) ∧
      (book db env user req).2.2 =
        [StripeCall.create (calcFee doctor req.type) doctor._id user._id slot._id] ∧
      appointmentSaves w env a = true := by
  unfold book at h ⊢
  simp only [startTransaction, abortTransaction, commitTransaction] at h ⊢
  split at h
  · simp at h
  · rename_i doctor hd
    split at h
    · simp at h
    · rename_i hacc
      split at h
      · simp at h
      · rename_i slot w hw
        split at h
        · simp at h
        · rename_i pi hpi
          split at h
          · simp at h
          · rename_i hsave
            split at h
            · simp at h
            · rename_i hslot
              simp only [BookResult.created.injEq] at h
              obtain ⟨rfl, rfl⟩ := h
              simp only [Bool.not_eq_true, Bool.not_eq_false_eq_eq_true] at hacc hsave hslot
              refine ⟨doctor, slot, w, pi, hd, by simpa using hacc, hw, hpi, rfl, rfl, ?_, ?_,
                hsave⟩
              · simp [hacc, hpi, hsave, hslot]
              · simp [hacc, hpi, hsave, hslot]

theorem book_not_created_db (db : Db) (env : BookEnv) (user : User) (req : BookRequest)
    (h : (book db env user req).1.isCreated = false) : (book db env user req).2.1 = db := by
  unfold book at h ⊢
  simp only [startTransaction, abortTransaction, commitTransaction] at h ⊢
  repeat' split
  all_goals first
    | rfl
    | (exfalso; revert h; simp_all [BookResult.isCreated])

theorem tryAcquire_isSome_iff (db : Db) (slotId requester : ObjectId) (now : Date) :
    (tryAcquire db slotId requester now).isSome = true ↔
      ∃ s ∈ db.slots, s._id = slotId ∧ acquireFilter s requester now = true := by
  unfold tryAcquire
  cases hf : db.slots.find? (fun s => decide (s._id = slotId) && acquireFilter s requester now) with
  | none =>
    simp only [Option.isSome_none, Bool.false_eq_true, false_iff, not_exists, not_and]
    intro s hs hid hacq
    have := List.find?_eq_none.mp hf s hs
    simp [hid, hacq] at this
  | some s =>
    simp only [Option.isSome_some, true_iff]
    have hmem := List.mem_of_find?_eq_some hf
    have hp := List.find?_some hf
    simp only [Bool.and_eq_true, decide_eq_true_eq] at hp
    exact ⟨s, hmem, hp.1, hp.2⟩

theorem tryAcquire_some (db : Db) (slotId requester : ObjectId) (now : Date)
    (slot : Slot) (w : Db) (h : tryAcquire db slotId requester now = some (slot, w)) :
    ∃ s ∈ db.slots, s._id = slotId ∧ acquireFilter s requester now = true ∧
      slot = setLock s requester now ∧ w = saveSlot db slot ∧
      db.slots.find? (fun s => decide (s._id = slotId) && acquireFilter s requester now)
        = some s := by
  unfold tryAcquire at h
  split at h
  · simp at h
  · rename_i s hs
    have hp := List.find?_some hs
    simp only [Bool.and_eq_true, decide_eq_true_eq] at hp
    simp only [Option.some.injEq, Prod.mk.injEq] at h
    refine ⟨s, List.mem_of_find?_eq_some hs, hp.1, hp.2, h.1.symm, ?_, hs⟩
    rw [← h.2, ← h.1]

theorem find_map_replace (l : List Slot) (s : Slot) (h : ∃ t ∈ l, t._id = s._id) :
    (l.map (fun t => if t._id = s._id then s else t)).find? (fun t => decide (t._id = s._id))
      = some s := by
  induction l with
  | nil => simp at h
  | cons x xs ih =>
    by_cases hx : x._id = s._id
    · simp [hx]
    · have h1 : ∃ t ∈ xs, t._id = s._id := by
        obtain ⟨t, ht, hid⟩ := h
        rcases List.mem_cons.mp ht with rfl | ht1
        · exact absurd hid hx
        · exact ⟨t, ht1, hid⟩
      simp only [List.map_cons, hx, if_false]
      rw [List.find?_cons_of_neg _ (by simpa using hx)]
      exact ih h1

theorem findSlotById_saveSlot (db : Db) (s : Slot) (h : ∃ t ∈ db.slots, t._id = s._id) :
    findSlotById (saveSlot db s) s._id = some s := by
  unfold findSlotById saveSlot
  exact find_map_replace db.slots s h

theorem mem_saveSlot_id (db : Db) (s : Slot) (h : ∃ t ∈ db.slots, t._id = s._id) :
    ∃ t ∈ (saveSlot db s).slots, t._id = s._id := by
  obtain ⟨t, ht, hid⟩ := h
  refine ⟨s, ?_, rfl⟩
  unfold saveSlot
  simp only [List.mem_map]
  exact ⟨t, ht, by simp [hid]⟩

theorem find_unique_id (l : List Slot) (huniq : (l.map (fun t => t._id)).Nodup)
    (s t : Slot) (id : ObjectId) (hs : l.find? (fun x => decide (x._id = id)) = some s)
    (ht : t ∈ l) (hid : t._id = id) : t = s := by
  have hsm := List.mem_of_find?_eq_some hs
  have hp := List.find?_some hs
  simp only [decide_eq_true_eq] at hp
  exact List.inj_on_of_nodup_map huniq ht hsm (by rw [hid, hp])

/-! ## Lemmas on the capacity bound -/

theorem saveSlot_bounded (db : Db) (s : Slot) (h : SlotsBounded db) (hs : s.bookedCount ≤ 1) :
    SlotsBounded (saveSlot db s) := by
  intro t ht
  unfold saveSlot at ht
  simp only [List.mem_map] at ht
  obtain ⟨u, hu, rfl⟩ := ht
  split
  · exact hs
  · exact h u hu

theorem saveAppointment_slots (db : Db) (a : Appointment) :
    (saveAppointment db a).slots = db.slots := rfl

theorem insertAppointment_slots (db : Db) (a : Appointment) :
    (insertAppointment db a).slots = db.slots := rfl

theorem bounded_of_slots_eq (db db1 : Db) (h : SlotsBounded db) (he : db1.slots = db.slots) :
    SlotsBounded db1 := by
  intro t ht
  rw [he] at ht
  exact h t ht

theorem insertSlot_bounded (db db1 : Db) (s : Slot) (h : SlotsBounded db)
    (hs : s.bookedCount ≤ 1) (hi : insertSlot db s = Except.ok db1) : SlotsBounded db1 := by
  unfold insertSlot at hi
  split at hi
  · simp at hi
  · simp only [Except.ok.injEq] at hi
    subst hi
    intro t ht
    simp only [List.mem_append, List.mem_singleton] at ht
    rcases ht with ht | rfl
    · exact h t ht
    · exact hs

theorem createSlot_bounded (db : Db) (newId : ObjectId) (user : User) (body : CreateSlotBody)
    (h : SlotsBounded db) : SlotsBounded (createSlot db newId user body).2 := by
  unfold createSlot
  dsimp only
  repeat' split
  all_goals first
    | exact h
    | (rename_i hi; exact insertSlot_bounded db _ _ h (le_of_eq_of_le rfl zero_le_one) hi)

theorem bulkDay_bounded (doctor : Doctor) (d : Date) (ts : List SlotTime) (st : BulkState)
    (h : SlotsBounded st.db) : SlotsBounded (bulkDay doctor d ts st).db := by
  induction ts generalizing st with
  | nil => exact h
  | cons t ts ih =>
    unfold bulkDay
    split
    · exact h
    · split
      · rename_i slot db1 hsave
        apply ih
        unfold saveSlotTime at hsave
        dsimp only at hsave
        split at hsave
        · split at hsave
          · rename_i hi
            simp only [Except.ok.injEq, Prod.mk.injEq] at hsave
            rw [← hsave.2]
            exact insertSlot_bounded st.db _ _ h (le_of_eq_of_le rfl zero_le_one) hi
          · simp at hsave
        · simp at hsave
      · apply ih
        exact h
      · exact h

theorem bulkLoop_bounded (doctor : Doctor) (endDate : Date) (ts : List SlotTime) (fuel : Nat)
    (d : Date) (st : BulkState) (h : SlotsBounded st.db) :
    SlotsBounded (bulkLoop doctor endDate ts fuel d st).db := by
  induction fuel generalizing d st with
  | zero => exact h
  | succ n ih =>
    unfold bulkLoop
    split
    · exact h
    · split
      · apply ih
        split
        · exact bulkDay_bounded doctor d ts st h
        · exact h
      · exact h

theorem bulkCreate_bounded (db : Db) (newId : ObjectId) (user : User) (body : BulkBody)
    (h : SlotsBounded db) : SlotsBounded (bulkCreate db newId user body).2 := by
  unfold bulkCreate
  dsimp only
  repeat' split
  all_goals first
    | exact h
    | exact bulkLoop_bounded _ _ _ _ _ { db := db, nextId := newId } h

theorem blockSlot_bounded (db : Db) (user : User) (id : ObjectId) (body : BlockBody)
    (h : SlotsBounded db) : SlotsBounded (blockSlot db user id body).2 := by
  unfold blockSlot
  dsimp only
  split
  · exact h
  · split
    · exact h
    · split
      · exact h
      · rename_i slot hf
        exact saveSlot_bounded db _ h (h slot (List.mem_of_find?_eq_some hf))

theorem deleteSlot_bounded (db : Db) (user : User) (id : ObjectId)
    (h : SlotsBounded db) : SlotsBounded (deleteSlot db user id).2 := by
  unfold deleteSlot
  repeat' split
  all_goals first
    | exact h
    | (intro t ht
       exact h t (List.mem_of_mem_filter ht))

theorem book_bounded (db : Db) (env : BookEnv) (user : User) (req : BookRequest)
    (h : SlotsBounded db) : SlotsBounded (book db env user req).2.1 := by
  cases hres : (book db env user req).1 with
  | created a cs =>
    obtain ⟨doctor, slot, w, pi, _, _, hw, _, _, _, hdb, _⟩ :=
      book_created_inv db env user req a cs hres
    obtain ⟨s0, hs0, _, hf, hslot, hwdb, _⟩ :=
      tryAcquire_some db req.slotId user._id env.now slot w hw
    have hb : s0.bookedCount < 1 := by
      unfold acquireFilter at hf
      simp only [Bool.and_eq_true, decide_eq_true_eq] at hf
      exact hf.1.2
    rw [hdb]
    apply saveSlot_bounded
    · apply bounded_of_slots_eq w _ _ (insertAppointment_slots w a)
      rw [hwdb]
      apply saveSlot_bounded db slot h
      rw [hslot]
      exact le_of_lt hb
    · rw [hslot]
      show s0.bookedCount + 1 ≤ 1
      omega
  | doctorUnavailable =>
    rw [book_not_created_db db env user req (by rw [hres]; rfl)]; exact h
  | slotUnavailable =>
    rw [book_not_created_db db env user req (by rw [hres]; rfl)]; exact h
  | error =>
    rw [book_not_created_db db env user req (by rw [hres]; rfl)]; exact h

theorem releaseSlot_bounded (db : Db) (id : ObjectId) (h : SlotsBounded db) :
    SlotsBounded (releaseSlot db id) := by
  unfold releaseSlot
  split
  · exact h
  · rename_i slot hf
    apply saveSlot_bounded db _ h
    have := h slot (List.mem_of_find?_eq_some hf)
    show slot.bookedCount - 1 ≤ 1
    omega

theorem cancel_db (db : Db) (env : ApptEnv) (user : User) (id : ObjectId)
    (reason : Option String) :
    (cancel db env user id reason).2.1 = db ∨
      ∃ a, (cancel db env user id reason).2.1 = releaseSlot (saveAppointment db a) a.slot := by
  unfold cancel
  dsimp only [startTransaction, abortTransaction, commitTransaction]
  split
  · exact Or.inl rfl
  · split
    · exact Or.inl rfl
    · split
      · exact Or.inl rfl
      · split
        · exact Or.inl rfl
        · split
          · exact Or.inl rfl
          · split
            · exact Or.inl rfl
            · split
              · exact Or.inl rfl
              · split
                · exact Or.inr ⟨_, rfl⟩
                · exact Or.inr ⟨_, rfl⟩

theorem cancel_bounded (db : Db) (env : ApptEnv) (user : User) (id : ObjectId)
    (reason : Option String) (h : SlotsBounded db) :
    SlotsBounded (cancel db env user id reason).2.1 := by
  rcases cancel_db db env user id reason with he | ⟨a, he⟩
  · rw [he]; exact h
  · rw [he]
    apply releaseSlot_bounded
    exact bounded_of_slots_eq db _ h rfl

theorem confirmPayment_slots (db : Db) (env : ApptEnv) (user : User) (id : ObjectId) :
    (confirmPayment db env user id).2.slots = db.slots := by
  unfold confirmPayment
  dsimp only
  repeat' split
  all_goals rfl

theorem complete_slots (db : Db) (env : ApptEnv) (user : User) (id : ObjectId) :
    (complete db env user id).2.1.slots = db.slots := by
  unfold complete
  dsimp only
  repeat' split
  all_goals rfl

theorem videoStart_slots (db : Db) (env : ApptEnv) (user : User) (id : ObjectId) :
    (videoStart db env user id).2.slots = db.slots := by
  unfold videoStart
  dsimp only
  repeat' split
  all_goals rfl

theorem updateByIntent_slots (db : Db) (id : String) (f : Appointment → Appointment) :
    (updateByIntent db id f).slots = db.slots := by
  unfold updateByIntent
  split <;> rfl

theorem webhook_slots (db : Db) (now : Date) (event : WebhookEvent) :
    (webhook db now event).slots = db.slots := by
  cases event with
  | succeeded id => exact updateByIntent_slots db id heldByWebhook
  | paymentFailed id => exact updateByIntent_slots db id failedByWebhook
  | refunded id => exact updateByIntent_slots db id (refundedByWebhook now)
  | other => rfl

theorem rate_db (db : Db) (env : RateEnv) (user : User) (id : ObjectId) (body : RateBody) :
    (rate db env user id body).2 = db ∨
      ∃ a ∈ db.appointments, ∃ score,
        a._id = id ∧ a.patient = user._id ∧ a.status = Status.completed ∧
        truthy a.rating.score = false ∧ castNumber env body.score = some score ∧
        scoreRejected env body.score = false ∧
        ((rate db env user id body).2
            = saveAppointment db (ratedAppointment a score body.review env.now) ∨
          ∃ d, findDoctorById db a.doctor = some d ∧
            (rate db env user id body).2
              = saveDoctor (saveAppointment db (ratedAppointment a score body.review env.now))
                  (ratedDoctor env d body.score)) := by
  unfold rate
  split
  · exact Or.inl rfl
  · rename_i hrej
    split
    · exact Or.inl rfl
    · rename_i a hf
      have hmem := List.mem_of_find?_eq_some hf
      have hp := List.find?_some hf
      simp only [Bool.and_eq_true, decide_eq_true_eq] at hp
      split
      · exact Or.inl rfl
      · rename_i hrated
        split
        · exact Or.inl rfl
        · rename_i score hscore
          dsimp only
          split
          · exact Or.inl rfl
          · split
            · exact Or.inr ⟨a, hmem, score, hp.1.1, hp.1.2, hp.2, by simpa using hrated,
                hscore, by simpa using hrej, Or.inl rfl⟩
            · rename_i d hd
              split
              · exact Or.inr ⟨a, hmem, score, hp.1.1, hp.1.2, hp.2, by simpa using hrated,
                  hscore, by simpa using hrej, Or.inl rfl⟩
              · exact Or.inr ⟨a, hmem, score, hp.1.1, hp.1.2, hp.2, by simpa using hrated,
                  hscore, by simpa using hrej, Or.inr ⟨d, hd, rfl⟩⟩

theorem rate_slots (db : Db) (env : RateEnv) (user : User) (id : ObjectId) (body : RateBody) :
    (rate db env user id body).2.slots = db.slots := by
  rcases rate_db db env user id body with he | ⟨a, _, score, _, _, _, _, _, _, he | ⟨d, _, he⟩⟩
  · rw [he]
  · rw [he]; rfl
  · rw [he]; rfl

theorem step_bounded (db : Db) (op : Op) (h : SlotsBounded db) : SlotsBounded (step db op) := by
  cases op with
  | createSlot newId user body => exact createSlot_bounded db newId user body h
  | bulkCreate newId user body => exact bulkCreate_bounded db newId user body h
  | blockSlot user id body => exact blockSlot_bounded db user id body h
  | deleteSlot user id => exact deleteSlot_bounded db user id h
  | book env user req => exact book_bounded db env user req h
  | confirmPayment env user id =>
    exact bounded_of_slots_eq db _ h (confirmPayment_slots db env user id)
  | cancel env user id reason => exact cancel_bounded db env user id reason h
  | complete env user id => exact bounded_of_slots_eq db _ h (complete_slots db env user id)
  | videoStart env user id => exact bounded_of_slots_eq db _ h (videoStart_slots db env user id)
  | webhook now event => exact bounded_of_slots_eq db _ h (webhook_slots db now event)
  | rate env user id body => exact bounded_of_slots_eq db _ h (rate_slots db env user id body)
  | setDoctors doctors => exact bounded_of_slots_eq db _ h rfl

theorem run_bounded (ops : List Op) (db : Db) (h : SlotsBounded db) :
    SlotsBounded (run db ops) := by
  induction ops generalizing db with
  | nil => exact h
  | cons op ops ih => exact ih (step db op) (step_bounded db op h)

theorem reachable_bounded (db : Db) (h : Reachable db) : SlotsBounded db := by
  obtain ⟨ops, rfl⟩ := h
  apply run_bounded
  intro s hs
  simp [emptyDb] at hs

/-! ## Lemmas on the ledger invariant -/

theorem map_replace_of_ne (a1 : Appointment) (l : List Appointment)
    (h : ∀ b ∈ l, b._id ≠ a1._id) :
    l.map (fun b => if b._id = a1._id then a1 else b) = l := by
  induction l with
  | nil => rfl
  | cons x xs ih =>
    have hx : x._id ≠ a1._id := h x (List.mem_cons_self x xs)
    simp only [List.map_cons, hx, if_false]
    rw [ih (fun b hb => h b (List.mem_cons_of_mem x hb))]

theorem countP_replace (p : Appointment → Bool) (a1 : Appointment) (l : List Appointment)
    (hn : (l.map (fun a => a._id)).Nodup) (a : Appointment) (ha : a ∈ l)
    (hid : a1._id = a._id) :
    (l.map (fun b => if b._id = a1._id then a1 else b)).countP p + (if p a then 1 else 0)
      = l.countP p + (if p a1 then 1 else 0) := by
  induction l with
  | nil => simp at ha
  | cons x xs ih =>
    simp only [List.map_cons, List.nodup_cons, List.mem_map, not_exists, not_and] at hn
    rcases List.mem_cons.mp ha with rfl | hxs
    · have hne : ∀ b ∈ xs, b._id ≠ a1._id := by
        intro b hb hbe
        exact hn.1 b hb (by rw [hbe, hid])
      simp only [List.map_cons, hid, if_true]
      have := map_replace_of_ne a1 xs hne
      rw [hid] at this
      rw [this, List.countP_cons, List.countP_cons]
      omega
    · have hx : x._id ≠ a1._id := by
        intro hxe
        exact hn.1 a hxs (by rw [hxe, hid])
      have ih1 := ih hn.2 hxs
      simp only [List.map_cons, hx, if_false]
      rw [List.countP_cons, List.countP_cons]
      omega

theorem map_replace_ids (a1 : Appointment) (l : List Appointment) :
    (l.map (fun b => if b._id = a1._id then a1 else b)).map (fun a => a._id)
      = l.map (fun a => a._id) := by
  induction l with
  | nil => rfl
  | cons x xs ih =>
    simp only [List.map_cons, List.cons.injEq]
    refine ⟨?_, ih⟩
    split
    · rename_i h; exact h.symm
    · rfl

theorem mem_replace (a1 : Appointment) (l : List Appointment) (b : Appointment)
    (hb : b ∈ l.map (fun b => if b._id = a1._id then a1 else b)) : b = a1 ∨ b ∈ l := by
  simp only [List.mem_map] at hb
  obtain ⟨c, hc, rfl⟩ := hb
  split
  · exact Or.inl rfl
  · exact Or.inr hc

/-- Saving an appointment that keeps its slot and does not leave a terminal status
keeps the ledger invariant. -/
theorem saveAppointment_ledger (db : Db) (a a1 : Appointment) (h : LedgerInv db)
    (ha : a ∈ db.appointments) (hid : a1._id = a._id) (hslot : a1.slot = a.slot)
    (hst : a1.status.terminal = false → a.status.terminal = false) :
    LedgerInv (saveAppointment db a1) ∧
      ∀ sid, activeCount (saveAppointment db a1) sid + (if activeOn sid a then 1 else 0)
        = activeCount db sid + (if activeOn sid a1 then 1 else 0) := by
  have hcount : ∀ sid, activeCount (saveAppointment db a1) sid +
      (if activeOn sid a then 1 else 0)
        = activeCount db sid + (if activeOn sid a1 then 1 else 0) := fun sid =>
    countP_replace (activeOn sid) a1 db.appointments h.ids a ha hid
  have himp : ∀ sid, activeOn sid a1 = true → activeOn sid a = true := by
    intro sid h1
    unfold activeOn at h1 ⊢
    simp only [Bool.and_eq_true, decide_eq_true_eq, Bool.not_eq_true'] at h1 ⊢
    exact ⟨by rw [← hslot]; exact h1.1, hst h1.2⟩
  refine ⟨⟨?_, ?_, ?_⟩, hcount⟩
  · show ((db.appointments.map _).map _).Nodup
    rw [map_replace_ids]
    exact h.ids
  · intro s hs
    have h1 := h.covered s hs
    have h2 := hcount s._id
    have h3 := himp s._id
    have : activeCount (saveAppointment db a1) s._id ≤ activeCount db s._id := by
      by_cases hc : activeOn s._id a1 = true
      · rw [if_pos hc, if_pos (h3 hc)] at h2
        omega
      · rw [if_neg hc] at h2
        omega
    have hs1 : s ∈ db.slots := hs
    omega
  · intro b hb hbt
    rcases mem_replace a1 db.appointments b hb with rfl | hb1
    · obtain ⟨s, hs, hsid⟩ := h.linked a ha (hst hbt)
      exact ⟨s, hs, by rw [hsid, hslot]⟩
    · exact h.linked b hb1 hbt

theorem mem_saveSlot_self (db : Db) (s : Slot) (h : ∃ t ∈ db.slots, t._id = s._id) :
    s ∈ (saveSlot db s).slots := by
  obtain ⟨t, ht, hid⟩ := h
  unfold saveSlot
  simp only [List.mem_map]
  exact ⟨t, ht, by simp [hid]⟩

theorem mem_saveSlot_cases (db : Db) (s t : Slot) (ht : t ∈ (saveSlot db s).slots) :
    t = s ∨ (t ∈ db.slots ∧ t._id ≠ s._id) := by
  unfold saveSlot at ht
  simp only [List.mem_map] at ht
  obtain ⟨u, hu, rfl⟩ := ht
  split
  · exact Or.inl rfl
  · rename_i hne
    exact Or.inr ⟨hu, hne⟩

theorem saveSlot_keeps_id (db : Db) (s t : Slot) (ht : t ∈ db.slots) :
    ∃ u ∈ (saveSlot db s).slots, u._id = t._id := by
  unfold saveSlot
  by_cases hid : t._id = s._id
  · exact ⟨s, List.mem_map.mpr ⟨t, ht, by simp [hid]⟩, hid.symm⟩
  · exact ⟨t, List.mem_map.mpr ⟨t, ht, by simp [hid]⟩, rfl⟩

/-- Writing back a slot whose `bookedCount` covers the appointments that hold a
place in it keeps the ledger invariant. -/
theorem saveSlot_ledger (db : Db) (s : Slot) (h : LedgerInv db)
    (hs : (activeCount db s._id : Int) ≤ s.bookedCount) : LedgerInv (saveSlot db s) := by
  refine ⟨h.ids, ?_, ?_⟩
  · intro t ht
    rcases mem_saveSlot_cases db s t ht with rfl | ⟨ht1, _⟩
    · exact hs
    · exact h.covered t ht1
  · intro a ha hat
    obtain ⟨t, ht, hid⟩ := h.linked a ha hat
    obtain ⟨u, hu, huid⟩ := saveSlot_keeps_id db s t ht
    exact ⟨u, hu, by rw [huid, hid]⟩

theorem activeCount_eq_zero (db : Db) (h : LedgerInv db) (sid : ObjectId)
    (hno : ∀ t ∈ db.slots, t._id ≠ sid) : activeCount db sid = 0 := by
  unfold activeCount
  rw [List.countP_eq_zero]
  intro a ha hact
  unfold activeOn at hact
  simp only [Bool.and_eq_true, decide_eq_true_eq, Bool.not_eq_true'] at hact
  obtain ⟨t, ht, hid⟩ := h.linked a ha hact.2
  exact hno t ht (by rw [hid, hact.1])

theorem insertSlot_ledger (db db1 : Db) (s : Slot) (h : LedgerInv db)
    (hs : 0 ≤ s.bookedCount) (hi : insertSlot db s = Except.ok db1) : LedgerInv db1 := by
  unfold insertSlot at hi
  split at hi
  · simp at hi
  · rename_i hcol
    simp only [Except.ok.injEq] at hi
    subst hi
    have hno : ∀ t ∈ db.slots, t._id ≠ s._id := by
      intro t ht hid
      apply hcol
      unfold slotCollides
      rw [List.any_eq_true]
      exact ⟨t, ht, by simp [hid]⟩
    refine ⟨h.ids, ?_, ?_⟩
    · intro t ht
      simp only [List.mem_append, List.mem_singleton] at ht
      rcases ht with ht | rfl
      · exact h.covered t ht
      · have h0 : activeCount db t._id = 0 := activeCount_eq_zero db h t._id hno
        show (activeCount db t._id : Int) ≤ t.bookedCount
        rw [h0]
        exact hs
    · intro a ha hat
      obtain ⟨t, ht, hid⟩ := h.linked a ha hat
      exact ⟨t, List.mem_append_left _ ht, hid⟩

theorem createSlot_ledger (db : Db) (newId : ObjectId) (user : User) (body : CreateSlotBody)
    (h : LedgerInv db) : LedgerInv (createSlot db newId user body).2 := by
  unfold createSlot
  dsimp only
  repeat' split
  all_goals first
    | exact h
    | (rename_i hi; exact insertSlot_ledger db _ _ h (le_refl 0) hi)

theorem bulkDay_ledger (doctor : Doctor) (d : Date) (ts : List SlotTime) (st : BulkState)
    (h : LedgerInv st.db) : LedgerInv (bulkDay doctor d ts st).db := by
  induction ts generalizing st with
  | nil => exact h
  | cons t ts ih =>
    unfold bulkDay
    split
    · exact h
    · split
      · rename_i slot db1 hsave
        apply ih
        unfold saveSlotTime at hsave
        dsimp only at hsave
        split at hsave
        · split at hsave
          · rename_i hi
            simp only [Except.ok.injEq, Prod.mk.injEq] at hsave
            rw [← hsave.2]
            exact insertSlot_ledger st.db _ _ h (le_refl 0) hi
          · simp at hsave
        · simp at hsave
      · apply ih
        exact h
      · exact h

theorem bulkLoop_ledger (doctor : Doctor) (endDate : Date) (ts : List SlotTime) (fuel : Nat)
    (d : Date) (st : BulkState) (h : LedgerInv st.db) :
    LedgerInv (bulkLoop doctor endDate ts fuel d st).db := by
  induction fuel generalizing d st with
  | zero => exact h
  | succ n ih =>
    unfold bulkLoop
    split
    · exact h
    · split
      · apply ih
        split
        · exact bulkDay_ledger doctor d ts st h
        · exact h
      · exact h

theorem bulkCreate_ledger (db : Db) (newId : ObjectId) (user : User) (body : BulkBody)
    (h : LedgerInv db) : LedgerInv (bulkCreate db newId user body).2 := by
  unfold bulkCreate
  dsimp only
  repeat' split
  all_goals first
    | exact h
    | exact bulkLoop_ledger _ _ _ _ _ { db := db, nextId := newId } h

theorem blockSlot_ledger (db : Db) (user : User) (id : ObjectId) (body : BlockBody)
    (h : LedgerInv db) : LedgerInv (blockSlot db user id body).2 := by
  unfold blockSlot
  dsimp only
  split
  · exact h
  · split
    · exact h
    · split
      · exact h
      · rename_i slot hf
        exact saveSlot_ledger db _ h (h.covered slot (List.mem_of_find?_eq_some hf))

theorem deleteSlot_ledger (db : Db) (user : User) (id : ObjectId)
    (h : LedgerInv db) : LedgerInv (deleteSlot db user id).2 := by
  unfold deleteSlot
  split
  · exact h
  · split
    · exact h
    · split
      · exact h
      · rename_i slot hf
        split
        · exact h
        · rename_i hb
          have hmem := List.mem_of_find?_eq_some hf
          have hcov := h.covered slot hmem
          have hzero : activeCount db slot._id = 0 := by omega
          refine ⟨h.ids, ?_, ?_⟩
          · intro t ht
            exact h.covered t (List.mem_of_mem_filter ht)
          · intro a ha hat
            obtain ⟨t, ht, hid⟩ := h.linked a ha hat
            refine ⟨t, List.mem_filter.mpr ⟨ht, ?_⟩, hid⟩
            simp only [bne_iff_ne, ne_eq]
            intro hts
            unfold activeCount at hzero
            rw [List.countP_eq_zero] at hzero
            apply hzero a ha
            unfold activeOn
            simp [hat, ← hid, hts]

theorem book_ledger (db : Db) (env : BookEnv) (user : User) (req : BookRequest)
    (h : LedgerInv db) : LedgerInv (book db env user req).2.1 := by
  cases hres : (book db env user req).1 with
  | created a cs =>
    obtain ⟨doctor, slot, w, pi, _, _, hw, _, ha, _, hdb, _, hsaves⟩ :=
      book_created_inv db env user req a cs hres
    obtain ⟨s0, hs0, _, _, hslot, hwdb, _⟩ :=
      tryAcquire_some db req.slotId user._id env.now slot w hw
    have hslotid : slot._id = s0._id := by rw [hslot]; rfl
    have hslotb : slot.bookedCount = s0.bookedCount := by rw [hslot]; rfl
    have hcov0 := h.covered s0 hs0
    have hw_inv : LedgerInv w := by
      rw [hwdb]
      exact saveSlot_ledger db slot h (by rw [hslotid, hslotb]; exact hcov0)
    have hslot_mem : slot ∈ w.slots := by
      rw [hwdb]
      exact mem_saveSlot_self db slot ⟨s0, hs0, hslotid.symm⟩
    have ha_slot : a.slot = slot._id := by rw [ha]; rfl
    have ha_status : a.status.terminal = false := by rw [ha]; rfl
    have hfresh : ∀ b ∈ w.appointments, b._id ≠ a._id := by
      unfold appointmentSaves at hsaves
      simp only [Bool.and_eq_true, Option.isNone_iff_eq_none] at hsaves
      intro b hb hbe
      have := List.find?_eq_none.mp hsaves.1.2 b hb
      simp [findAppointmentById, hbe] at this
    have hcount : ∀ sid, activeCount (insertAppointment w a) sid
        = activeCount w sid + (if activeOn sid a then 1 else 0) := by
      intro sid
      unfold activeCount insertAppointment
      simp only [List.countP_append, List.countP_singleton]
    rw [hdb]
    refine ⟨?_, ?_, ?_⟩
    · show (w.appointments ++ [a]).map (fun a => a._id) |>.Nodup
      rw [List.map_append, List.nodup_append]
      refine ⟨hw_inv.ids, List.nodup_singleton _, ?_⟩
      intro x hx1 hx2
      simp only [List.map_cons, List.map_nil, List.mem_singleton] at hx2
      simp only [List.mem_map] at hx1
      obtain ⟨b, hb, hbx⟩ := hx1
      exact hfresh b hb (by rw [hbx, hx2])
    · intro t ht
      have hc := hcount t._id
      show (activeCount (insertAppointment w a) t._id : Int) ≤ t.bookedCount
      rcases mem_saveSlot_cases (insertAppointment w a) (commitSlot slot) t ht with
        rfl | ⟨ht1, hne⟩
      · have hcs := hw_inv.covered slot hslot_mem
        have hb1 : (commitSlot slot).bookedCount = slot.bookedCount + 1 := rfl
        have hid1 : (commitSlot slot)._id = slot._id := rfl
        rw [hid1] at hc ⊢
        rw [hc, hb1]
        split <;> simp <;> omega
      · have hcs := hw_inv.covered t ht1
        by_cases hact : activeOn t._id a = true
        · have hid1 : t._id = slot._id := by
            unfold activeOn at hact
            simp only [Bool.and_eq_true, decide_eq_true_eq] at hact
            rw [← hact.1, ha_slot]
          exact absurd hid1 hne
        · rw [hc, if_neg hact]
          simpa using hcs
    · intro b hb hbt
      have hb1 : b ∈ w.appointments ++ [a] := hb
      simp only [List.mem_append, List.mem_singleton] at hb1
      rcases hb1 with hb2 | rfl
      · obtain ⟨t, ht, hid⟩ := hw_inv.linked b hb2 hbt
        obtain ⟨u, hu, huid⟩ := saveSlot_keeps_id (insertAppointment w b) (commitSlot slot) t ht
        exact ⟨u, hu, by rw [huid, hid]⟩
      · obtain ⟨u, hu, huid⟩ :=
          saveSlot_keeps_id (insertAppointment w b) (commitSlot slot) slot hslot_mem
        exact ⟨u, hu, by rw [huid, ha_slot]⟩
  | doctorUnavailable =>
    rw [book_not_created_db db env user req (by rw [hres]; rfl)]; exact h
  | slotUnavailable =>
    rw [book_not_created_db db env user req (by rw [hres]; rfl)]; exact h
  | error =>
    rw [book_not_created_db db env user req (by rw [hres]; rfl)]; exact h

theorem confirmPayment_db (db : Db) (env : ApptEnv) (user : User) (id : ObjectId) :
    (confirmPayment db env user id).2 = db ∨
      ∃ a ∈ db.appointments, a._id = id ∧
        (confirmPayment db env user id).2 = saveAppointment db (confirmedAppointment a) := by
  unfold confirmPayment
  dsimp only
  split
  · exact Or.inl rfl
  · rename_i a hf
    have hmem := List.mem_of_find?_eq_some hf
    have hp := List.find?_some hf
    simp only [Bool.and_eq_true, decide_eq_true_eq] at hp
    split
    · exact Or.inl rfl
    · split
      · exact Or.inl rfl
      · split
        · exact Or.inr ⟨a, hmem, hp.1, rfl⟩
        · split
          · exact Or.inr ⟨a, hmem, hp.1, rfl⟩
          · exact Or.inr ⟨a, hmem, hp.1, rfl⟩

theorem complete_db (db : Db) (env : ApptEnv) (user : User) (id : ObjectId) :
    (complete db env user id).2.1 = db ∨
      ∃ a ∈ db.appointments, a._id = id ∧
        (complete db env user id).2.1 = saveAppointment db (completedAppointment a env.now) := by
  unfold complete
  dsimp only
  split
  · exact Or.inl rfl
  · split
    · exact Or.inl rfl
    · split
      · exact Or.inl rfl
      · rename_i a hf
        have hmem := List.mem_of_find?_eq_some hf
        have hp := List.find?_some hf
        simp only [Bool.and_eq_true, decide_eq_true_eq] at hp
        split
        · exact Or.inl rfl
        · split
          · exact Or.inl rfl
          · split
            · exact Or.inl rfl
            · exact Or.inr ⟨a, hmem, hp.1, rfl⟩

theorem videoStart_db (db : Db) (env : ApptEnv) (user : User) (id : ObjectId) :
    (videoStart db env user id).2 = db ∨
      ∃ a ∈ db.appointments, a._id = id ∧
        (videoStart db env user id).2 = saveAppointment db (startedAppointment a env.now) := by
  unfold videoStart
  dsimp only
  split
  · exact Or.inl rfl
  · split
    · exact Or.inl rfl
    · rename_i a hf
      have hmem := List.mem_of_find?_eq_some hf
      have hp := List.find?_some hf
      simp only [Bool.and_eq_true, decide_eq_true_eq] at hp
      split
      · exact Or.inl rfl
      · exact Or.inr ⟨a, hmem, hp.1, rfl⟩

theorem updateByIntent_db (db : Db) (id : String) (f : Appointment → Appointment) :
    updateByIntent db id f = db ∨
      ∃ a ∈ db.appointments, updateByIntent db id f = saveAppointment db (f a) := by
  unfold updateByIntent
  split
  · exact Or.inl rfl
  · rename_i a hf
    exact Or.inr ⟨a, List.mem_of_find?_eq_some hf, rfl⟩

theorem cancel_outcome (db : Db) (env : ApptEnv) (user : User) (id : ObjectId)
    (reason : Option String) :
    (cancel db env user id reason).2.1 = db ∨
      ∃ a ∈ db.appointments, a._id = id ∧ a.status.terminal = false ∧ ∃ actor,
        (cancel db env user id reason).2.1 =
          releaseSlot (saveAppointment db (cancelledAppointment a env.now actor reason))
            a.slot := by
  unfold cancel
  dsimp only [startTransaction, abortTransaction, commitTransaction]
  split
  · exact Or.inl rfl
  · rename_i a hf
    have hmem : a ∈ db.appointments := List.mem_of_find?_eq_some hf
    have hp := List.find?_some hf
    simp only [decide_eq_true_eq] at hp
    split
    · exact Or.inl rfl
    · split
      · exact Or.inl rfl
      · split
        · exact Or.inl rfl
        · rename_i hst
          have hnt : a.status.terminal = false := by
            cases hs : a.status <;> simp [hs] at hst <;> rfl
          split
          · exact Or.inl rfl
          · split
            · exact Or.inl rfl
            · split
              · exact Or.inl rfl
              · split
                · exact Or.inr ⟨a, hmem, hp, hnt, _, rfl⟩
                · exact Or.inr ⟨a, hmem, hp, hnt, _, rfl⟩

theorem releaseSlot_ledger (db : Db) (id : ObjectId) (h : LedgerInv db)
    (hroom : ∀ s ∈ db.slots, s._id = id → (activeCount db id : Int) + 1 ≤ s.bookedCount) :
    LedgerInv (releaseSlot db id) := by
  unfold releaseSlot
  split
  · exact h
  · rename_i slot hf
    have hmem := List.mem_of_find?_eq_some hf
    have hp := List.find?_some hf
    simp only [decide_eq_true_eq] at hp
    apply saveSlot_ledger db _ h
    have := hroom slot hmem hp
    show (activeCount db slot._id : Int) ≤ slot.bookedCount - 1
    rw [hp]
    omega

theorem cancel_ledger (db : Db) (env : ApptEnv) (user : User) (id : ObjectId)
    (reason : Option String) (h : LedgerInv db) :
    LedgerInv (cancel db env user id reason).2.1 := by
  rcases cancel_outcome db env user id reason with he | ⟨a, ha, _, hnt, actor, he⟩
  · rw [he]; exact h
  · rw [he]
    obtain ⟨hinv, hcount⟩ := saveAppointment_ledger db a
      (cancelledAppointment a env.now actor reason) h ha rfl rfl
      (fun hc => by simp [cancelledAppointment, Status.terminal] at hc)
    apply releaseSlot_ledger _ _ hinv
    intro s hs hid
    have hcov := h.covered s hs
    have hc := hcount a.slot
    have h1 : activeOn a.slot a = true := by
      unfold activeOn
      simp [hnt]
    have h2 : activeOn a.slot (cancelledAppointment a env.now actor reason) = false := by
      unfold activeOn
      simp [cancelledAppointment, Status.terminal]
    rw [if_pos h1, h2] at hc
    simp only [Bool.false_eq_true, if_false, Nat.add_zero] at hc
    rw [hid] at hcov
    omega

theorem webhook_ledger (db : Db) (now : Date) (event : WebhookEvent) (h : LedgerInv db) :
    LedgerInv (webhook db now event) := by
  cases event with
  | succeeded id =>
    show LedgerInv (updateByIntent db id heldByWebhook)
    rcases updateByIntent_db db id heldByWebhook with he | ⟨a, ha, he⟩
    · rw [he]; exact h
    · rw [he]
      exact (saveAppointment_ledger db a (heldByWebhook a) h ha rfl rfl (fun hc => hc)).1
  | paymentFailed id =>
    show LedgerInv (updateByIntent db id failedByWebhook)
    rcases updateByIntent_db db id failedByWebhook with he | ⟨a, ha, he⟩
    · rw [he]; exact h
    · rw [he]
      exact (saveAppointment_ledger db a (failedByWebhook a) h ha rfl rfl
        (fun hc => by simp [failedByWebhook, Status.terminal] at hc)).1
  | refunded id =>
    show LedgerInv (updateByIntent db id (refundedByWebhook now))
    rcases updateByIntent_db db id (refundedByWebhook now) with he | ⟨a, ha, he⟩
    · rw [he]; exact h
    · rw [he]
      exact (saveAppointment_ledger db a (refundedByWebhook now a) h ha rfl rfl
        (fun hc => hc)).1
  | other => exact h

theorem not_terminal_of_any (db : Db) (id : ObjectId) (a : Appointment)
    (hany : db.appointments.any (fun a => decide (a._id = id) && a.status.terminal) = false)
    (ha : a ∈ db.appointments) (hid : a._id = id) : a.status.terminal = false := by
  cases ht : a.status.terminal with
  | false => rfl
  | true =>
    have : db.appointments.any (fun a => decide (a._id = id) && a.status.terminal) = true := by
      rw [List.any_eq_true]
      exact ⟨a, ha, by simp [hid, ht]⟩
    rw [this] at hany
    exact absurd hany (by simp)

theorem step_ledger (db : Db) (op : Op) (h : LedgerInv db)
    (hnr : restartsTerminal db op = false) : LedgerInv (step db op) := by
  cases op with
  | createSlot newId user body => exact createSlot_ledger db newId user body h
  | bulkCreate newId user body => exact bulkCreate_ledger db newId user body h
  | blockSlot user id body => exact blockSlot_ledger db user id body h
  | deleteSlot user id => exact deleteSlot_ledger db user id h
  | book env user req => exact book_ledger db env user req h
  | confirmPayment env user id =>
    show LedgerInv (confirmPayment db env user id).2
    rcases confirmPayment_db db env user id with he | ⟨a, ha, hid, he⟩
    · rw [he]; exact h
    · rw [he]
      have hnt := not_terminal_of_any db id a hnr ha hid
      exact (saveAppointment_ledger db a (confirmedAppointment a) h ha rfl rfl
        (fun _ => hnt)).1
  | cancel env user id reason => exact cancel_ledger db env user id reason h
  | complete env user id =>
    show LedgerInv (complete db env user id).2.1
    rcases complete_db db env user id with he | ⟨a, ha, _, he⟩
    · rw [he]; exact h
    · rw [he]
      exact (saveAppointment_ledger db a (completedAppointment a env.now) h ha rfl rfl
        (fun hc => by simp [completedAppointment, Status.terminal] at hc)).1
  | videoStart env user id =>
    show LedgerInv (videoStart db env user id).2
    rcases videoStart_db db env user id with he | ⟨a, ha, hid, he⟩
    · rw [he]; exact h
    · rw [he]
      have hnt := not_terminal_of_any db id a hnr ha hid
      exact (saveAppointment_ledger db a (startedAppointment a env.now) h ha rfl rfl
        (fun _ => hnt)).1
  | webhook now event => exact webhook_ledger db now event h
  | rate env user id body =>
    show LedgerInv (rate db env user id body).2
    rcases rate_db db env user id body with
      he | ⟨a, ha, score, _, _, _, _, _, _, he | ⟨d, _, he⟩⟩
    · rw [he]; exact h
    · rw [he]
      exact (saveAppointment_ledger db a (ratedAppointment a score body.review env.now) h ha
        rfl rfl (fun hc => hc)).1
    · rw [he]
      have h1 := (saveAppointment_ledger db a (ratedAppointment a score body.review env.now)
        h ha rfl rfl (fun hc => hc)).1
      exact ⟨h1.ids, h1.covered, h1.linked⟩
  | setDoctors doctors => exact ⟨h.ids, h.covered, h.linked⟩

theorem run_ledger (ops : List Op) (db : Db) (h : LedgerInv db)
    (hnr : noRestart db ops = true) : LedgerInv (run db ops) := by
  induction ops generalizing db with
  | nil => exact h
  | cons op ops ih =>
    unfold noRestart at hnr
    simp only [Bool.and_eq_true, Bool.not_eq_true'] at hnr
    exact ih (step db op) (step_ledger db op h hnr.1) hnr.2

theorem emptyDb_ledger : LedgerInv emptyDb :=
  ⟨List.nodup_nil, fun s hs => by simp [emptyDb] at hs, fun a ha => by simp [emptyDb] at ha⟩

/-! ## Lemmas on the lifecycle handlers -/

theorem find_map_replace_appt (l : List Appointment) (a1 : Appointment)
    (h : ∃ b ∈ l, b._id = a1._id) :
    (l.map (fun b => if b._id = a1._id then a1 else b)).find?
        (fun b => decide (b._id = a1._id)) = some a1 := by
  induction l with
  | nil => simp at h
  | cons x xs ih =>
    by_cases hx : x._id = a1._id
    · simp [hx]
    · have h1 : ∃ b ∈ xs, b._id = a1._id := by
        obtain ⟨b, hb, hid⟩ := h
        rcases List.mem_cons.mp hb with rfl | hb1
        · exact absurd hid hx
        · exact ⟨b, hb1, hid⟩
      simp only [List.map_cons, hx, if_false]
      rw [List.find?_cons_of_neg _ (by simpa using hx)]
      exact ih h1

theorem findAppointmentById_saveAppointment (db : Db) (a1 : Appointment)
    (h : ∃ b ∈ db.appointments, b._id = a1._id) :
    findAppointmentById (saveAppointment db a1) a1._id = some a1 := by
  unfold findAppointmentById saveAppointment
  exact find_map_replace_appt db.appointments a1 h

/-! ## Lemmas on the coupling of payment and status -/

theorem allCoupled_of_appointments_eq (db db1 : Db) (h : AllCoupled db)
    (he : db1.appointments = db.appointments) : AllCoupled db1 := by
  intro a ha
  rw [he] at ha
  exact h a ha

theorem saveAppointment_coupled (db : Db) (a1 : Appointment) (h : AllCoupled db)
    (h1 : Coupled a1) : AllCoupled (saveAppointment db a1) := by
  intro b hb
  rcases mem_replace a1 db.appointments b hb with rfl | hb1
  · exact h1
  · exact h b hb1

theorem insertSlot_appointments (db db1 : Db) (s : Slot)
    (hi : insertSlot db s = Except.ok db1) : db1.appointments = db.appointments := by
  unfold insertSlot at hi
  split at hi
  · simp at hi
  · simp only [Except.ok.injEq] at hi
    rw [← hi]

theorem createSlot_appointments (db : Db) (newId : ObjectId) (user : User)
    (body : CreateSlotBody) : (createSlot db newId user body).2.appointments = db.appointments := by
  unfold createSlot
  dsimp only
  repeat' split
  all_goals first
    | rfl
    | (rename_i hi; exact insertSlot_appointments db _ _ hi)

theorem bulkDay_appointments (doctor : Doctor) (d : Date) (ts : List SlotTime)
    (st : BulkState) : (bulkDay doctor d ts st).db.appointments = st.db.appointments := by
  induction ts generalizing st with
  | nil => rfl
  | cons t ts ih =>
    unfold bulkDay
    split
    · rfl
    · split
      · rename_i slot db1 hsave
        rw [ih]
        unfold saveSlotTime at hsave
        dsimp only at hsave
        split at hsave
        · split at hsave
          · rename_i hi
            simp only [Except.ok.injEq, Prod.mk.injEq] at hsave
            rw [← hsave.2]
            exact insertSlot_appointments st.db _ _ hi
          · simp at hsave
        · simp at hsave
      · rw [ih]
      · rfl

theorem bulkLoop_appointments (doctor : Doctor) (endDate : Date) (ts : List SlotTime)
    (fuel : Nat) (d : Date) (st : BulkState) :
    (bulkLoop doctor endDate ts fuel d st).db.appointments = st.db.appointments := by
  induction fuel generalizing d st with
  | zero => rfl
  | succ n ih =>
    unfold bulkLoop
    split
    · rfl
    · split
      · rw [ih]
        split
        · exact bulkDay_appointments doctor d ts st
        · rfl
      · rfl

theorem bulkCreate_appointments (db : Db) (newId : ObjectId) (user : User) (body : BulkBody) :
    (bulkCreate db newId user body).2.appointments = db.appointments := by
  unfold bulkCreate
  dsimp only
  repeat' split
  all_goals first
    | rfl
    | exact bulkLoop_appointments _ _ _ _ _ { db := db, nextId := newId }

theorem blockSlot_appointments (db : Db) (user : User) (id : ObjectId) (body : BlockBody) :
    (blockSlot db user id body).2.appointments = db.appointments := by
  unfold blockSlot
  dsimp only
  split
  · rfl
  · split
    · rfl
    · split <;> rfl

theorem deleteSlot_appointments (db : Db) (user : User) (id : ObjectId) :
    (deleteSlot db user id).2.appointments = db.appointments := by
  unfold deleteSlot
  repeat' split
  all_goals rfl

theorem releaseSlot_appointments (db : Db) (id : ObjectId) :
    (releaseSlot db id).appointments = db.appointments := by
  unfold releaseSlot
  split <;> rfl

theorem complete_outcome (db : Db) (env : ApptEnv) (user : User) (id : ObjectId) :
    (complete db env user id).2.1 = db ∨
      ∃ a ∈ db.appointments, a._id = id ∧
        (a.status = Status.confirmed ∨ a.status = Status.inProgress) ∧
        (complete db env user id).2.1 = saveAppointment db (completedAppointment a env.now) := by
  unfold complete
  dsimp only
  split
  · exact Or.inl rfl
  · split
    · exact Or.inl rfl
    · split
      · exact Or.inl rfl
      · rename_i a hf
        have hmem := List.mem_of_find?_eq_some hf
        have hp := List.find?_some hf
        simp only [Bool.and_eq_true, decide_eq_true_eq] at hp
        split
        · exact Or.inl rfl
        · rename_i hst
          have hs : a.status = Status.confirmed ∨ a.status = Status.inProgress := by
            by_cases hc : a.status = Status.confirmed
            · exact Or.inl hc
            · by_cases hi : a.status = Status.inProgress
              · exact Or.inr hi
              · exact absurd ⟨hc, hi⟩ hst
          split
          · exact Or.inl rfl
          · split
            · exact Or.inl rfl
            · exact Or.inr ⟨a, hmem, hp.1, hs, rfl⟩

theorem coupled_confirmed (a : Appointment) : Coupled (confirmedAppointment a) := by
  refine ⟨fun _ => Or.inl rfl, fun h => ?_, fun h => ?_⟩ <;>
    simp [confirmedAppointment] at h

theorem coupled_completed (a : Appointment) (now : Date) (h : Coupled a)
    (hs : a.status = Status.confirmed ∨ a.status = Status.inProgress) :
    Coupled (completedAppointment a now) := by
  unfold completedAppointment captureIfHeld
  by_cases hh : a.payment.status = PayStatus.held
  · simp only [hh, if_true]
    refine ⟨fun h1 => ?_, fun _ => rfl, fun h1 => ?_⟩ <;> simp at h1
  · simp only [hh, if_false]
    refine ⟨fun h1 => absurd h1 hh, fun _ => rfl, fun h1 => ?_⟩
    have := h.2.2 h1
    rcases hs with hs | hs <;> rw [hs] at this <;> simp at this

theorem coupled_cancelled (a : Appointment) (now : Date) (actor : CancelledBy)
    (reason : Option String) (h : Coupled a) (hs : a.status.terminal = false) :
    Coupled (cancelledAppointment a now actor reason) := by
  unfold cancelledAppointment refundIfHeld
  by_cases hh : a.payment.status = PayStatus.held
  · simp only [hh, if_true]
    refine ⟨fun h1 => ?_, fun h1 => ?_, fun _ => rfl⟩ <;> simp at h1
  · simp only [hh, if_false]
    refine ⟨fun h1 => absurd h1 hh, fun h1 => ?_, fun _ => rfl⟩
    have := h.2.1 h1
    rw [this] at hs
    simp [Status.terminal] at hs

theorem coupled_started (a : Appointment) (now : Date) (h : Coupled a)
    (hs : a.status.terminal = false) : Coupled (startedAppointment a now) := by
  refine ⟨fun _ => Or.inr rfl, fun h1 => ?_, fun h1 => ?_⟩
  · have := h.2.1 h1
    rw [this] at hs
    simp [Status.terminal] at hs
  · have := h.2.2 h1
    rw [this] at hs
    simp [Status.terminal] at hs

theorem coupled_failed (a : Appointment) : Coupled (failedByWebhook a) := by
  refine ⟨fun h => ?_, fun h => ?_, fun _ => rfl⟩ <;> simp [failedByWebhook] at h

theorem book_coupled (db : Db) (env : BookEnv) (user : User) (req : BookRequest)
    (h : AllCoupled db) : AllCoupled (book db env user req).2.1 := by
  cases hres : (book db env user req).1 with
  | created a cs =>
    obtain ⟨doctor, slot, w, pi, _, _, hw, _, ha, _, hdb, _, _⟩ :=
      book_created_inv db env user req a cs hres
    obtain ⟨s0, _, _, _, _, hwdb, _⟩ :=
      tryAcquire_some db req.slotId user._id env.now slot w hw
    rw [hdb]
    intro b hb
    have hb1 : b ∈ w.appointments ++ [a] := hb
    rw [hwdb] at hb1
    simp only [List.mem_append, List.mem_singleton] at hb1
    rcases hb1 with hb2 | rfl
    · exact h b hb2
    · rw [ha]
      refine ⟨fun h1 => ?_, fun h1 => ?_, fun h1 => ?_⟩ <;> simp [newAppointment] at h1
  | doctorUnavailable =>
    rw [book_not_created_db db env user req (by rw [hres]; rfl)]; exact h
  | slotUnavailable =>
    rw [book_not_created_db db env user req (by rw [hres]; rfl)]; exact h
  | error =>
    rw [book_not_created_db db env user req (by rw [hres]; rfl)]; exact h

theorem step_coupled (db : Db) (op : Op) (h : AllCoupled db)
    (hk : keepsCoupling db op = true) : AllCoupled (step db op) := by
  cases op with
  | createSlot newId user body =>
    exact allCoupled_of_appointments_eq db _ h (createSlot_appointments db newId user body)
  | bulkCreate newId user body =>
    exact allCoupled_of_appointments_eq db _ h (bulkCreate_appointments db newId user body)
  | blockSlot user id body =>
    exact allCoupled_of_appointments_eq db _ h (blockSlot_appointments db user id body)
  | deleteSlot user id =>
    exact allCoupled_of_appointments_eq db _ h (deleteSlot_appointments db user id)
  | book env user req => exact book_coupled db env user req h
  | confirmPayment env user id =>
    show AllCoupled (confirmPayment db env user id).2
    rcases confirmPayment_db db env user id with he | ⟨a, _, _, he⟩
    · rw [he]; exact h
    · rw [he]
      exact saveAppointment_coupled db _ h (coupled_confirmed a)
  | cancel env user id reason =>
    show AllCoupled (cancel db env user id reason).2.1
    rcases cancel_outcome db env user id reason with he | ⟨a, ha, _, hnt, actor, he⟩
    · rw [he]; exact h
    · rw [he]
      apply allCoupled_of_appointments_eq _ _ _ (releaseSlot_appointments _ _)
      exact saveAppointment_coupled db _ h (coupled_cancelled a env.now actor reason (h a ha) hnt)
  | complete env user id =>
    show AllCoupled (complete db env user id).2.1
    rcases complete_outcome db env user id with he | ⟨a, ha, _, hs, he⟩
    · rw [he]; exact h
    · rw [he]
      exact saveAppointment_coupled db _ h (coupled_completed a env.now (h a ha) hs)
  | videoStart env user id =>
    show AllCoupled (videoStart db env user id).2
    rcases videoStart_db db env user id with he | ⟨a, ha, hid, he⟩
    · rw [he]; exact h
    · rw [he]
      have hany : db.appointments.any
          (fun a => decide (a._id = id) && a.status.terminal) = false := by
        simpa [keepsCoupling] using hk
      have hnt := not_terminal_of_any db id a hany ha hid
      exact saveAppointment_coupled db _ h (coupled_started a env.now (h a ha) hnt)
  | webhook now event =>
    cases event with
    | succeeded pid => simp [keepsCoupling] at hk
    | paymentFailed pid =>
      show AllCoupled (updateByIntent db pid failedByWebhook)
      rcases updateByIntent_db db pid failedByWebhook with he | ⟨a, _, he⟩
      · rw [he]; exact h
      · rw [he]
        exact saveAppointment_coupled db _ h (coupled_failed a)
    | refunded pid => simp [keepsCoupling] at hk
    | other => exact h
  | rate env user id body =>
    show AllCoupled (rate db env user id body).2
    rcases rate_db db env user id body with
      he | ⟨a, ha, score, _, _, _, _, _, _, he | ⟨d, _, he⟩⟩
    · rw [he]; exact h
    · rw [he]
      exact saveAppointment_coupled db _ h (h a ha)
    · rw [he]
      exact allCoupled_of_appointments_eq _ _
        (saveAppointment_coupled db (ratedAppointment a score body.review env.now) h (h a ha))
        rfl
  | setDoctors doctors => exact allCoupled_of_appointments_eq db _ h rfl

theorem run_coupled (ops : List Op) (db : Db) (h : AllCoupled db)
    (hk : coupledRun db ops = true) : AllCoupled (run db ops) := by
  induction ops generalizing db with
  | nil => exact h
  | cons op ops ih =>
    unfold coupledRun at hk
    simp only [Bool.and_eq_true] at hk
    exact ih (step db op) (step_coupled db op h hk.1) hk.2

/-! ## Lemmas on slot properties kept by every request -/

theorem insertSlot_closed (P : Slot → Prop) (db db1 : Db) (s : Slot)
    (h : ∀ t ∈ db.slots, P t) (hs : P s) (hi : insertSlot db s = Except.ok db1) :
    ∀ t ∈ db1.slots, P t := by
  unfold insertSlot at hi
  split at hi
  · simp at hi
  · simp only [Except.ok.injEq] at hi
    subst hi
    intro t ht
    simp only [List.mem_append, List.mem_singleton] at ht
    rcases ht with ht | rfl
    · exact h t ht
    · exact hs

theorem saveSlot_closed (P : Slot → Prop) (db : Db) (s : Slot)
    (h : ∀ t ∈ db.slots, P t) (hs : P s) : ∀ t ∈ (saveSlot db s).slots, P t := by
  intro t ht
  rcases mem_saveSlot_cases db s t ht with rfl | ⟨ht1, _⟩
  · exact hs
  · exact h t ht1

theorem createSlot_closed (P : Slot → Prop) (hP : SlotClosed P) (db : Db) (newId : ObjectId)
    (user : User) (body : CreateSlotBody) (h : ∀ t ∈ db.slots, P t) :
    ∀ t ∈ (createSlot db newId user body).2.slots, P t := by
  unfold createSlot
  dsimp only
  repeat' split
  all_goals first
    | exact h
    | (rename_i hi; exact insertSlot_closed P db _ _ h (hP.fresh _ rfl rfl rfl rfl) hi)

theorem bulkDay_closed (P : Slot → Prop) (hP : SlotClosed P) (doctor : Doctor) (d : Date)
    (ts : List SlotTime) (st : BulkState) (h : ∀ t ∈ st.db.slots, P t) :
    ∀ t ∈ (bulkDay doctor d ts st).db.slots, P t := by
  induction ts generalizing st with
  | nil => exact h
  | cons t ts ih =>
    unfold bulkDay
    split
    · exact h
    · split
      · rename_i slot db1 hsave
        apply ih
        unfold saveSlotTime at hsave
        dsimp only at hsave
        split at hsave
        · split at hsave
          · rename_i hi
            simp only [Except.ok.injEq, Prod.mk.injEq] at hsave
            rw [← hsave.2]
            exact insertSlot_closed P st.db _ _ h (hP.fresh _ rfl rfl rfl rfl) hi
          · simp at hsave
        · simp at hsave
      · apply ih
        exact h
      · exact h

theorem bulkLoop_closed (P : Slot → Prop) (hP : SlotClosed P) (doctor : Doctor)
    (endDate : Date) (ts : List SlotTime) (fuel : Nat) (d : Date) (st : BulkState)
    (h : ∀ t ∈ st.db.slots, P t) :
    ∀ t ∈ (bulkLoop doctor endDate ts fuel d st).db.slots, P t := by
  induction fuel generalizing d st with
  | zero => exact h
  | succ n ih =>
    unfold bulkLoop
    split
    · exact h
    · split
      · apply ih
        split
        · exact bulkDay_closed P hP doctor d ts st h
        · exact h
      · exact h

theorem bulkCreate_closed (P : Slot → Prop) (hP : SlotClosed P) (db : Db) (newId : ObjectId)
    (user : User) (body : BulkBody) (h : ∀ t ∈ db.slots, P t) :
    ∀ t ∈ (bulkCreate db newId user body).2.slots, P t := by
  unfold bulkCreate
  dsimp only
  repeat' split
  all_goals first
    | exact h
    | exact bulkLoop_closed P hP _ _ _ _ _ { db := db, nextId := newId } h

theorem blockSlot_closed (P : Slot → Prop) (hP : SlotClosed P) (db : Db) (user : User)
    (id : ObjectId) (body : BlockBody) (h : ∀ t ∈ db.slots, P t) :
    ∀ t ∈ (blockSlot db user id body).2.slots, P t := by
  unfold blockSlot
  dsimp only
  split
  · exact h
  · split
    · exact h
    · split
      · exact h
      · rename_i slot hf
        exact saveSlot_closed P db _ h
          (hP.block slot _ _ (h slot (List.mem_of_find?_eq_some hf)))

theorem deleteSlot_closed (P : Slot → Prop) (db : Db) (user : User) (id : ObjectId)
    (h : ∀ t ∈ db.slots, P t) : ∀ t ∈ (deleteSlot db user id).2.slots, P t := by
  unfold deleteSlot
  repeat' split
  all_goals first
    | exact h
    | (intro t ht
       exact h t (List.mem_of_mem_filter ht))

theorem book_closed (P : Slot → Prop) (hP : SlotClosed P) (db : Db) (env : BookEnv)
    (user : User) (req : BookRequest) (h : ∀ t ∈ db.slots, P t) :
    ∀ t ∈ (book db env user req).2.1.slots, P t := by
  cases hres : (book db env user req).1 with
  | created a cs =>
    obtain ⟨doctor, slot, w, pi, _, _, hw, _, _, _, hdb, _, _⟩ :=
      book_created_inv db env user req a cs hres
    obtain ⟨s0, hs0, _, hf, hslot, hwdb, _⟩ :=
      tryAcquire_some db req.slotId user._id env.now slot w hw
    rw [hdb]
    intro t ht
    rcases mem_saveSlot_cases (insertAppointment w a) (commitSlot slot) t ht with
      rfl | ⟨ht1, hne⟩
    · rw [hslot]
      exact hP.commit s0 _ _ (h s0 hs0) hf
    · have ht2 : t ∈ (saveSlot db slot).slots := by rw [← hwdb]; exact ht1
      rcases mem_saveSlot_cases db slot t ht2 with rfl | ⟨ht3, _⟩
      · exact absurd rfl hne
      · exact h t ht3
  | doctorUnavailable =>
    rw [book_not_created_db db env user req (by rw [hres]; rfl)]; exact h
  | slotUnavailable =>
    rw [book_not_created_db db env user req (by rw [hres]; rfl)]; exact h
  | error =>
    rw [book_not_created_db db env user req (by rw [hres]; rfl)]; exact h

theorem releaseSlot_closed (P : Slot → Prop) (hP : SlotClosed P) (db : Db) (id : ObjectId)
    (h : ∀ t ∈ db.slots, P t) : ∀ t ∈ (releaseSlot db id).slots, P t := by
  unfold releaseSlot
  split
  · exact h
  · rename_i slot hf
    exact saveSlot_closed P db _ h (hP.release slot (h slot (List.mem_of_find?_eq_some hf)))

theorem step_closed (P : Slot → Prop) (hP : SlotClosed P) (db : Db) (op : Op)
    (h : ∀ t ∈ db.slots, P t) : ∀ t ∈ (step db op).slots, P t := by
  cases op with
  | createSlot newId user body => exact createSlot_closed P hP db newId user body h
  | bulkCreate newId user body => exact bulkCreate_closed P hP db newId user body h
  | blockSlot user id body => exact blockSlot_closed P hP db user id body h
  | deleteSlot user id => exact deleteSlot_closed P db user id h
  | book env user req => exact book_closed P hP db env user req h
  | confirmPayment env user id =>
    show ∀ t ∈ (confirmPayment db env user id).2.slots, P t
    rw [confirmPayment_slots]; exact h
  | cancel env user id reason =>
    show ∀ t ∈ (cancel db env user id reason).2.1.slots, P t
    rcases cancel_db db env user id reason with he | ⟨a, he⟩
    · rw [he]; exact h
    · rw [he]
      exact releaseSlot_closed P hP _ _ h
  | complete env user id =>
    show ∀ t ∈ (complete db env user id).2.1.slots, P t
    rw [complete_slots]; exact h
  | videoStart env user id =>
    show ∀ t ∈ (videoStart db env user id).2.slots, P t
    rw [videoStart_slots]; exact h
  | webhook now event =>
    show ∀ t ∈ (webhook db now event).slots, P t
    rw [webhook_slots]; exact h
  | rate env user id body =>
    show ∀ t ∈ (rate db env user id body).2.slots, P t
    rw [rate_slots]; exact h
  | setDoctors doctors => exact h

theorem run_closed (P : Slot → Prop) (hP : SlotClosed P) (ops : List Op) (db : Db)
    (h : ∀ t ∈ db.slots, P t) : ∀ t ∈ (run db ops).slots, P t := by
  induction ops generalizing db with
  | nil => exact h
  | cons op ops ih => exact ih (step db op) (step_closed P hP db op h)

/-- In a reachable state no slot carries a lock and every slot has `bookedCount ≤ 1`. -/
theorem reachable_unlocked (db : Db) (h : Reachable db) :
    ∀ s ∈ db.slots, s.lock = {} ∧ s.bookedCount ≤ 1 := by
  obtain ⟨ops, rfl⟩ := h
  apply run_closed (fun s => s.lock = {} ∧ s.bookedCount ≤ 1)
  · refine ⟨?_, ?_, ?_, ?_⟩
    · intro s hb hl _ _
      exact ⟨hl, by rw [hb]; exact zero_le_one⟩
    · intro s b r hs
      exact hs
    · intro s r now hs hf
      refine ⟨rfl, ?_⟩
      unfold acquireFilter at hf
      simp only [Bool.and_eq_true, decide_eq_true_eq] at hf
      have := hf.1.2
      show s.bookedCount + 1 ≤ 1
      omega
    · intro s hs
      refine ⟨hs.1, ?_⟩
      have := hs.2
      show s.bookedCount - 1 ≤ 1
      omega
  · intro s hs
    simp [emptyDb] at hs

/-! ## Lemmas on the cancel handler -/

/-- The authorization test of the cancel handler, line 256, negated. -/
theorem cancel_auth_flag (db : Db) (user : User) (a : Appointment)
    (hauth : a.patient = user._id ∨
      (∃ d, findDoctorByUser db user._id = some d ∧ a.doctor = d._id) ∨
      user.role = Role.admin) :
    (!decide (a.patient = user._id) && !isDoctorOf (findDoctorByUser db user._id) a &&
      !decide (user.role = Role.admin)) = false := by
  rcases hauth with h | ⟨d, hd, h⟩ | h
  · simp [h]
  · simp [isDoctorOf, hd, h]
  · simp [h]

theorem populate_flag (db : Db) (user : User) (a : Appointment)
    (hpop : (findDoctorByUser db user._id).isSome = true →
      (findDoctorById db a.doctor).isSome = true) :
    ((findDoctorByUser db user._id).isSome && (findDoctorById db a.doctor).isNone) = false := by
  cases h1 : (findDoctorByUser db user._id).isSome with
  | false => rfl
  | true =>
    have h2 := hpop h1
    rw [Option.isSome_iff_ne_none] at h2
    cases h3 : findDoctorById db a.doctor with
    | none => exact absurd h3 h2
    | some d => rfl

/-- An authorized cancel of a completed or cancelled appointment is refused and
changes nothing. -/
theorem cancel_terminal (db : Db) (env : ApptEnv) (user : User) (id : ObjectId)
    (reason : Option String) (a : Appointment)
    (ha : findAppointmentById db id = some a)
    (hpop : ((findDoctorByUser db user._id).isSome &&
      (findDoctorById db a.doctor).isNone) = false)
    (hauth : (!decide (a.patient = user._id) && !isDoctorOf (findDoctorByUser db user._id) a &&
      !decide (user.role = Role.admin)) = false)
    (hst : a.status = Status.completed ∨ a.status = Status.cancelled) :
    cancel db env user id reason = (ApptResult.cannotCancel, db, []) := by
  unfold cancel
  dsimp only [startTransaction, abortTransaction, commitTransaction]
  simp only [ha, hpop, hauth, Bool.false_eq_true, if_false]
  rw [if_pos hst]

/-- An authorized cancel of an appointment that is neither completed nor cancelled,
with every collaborator answering, commits the cancelled appointment and the
released slot. -/
theorem cancel_commits (db : Db) (env : ApptEnv) (user : User) (id : ObjectId)
    (reason : Option String) (a : Appointment)
    (ha : findAppointmentById db id = some a)
    (hpop : ((findDoctorByUser db user._id).isSome &&
      (findDoctorById db a.doctor).isNone) = false)
    (hauth : (!decide (a.patient = user._id) && !isDoctorOf (findDoctorByUser db user._id) a &&
      !decide (user.role = Role.admin)) = false)
    (hst : ¬ (a.status = Status.completed ∨ a.status = Status.cancelled))
    (hstripe : a.payment.status = PayStatus.held → env.stripeOk = true)
    (hsave : env.appointmentSaveOk = true) (hslot : env.slotUpdateOk = true) :
    cancel db env user id reason =
      (if !env.emailOk then ApptResult.unhandled
        else ApptResult.ok (cancelledAppointment a env.now
          (cancelActor (decide (a.patient = user._id))
            (isDoctorOf (findDoctorByUser db user._id) a)) reason),
       releaseSlot (saveAppointment db (cancelledAppointment a env.now
          (cancelActor (decide (a.patient = user._id))
            (isDoctorOf (findDoctorByUser db user._id) a)) reason)) a.slot,
       cancelCalls a) := by
  have hstripe1 : (decide (a.payment.status = PayStatus.held) && !env.stripeOk) = false := by
    by_cases hh : a.payment.status = PayStatus.held
    · simp [hstripe hh]
    · simp [hh]
  unfold cancel
  dsimp only [startTransaction, abortTransaction, commitTransaction]
  simp only [ha, hpop, hauth, hstripe1, hsave, hslot, Bool.false_eq_true, if_false,
    Bool.not_true]
  rw [if_neg hst]
  split <;> rfl

theorem findSlotById_releaseSlot (db : Db) (id : ObjectId) (s : Slot)
    (hs : findSlotById db id = some s) :
    findSlotById (releaseSlot db id) id
      = some { s with bookedCount := s.bookedCount - 1, isAvailable := true } := by
  have hmem : s ∈ db.slots := List.mem_of_find?_eq_some hs
  have hp := List.find?_some hs
  simp only [decide_eq_true_eq] at hp
  unfold releaseSlot
  simp only [hs]
  have := findSlotById_saveSlot db
    { s with bookedCount := s.bookedCount - 1, isAvailable := true } ⟨s, hmem, rfl⟩
  rw [← hp]
  exact this

/-! ## Lemmas on the rating handler -/

theorem rate_ok_inv (db : Db) (env : RateEnv) (user : User) (id : ObjectId) (body : RateBody)
    (a1 : Appointment) (h : (rate db env user id body).1 = RateResult.ok a1) :
    ∃ a score d,
      db.appointments.find? (fun a =>
        decide (a._id = id) && decide (a.patient = user._id) &&
          decide (a.status = Status.completed)) = some a ∧
      castNumber env body.score = some score ∧ scoreRejected env body.score = false ∧
      truthy a.rating.score = false ∧
      a1 = ratedAppointment a score body.review env.now ∧
      findDoctorById db a.doctor = some d ∧
      (rate db env user id body).2
        = saveDoctor (saveAppointment db a1) (ratedDoctor env d body.score) := by
  unfold rate at h ⊢
  split at h
  · simp at h
  · rename_i hrej
    split at h
    · simp at h
    · rename_i a hf
      split at h
      · simp at h
      · rename_i hrated
        split at h
        · simp at h
        · rename_i score hscore
          dsimp only at h
          split at h
          · simp at h
          · rename_i hsave
            split at h
            · simp at h
            · rename_i d hd
              split at h
              · simp at h
              · rename_i hdsave
                simp only [RateResult.ok.injEq] at h
                subst h
                have hrej1 : scoreRejected env body.score = false := by simpa using hrej
                have hrated1 : truthy a.rating.score = false := by simpa using hrated
                refine ⟨a, score, d, hf, hscore, hrej1, hrated1, rfl, hd, ?_⟩
                simp only [Bool.not_eq_true, Bool.not_eq_false_eq_eq_true] at hsave hdsave
                simp only [hrej1, hrated1, hf, hscore, hsave, hdsave, hd, Bool.false_eq_true,
                  if_false, Bool.not_true]

theorem find_map_replace_doctor (l : List Doctor) (d1 : Doctor)
    (h : ∃ e ∈ l, e._id = d1._id) :
    (l.map (fun e => if e._id = d1._id then d1 else e)).find?
        (fun e => decide (e._id = d1._id)) = some d1 := by
  induction l with
  | nil => simp at h
  | cons x xs ih =>
    by_cases hx : x._id = d1._id
    · simp [hx]
    · have h1 : ∃ e ∈ xs, e._id = d1._id := by
        obtain ⟨e, he, hid⟩ := h
        rcases List.mem_cons.mp he with rfl | he1
        · exact absurd hid hx
        · exact ⟨e, he1, hid⟩
      simp only [List.map_cons, hx, if_false]
      rw [List.find?_cons_of_neg _ (by simpa using hx)]
      exact ih h1

theorem find_map_replace_pred (l : List Appointment) (a1 : Appointment)
    (p : Appointment → Bool) (h : ∃ b ∈ l, b._id = a1._id) (hp : p a1 = true)
    (hid : ∀ b, p b = true → b._id = a1._id) :
    (l.map (fun b => if b._id = a1._id then a1 else b)).find? p = some a1 := by
  induction l with
  | nil => simp at h
  | cons x xs ih =>
    by_cases hx : x._id = a1._id
    · simp [hx, hp]
    · have h1 : ∃ b ∈ xs, b._id = a1._id := by
        obtain ⟨b, hb, hbid⟩ := h
        rcases List.mem_cons.mp hb with rfl | hb1
        · exact absurd hbid hx
        · exact ⟨b, hb1, hbid⟩
      have hpx : ¬ p x = true := fun hc => hx (hid x hc)
      simp only [List.map_cons, hx, if_false]
      rw [List.find?_cons_of_neg _ hpx]
      exact ih h1

/-- The magnitude of 1 is positive. -/
theorem unitsPerOne_pos : 0 < unitsPerOne := by decide

/-- The Number 1. -/
theorem ofNat_one : JsNumber.ofNat 1 = JsNumber.finite false unitsPerOne := by decide

/-- A Number that is not `NaN` and not below 1 is truthy. -/
theorem truthy_of_not_lt_one (x : JsNumber) (hn : x.isNaN = false)
    (h : jsLt x (JsNumber.ofNat 1) = false) : x.truthy = true := by
  rw [ofNat_one] at h
  have hpos := unitsPerOne_pos
  cases x with
  | nan => simp [JsNumber.isNaN] at hn
  | infinite s => rfl
  | finite s m =>
    cases s with
    | false =>
      simp only [jsLt, decide_eq_false_iff_not, not_lt] at h
      simp only [JsNumber.truthy, ne_eq, decide_not, Bool.not_eq_true', decide_eq_false_iff_not]
      omega
    | true =>
      simp only [jsLt, Bool.not_eq_false', Bool.and_eq_true, decide_eq_true_eq] at h
      omega

/-- A score that passes the guard is cast to a truthy Number. -/
theorem cast_truthy (env : RateEnv) (v : JsValue) (score : Option JsNumber)
    (hrej : scoreRejected env v = false) (hc : castNumber env v = some score) :
    truthy score = true := by
  unfold scoreRejected at hrej
  simp only [Bool.or_eq_false_iff, Bool.not_eq_false'] at hrej
  obtain ⟨⟨htr, hlt⟩, _⟩ := hrej
  cases v with
  | undefined => simp [JsValue.truthy] at htr
  | null => simp [JsValue.truthy] at htr
  | object => simp [castNumber] at hc
  | bool b =>
    cases b with
    | false => simp [JsValue.truthy] at htr
    | true =>
      simp only [castNumber, toNumber, if_true, Option.some.injEq] at hc
      subst hc
      decide
  | number x =>
    simp only [castNumber] at hc
    split at hc
    · simp at hc
    · rename_i hn
      simp only [Option.some.injEq] at hc
      subst hc
      exact truthy_of_not_lt_one x (by simpa using hn) hlt
  | string s =>
    simp only [castNumber] at hc
    split at hc
    · rename_i hs
      simp [JsValue.truthy, hs] at htr
    · split at hc
      · simp at hc
      · rename_i hn
        simp only [Option.some.injEq] at hc
        subst hc
        exact truthy_of_not_lt_one env.scoreAsNumber (by simpa using hn) hlt

/-- The three rejections of `rate` leave the database unchanged; a rating is stored
only on a completed appointment of the caller without a score, and once it is stored
every further rating of that appointment is answered 'Already rated'. -/
theorem rate_rejections (db : Db) (env : RateEnv) (user : User) (id : ObjectId)
    (body : RateBody) :
    (scoreRejected env body.score = true →
      rate db env user id body = (RateResult.invalidScore, db)) ∧
    (scoreRejected env body.score = false →
      (∀ a ∈ db.appointments, a._id = id → a.status ≠ Status.completed) →
      rate db env user id body = (RateResult.notFound, db)) ∧
    (scoreRejected env body.score = false →
      ∀ a, db.appointments.find? (fun a =>
          decide (a._id = id) && decide (a.patient = user._id) &&
            decide (a.status = Status.completed)) = some a →
        truthy a.rating.score = true →
        rate db env user id body = (RateResult.alreadyRated, db)) ∧
    (∀ a1, (rate db env user id body).1 = RateResult.ok a1 →
      (∃ a ∈ db.appointments, a._id = id ∧ a.patient = user._id ∧
        a.status = Status.completed ∧ truthy a.rating.score = false ∧
        castNumber env body.score = some a1.rating.score ∧
        truthy a1.rating.score = true ∧ a1.status = Status.completed) ∧
      ∀ env2 body2, scoreRejected env2 body2.score = false →
        rate (rate db env user id body).2 env2 user id body2
          = (RateResult.alreadyRated, (rate db env user id body).2)) := by
  have hC : ∀ (db : Db) (env : RateEnv) (body : RateBody),
      scoreRejected env body.score = false →
      ∀ a, db.appointments.find? (fun a =>
          decide (a._id = id) && decide (a.patient = user._id) &&
            decide (a.status = Status.completed)) = some a →
        truthy a.rating.score = true →
        rate db env user id body = (RateResult.alreadyRated, db) := by
    intro db env body hrej a hf hsc
    unfold rate
    simp [hrej, hf, hsc]
  refine ⟨?_, ?_, hC db env body, ?_⟩
  · intro hrej
    unfold rate
    simp [hrej]
  · intro hrej hnone
    have hf : db.appointments.find? (fun a =>
        decide (a._id = id) && decide (a.patient = user._id) &&
          decide (a.status = Status.completed)) = none := by
      rw [List.find?_eq_none]
      intro a ha
      simp only [Bool.and_eq_true, decide_eq_true_eq, not_and]
      intro hid
      exact hnone a ha hid.1
    unfold rate
    simp [hrej, hf]
  · intro a1 h
    obtain ⟨a, score, d, hf, hscore, hrej, hrated, ha1, hd, hdb⟩ :=
      rate_ok_inv db env user id body a1 h
    have hmem := List.mem_of_find?_eq_some hf
    have hp := List.find?_some hf
    simp only [Bool.and_eq_true, decide_eq_true_eq] at hp
    have hsc1 : a1.rating.score = score := by rw [ha1]; rfl
    have htr : truthy a1.rating.score = true := by
      rw [hsc1]
      exact cast_truthy env body.score score hrej hscore
    refine ⟨⟨a, hmem, hp.1.1, hp.1.2, hp.2, hrated, by rw [hsc1]; exact hscore, htr, ?_⟩, ?_⟩
    · rw [ha1]; exact hp.2
    · intro env2 body2 hv2
      have hfind : (rate db env user id body).2.appointments.find? (fun a =>
          decide (a._id = id) && decide (a.patient = user._id) &&
            decide (a.status = Status.completed)) = some a1 := by
        rw [hdb]
        show (db.appointments.map (fun b => if b._id = a1._id then a1 else b)).find? _ = some a1
        apply find_map_replace_pred db.appointments a1 _ ⟨a, hmem, by rw [ha1]; rfl⟩
        · rw [ha1]
          simp [ratedAppointment, hp.1.1, hp.1.2, hp.2]
        · intro b hb
          simp only [Bool.and_eq_true, decide_eq_true_eq] at hb
          rw [hb.1.1, ha1]
          exact hp.1.1.symm
      exact hC _ env2 body2 hv2 a1 hfind htr

/-! ## Lemmas on the status table -/

theorem map_replace_status (l : List Appointment) (a a1 : Appointment)
    (hn : (l.map (fun b => b._id)).Nodup) (ha : a ∈ l) (hid : a1._id = a._id)
    (hst : a1.status = a.status) :
    (l.map (fun b => if b._id = a1._id then a1 else b)).map (fun b => (b._id, b.status))
      = l.map (fun b => (b._id, b.status)) := by
  induction l with
  | nil => rfl
  | cons x xs ih =>
    simp only [List.map_cons, List.nodup_cons, List.mem_map, not_exists, not_and] at hn
    rcases List.mem_cons.mp ha with rfl | hxs
    · have hne : ∀ b ∈ xs, b._id ≠ a1._id := by
        intro b hb hbe
        exact hn.1 b hb (by rw [hbe, hid])
      simp only [List.map_cons, hid, if_true]
      have := map_replace_of_ne a1 xs hne
      rw [hid] at this
      rw [this, hst, ← hid]
    · have hx : x._id ≠ a1._id := by
        intro hxe
        exact hn.1 a hxs (by rw [hxe, hid])
      simp only [List.map_cons, hx, if_false]
      rw [ih hn.2 hxs]

theorem statusTable_saveAppointment (db : Db) (a a1 : Appointment)
    (hn : (db.appointments.map (fun b => b._id)).Nodup) (ha : a ∈ db.appointments)
    (hid : a1._id = a._id) (hst : a1.status = a.status) :
    statusTable (saveAppointment db a1) = statusTable db :=
  map_replace_status db.appointments a a1 hn ha hid hst

theorem confirmPayment_outcome (db : Db) (env : ApptEnv) (user : User) (id : ObjectId) :
    (confirmPayment db env user id).2 = db ∨
      ∃ a ∈ db.appointments, a._id = id ∧ a.patient = user._id ∧
        a.payment.status = PayStatus.pending ∧
        (confirmPayment db env user id).2 = saveAppointment db (confirmedAppointment a) := by
  unfold confirmPayment
  dsimp only
  split
  · exact Or.inl rfl
  · rename_i a hf
    have hmem := List.mem_of_find?_eq_some hf
    have hp := List.find?_some hf
    simp only [Bool.and_eq_true, decide_eq_true_eq] at hp
    split
    · exact Or.inl rfl
    · rename_i hpend
      have hpend1 : a.payment.status = PayStatus.pending := by
        by_cases h : a.payment.status = PayStatus.pending
        · exact h
        · exact absurd h hpend
      split
      · exact Or.inl rfl
      · split
        · exact Or.inr ⟨a, hmem, hp.1, hp.2, hpend1, rfl⟩
        · split
          · exact Or.inr ⟨a, hmem, hp.1, hp.2, hpend1, rfl⟩
          · exact Or.inr ⟨a, hmem, hp.1, hp.2, hpend1, rfl⟩

/-! ## Lemmas on the uniqueness of slots -/

theorem slotsUnique_apart (db : Db) (h : SlotsUnique db) (a s : Slot) (ha : a ∈ db.slots)
    (hs : s ∈ db.slots) (hne : a ≠ s) :
    a._id ≠ s._id ∧ (a.doctor, a.date, a.startTime) ≠ (s.doctor, s.date, s.startTime) := by
  unfold SlotsUnique at h
  rw [List.pairwise_map] at h
  exact h.forall (fun x y hxy => ⟨hxy.1.symm, hxy.2.symm⟩) ha hs hne

theorem slotsUnique_id_inj (db : Db) (h : SlotsUnique db) (a s : Slot) (ha : a ∈ db.slots)
    (hs : s ∈ db.slots) (hid : a._id = s._id) : a = s := by
  by_contra hne
  exact (slotsUnique_apart db h a s ha hs hne).1 hid

theorem slotsUnique_of_slots_eq (db db1 : Db) (h : SlotsUnique db) (he : db1.slots = db.slots) :
    SlotsUnique db1 := by
  unfold SlotsUnique at h ⊢
  rw [he]
  exact h

theorem slotsUnique_saveSlot (db : Db) (s s1 : Slot) (h : SlotsUnique db) (hs : s ∈ db.slots)
    (hk : slotKey s1 = slotKey s) : SlotsUnique (saveSlot db s1) := by
  have hid1 : s1._id = s._id := congrArg Prod.fst hk
  have hmap : (saveSlot db s1).slots.map slotKey = db.slots.map slotKey := by
    unfold saveSlot
    simp only [List.map_map]
    apply List.map_congr_left
    intro a ha
    simp only [Function.comp]
    split
    · rename_i hid
      rw [hk, slotsUnique_id_inj db h a s ha hs (by rw [hid, hid1])]
    · rfl
  unfold SlotsUnique at h ⊢
  rw [hmap]
  exact h

theorem slotsUnique_insertSlot (db db1 : Db) (s : Slot) (h : SlotsUnique db)
    (hi : insertSlot db s = Except.ok db1) : SlotsUnique db1 := by
  unfold insertSlot at hi
  split at hi
  · simp at hi
  · rename_i hc
    simp only [Except.ok.injEq] at hi
    subst hi
    unfold SlotsUnique at h ⊢
    simp only [List.map_append, List.map_cons, List.map_nil]
    rw [List.pairwise_append]
    refine ⟨h, List.pairwise_singleton _ _, ?_⟩
    intro k hk k2 hk2
    simp only [List.mem_singleton] at hk2
    subst hk2
    obtain ⟨t, ht, rfl⟩ := List.mem_map.mp hk
    unfold slotCollides at hc
    simp only [List.any_eq_true, Bool.or_eq_true, Bool.and_eq_true, decide_eq_true_eq,
      not_exists, not_and, not_or] at hc
    have := hc t ht
    refine ⟨this.1, ?_⟩
    intro he
    simp only [slotKey, Prod.mk.injEq] at he
    exact this.2 ⟨he.1, he.2.1⟩ he.2.2

theorem createSlot_unique (db : Db) (newId : ObjectId) (user : User) (body : CreateSlotBody)
    (h : SlotsUnique db) : SlotsUnique (createSlot db newId user body).2 := by
  unfold createSlot
  dsimp only
  repeat' split
  all_goals first
    | exact h
    | (rename_i hi; exact slotsUnique_insertSlot db _ _ h hi)

theorem bulkDay_unique (doctor : Doctor) (d : Date) (ts : List SlotTime) (st : BulkState)
    (h : SlotsUnique st.db) : SlotsUnique (bulkDay doctor d ts st).db := by
  induction ts generalizing st with
  | nil => exact h
  | cons t ts ih =>
    unfold bulkDay
    split
    · exact h
    · split
      · rename_i slot db1 hsave
        apply ih
        unfold saveSlotTime at hsave
        dsimp only at hsave
        split at hsave
        · split at hsave
          · rename_i hi
            simp only [Except.ok.injEq, Prod.mk.injEq] at hsave
            rw [← hsave.2]
            exact slotsUnique_insertSlot st.db _ _ h hi
          · simp at hsave
        · simp at hsave
      · apply ih
        exact h
      · exact h

theorem bulkLoop_unique (doctor : Doctor) (endDate : Date) (ts : List SlotTime) (fuel : Nat)
    (d : Date) (st : BulkState) (h : SlotsUnique st.db) :
    SlotsUnique (bulkLoop doctor endDate ts fuel d st).db := by
  induction fuel generalizing d st with
  | zero => exact h
  | succ n ih =>
    unfold bulkLoop
    split
    · exact h
    · split
      · apply ih
        split
        · exact bulkDay_unique doctor d ts st h
        · exact h
      · exact h

theorem bulkCreate_unique (db : Db) (newId : ObjectId) (user : User) (body : BulkBody)
    (h : SlotsUnique db) : SlotsUnique (bulkCreate db newId user body).2 := by
  unfold bulkCreate
  dsimp only
  repeat' split
  all_goals first
    | exact h
    | exact bulkLoop_unique _ _ _ _ _ { db := db, nextId := newId } h

theorem blockSlot_unique (db : Db) (user : User) (id : ObjectId) (body : BlockBody)
    (h : SlotsUnique db) : SlotsUnique (blockSlot db user id body).2 := by
  unfold blockSlot
  dsimp only
  split
  · exact h
  · split
    · exact h
    · split
      · exact h
      · rename_i slot hf
        exact slotsUnique_saveSlot db slot _ h (List.mem_of_find?_eq_some hf) rfl

theorem deleteSlot_unique (db : Db) (user : User) (id : ObjectId)
    (h : SlotsUnique db) : SlotsUnique (deleteSlot db user id).2 := by
  unfold deleteSlot
  repeat' split
  all_goals first
    | exact h
    | (unfold SlotsUnique at h ⊢
       exact List.Pairwise.sublist ((List.filter_sublist _).map slotKey) h)

theorem book_unique (db : Db) (env : BookEnv) (user : User) (req : BookRequest)
    (h : SlotsUnique db) : SlotsUnique (book db env user req).2.1 := by
  cases hres : (book db env user req).1 with
  | created a cs =>
    obtain ⟨doctor, slot, w, pi, _, _, hw, _, _, _, hdb, _, _⟩ :=
      book_created_inv db env user req a cs hres
    obtain ⟨s0, hs0, _, hf, hslot, hwdb, _⟩ :=
      tryAcquire_some db req.slotId user._id env.now slot w hw
    have hw1 : SlotsUnique w := by
      rw [hwdb]
      exact slotsUnique_saveSlot db s0 slot h hs0 (by rw [hslot]; rfl)
    have hmem : slot ∈ (insertAppointment w a).slots := by
      rw [insertAppointment_slots, hwdb]
      exact mem_saveSlot_self db slot ⟨s0, hs0, by rw [hslot]; rfl⟩
    rw [hdb]
    exact slotsUnique_saveSlot (insertAppointment w a) slot (commitSlot slot)
      (slotsUnique_of_slots_eq w _ hw1 (insertAppointment_slots w a)) hmem rfl
  | doctorUnavailable =>
    rw [book_not_created_db db env user req (by rw [hres]; rfl)]; exact h
  | slotUnavailable =>
    rw [book_not_created_db db env user req (by rw [hres]; rfl)]; exact h
  | error =>
    rw [book_not_created_db db env user req (by rw [hres]; rfl)]; exact h

theorem releaseSlot_unique (db : Db) (id : ObjectId) (h : SlotsUnique db) :
    SlotsUnique (releaseSlot db id) := by
  unfold releaseSlot
  split
  · exact h
  · rename_i slot hf
    exact slotsUnique_saveSlot db slot _ h (List.mem_of_find?_eq_some hf) rfl

theorem step_unique (db : Db) (op : Op) (h : SlotsUnique db) : SlotsUnique (step db op) := by
  cases op with
  | createSlot newId user body => exact createSlot_unique db newId user body h
  | bulkCreate newId user body => exact bulkCreate_unique db newId user body h
  | blockSlot user id body => exact blockSlot_unique db user id body h
  | deleteSlot user id => exact deleteSlot_unique db user id h
  | book env user req => exact book_unique db env user req h
  | confirmPayment env user id =>
    exact slotsUnique_of_slots_eq db _ h (confirmPayment_slots db env user id)
  | cancel env user id reason =>
    show SlotsUnique (cancel db env user id reason).2.1
    rcases cancel_db db env user id reason with he | ⟨a, he⟩
    · rw [he]; exact h
    · rw [he]
      exact releaseSlot_unique _ _ (slotsUnique_of_slots_eq db _ h (saveAppointment_slots db a))
  | complete env user id =>
    exact slotsUnique_of_slots_eq db _ h (complete_slots db env user id)
  | videoStart env user id =>
    exact slotsUnique_of_slots_eq db _ h (videoStart_slots db env user id)
  | webhook now event =>
    exact slotsUnique_of_slots_eq db _ h (webhook_slots db now event)
  | rate env user id body =>
    exact slotsUnique_of_slots_eq db _ h (rate_slots db env user id body)
  | setDoctors doctors => exact slotsUnique_of_slots_eq db _ h rfl

theorem run_unique (ops : List Op) (db : Db) (h : SlotsUnique db) :
    SlotsUnique (run db ops) := by
  induction ops generalizing db with
  | nil => exact h
  | cons op ops ih => exact ih (step db op) (step_unique db op h)

theorem reachable_unique (db : Db) (h : Reachable db) : SlotsUnique db := by
  obtain ⟨ops, rfl⟩ := h
  exact run_unique ops emptyDb List.Pairwise.nil

/-! ## Lemmas on the bulk route -/

theorem slotCollides_iff (db : Db) (s : Slot) :
    slotCollides db s = true ↔
      ∃ t ∈ db.slots, t._id = s._id ∨
        (t.doctor = s.doctor ∧ t.date = s.date ∧ t.startTime = s.startTime) := by
  unfold slotCollides
  simp only [List.any_eq_true, Bool.or_eq_true, Bool.and_eq_true, decide_eq_true_eq, and_assoc]

theorem timesGiven_get (ts : List SlotTime) (h : timesGiven ts) (t : SlotTime) (ht : t ∈ ts) :
    ∃ b e, t.startTime = some b ∧ t.endTime = some e := by
  obtain ⟨h1, h2⟩ := h t ht
  obtain ⟨b, hb⟩ := Option.isSome_iff_exists.mp h1
  obtain ⟨e, he⟩ := Option.isSome_iff_exists.mp h2
  exact ⟨b, e, hb, he⟩

theorem saveSlotTime_given (db : Db) (id : ObjectId) (doctor : Doctor) (d : Date) (t : SlotTime)
    (b e : String) (hb : t.startTime = some b) (he : t.endTime = some e) :
    saveSlotTime db id doctor d t =
      if slotCollides db (bulkSlotDoc id doctor d b e t.maxPatients) then
        Except.error SaveError.duplicateKey
      else
        Except.ok (bulkSlotDoc id doctor d b e t.maxPatients,
          { db with slots := db.slots ++ [bulkSlotDoc id doctor d b e t.maxPatients] }) := by
  unfold saveSlotTime insertSlot
  rw [hb, he]
  by_cases hc : slotCollides db (bulkSlotDoc id doctor d b e t.maxPatients) = true
  · have hc1 := hc
    unfold bulkSlotDoc at hc1
    simp [hc, hc1]
  · have hc1 := hc
    unfold bulkSlotDoc at hc1
    simp only [hc, hc1]
    rfl

/-- One day of the bulk route on a body whose slot times are complete, with unused
ids from `nextId` on: nothing is thrown, the database grows by the created slots,
each of them a slot of the doctor on day `d` whose `(doctor, date, startTime)` was
free, and afterwards every requested `startTime` is taken on day `d`. -/
theorem bulkDay_grows (doctor : Doctor) (d : Date) (ts : List SlotTime) (st : BulkState)
    (hth : st.thrown = false) (hts : timesGiven ts) (hfresh : idsBelow st.db st.nextId) :
    (bulkDay doctor d ts st).thrown = false ∧
    idsBelow (bulkDay doctor d ts st).db (bulkDay doctor d ts st).nextId ∧
    (∀ t ∈ ts, ∀ b, t.startTime = some b →
      tripleTaken (bulkDay doctor d ts st).db doctor._id d b) ∧
    ∃ new : List Slot,
      (bulkDay doctor d ts st).db = { st.db with slots := st.db.slots ++ new } ∧
      (bulkDay doctor d ts st).createdSlots = st.createdSlots ++ new ∧
      ∀ s ∈ new, s.doctor = doctor._id ∧ s.date = d ∧
        (∃ t ∈ ts, t.startTime = some s.startTime) ∧
        ¬ tripleTaken st.db doctor._id d s.startTime := by
  induction ts generalizing st with
  | nil =>
    refine ⟨hth, hfresh, ?_, [], ?_, ?_, ?_⟩
    · intro t ht
      simp at ht
    · simp [bulkDay]
    · simp [bulkDay]
    · intro s hs
      simp at hs
  | cons t ts ih =>
    obtain ⟨b, e, hb, he⟩ := timesGiven_get (t :: ts) hts t (List.mem_cons_self t ts)
    have hts1 : timesGiven ts := fun u hu => hts u (List.mem_cons_of_mem t hu)
    unfold bulkDay
    rw [if_neg (by simp [hth])]
    rw [saveSlotTime_given st.db st.nextId doctor d t b e hb he]
    by_cases hc : slotCollides st.db (bulkSlotDoc st.nextId doctor d b e t.maxPatients) = true
    · -- the key is taken: the save is skipped
      rw [if_pos hc]
      have htaken : tripleTaken st.db doctor._id d b := by
        obtain ⟨u, hu, hcase⟩ := (slotCollides_iff _ _).mp hc
        rcases hcase with hid | htr
        · have := hfresh u hu
          have hid1 : u._id = st.nextId := hid
          rw [hid1] at this
          exact absurd this (Nat.lt_irrefl _)
        · exact ⟨u, hu, htr.1, htr.2.1, htr.2.2⟩
      dsimp only
      have hfresh1 : idsBelow ({ st with nextId := st.nextId + 1 } : BulkState).db
          ({ st with nextId := st.nextId + 1 } : BulkState).nextId := by
        intro s hs
        exact Nat.lt_succ_of_lt (hfresh s hs)
      obtain ⟨h1, h2, h3, new, h4, h5, h6⟩ :=
        ih { st with nextId := st.nextId + 1 } hth hts1 hfresh1
      refine ⟨h1, h2, ?_, new, h4, h5, ?_⟩
      · intro u hu c hc1
        rcases List.mem_cons.mp hu with rfl | hu1
        · rw [hb] at hc1
          simp only [Option.some.injEq] at hc1
          subst hc1
          obtain ⟨v, hv, hv1⟩ := htaken
          refine ⟨v, ?_, hv1⟩
          rw [h4]
          exact List.mem_append_left _ hv
        · exact h3 u hu1 c hc1
      · intro s hs
        obtain ⟨q1, q2, ⟨u, hu, q3⟩, q4⟩ := h6 s hs
        exact ⟨q1, q2, ⟨u, List.mem_cons_of_mem t hu, q3⟩, q4⟩
    · -- the slot is saved
      rw [if_neg hc]
      dsimp only
      have hfree : ¬ tripleTaken st.db doctor._id d b := by
        rintro ⟨u, hu, h1, h2, h3⟩
        exact hc ((slotCollides_iff _ _).mpr ⟨u, hu, Or.inr ⟨h1, h2, h3⟩⟩)
      have hfresh1 : idsBelow
          ({ st with
              db := { st.db with slots := st.db.slots ++
                [bulkSlotDoc st.nextId doctor d b e t.maxPatients] }
              nextId := st.nextId + 1
              createdSlots := st.createdSlots ++
                [bulkSlotDoc st.nextId doctor d b e t.maxPatients] } :
            BulkState).db (st.nextId + 1) := by
        intro s hs
        simp only [List.mem_append, List.mem_singleton] at hs
        rcases hs with hs | rfl
        · exact Nat.lt_succ_of_lt (hfresh s hs)
        · exact Nat.lt_succ_self _
      obtain ⟨h1, h2, h3, new, h4, h5, h6⟩ :=
        ih { st with
              db := { st.db with slots := st.db.slots ++
                [bulkSlotDoc st.nextId doctor d b e t.maxPatients] }
              nextId := st.nextId + 1
              createdSlots := st.createdSlots ++
                [bulkSlotDoc st.nextId doctor d b e t.maxPatients] } hth hts1 hfresh1
      refine ⟨h1, h2, ?_, bulkSlotDoc st.nextId doctor d b e t.maxPatients :: new,
        ?_, ?_, ?_⟩
      · intro u hu c hc1
        rcases List.mem_cons.mp hu with rfl | hu1
        · rw [hb] at hc1
          simp only [Option.some.injEq] at hc1
          subst hc1
          refine ⟨bulkSlotDoc st.nextId doctor d b e u.maxPatients, ?_, rfl, rfl, rfl⟩
          rw [h4]
          simp
        · exact h3 u hu1 c hc1
      · rw [h4]
        simp
      · rw [h5]
        simp
      · intro s hs
        rcases List.mem_cons.mp hs with rfl | hs1
        · exact ⟨rfl, rfl, ⟨t, List.mem_cons_self t ts, hb⟩, hfree⟩
        · obtain ⟨q1, q2, ⟨u, hu, q3⟩, q4⟩ := h6 s hs1
          refine ⟨q1, q2, ⟨u, List.mem_cons_of_mem t hu, q3⟩, ?_⟩
          rintro ⟨v, hv, hv1⟩
          exact q4 ⟨v, List.mem_append_left _ hv, hv1⟩

/-- One day of the bulk route when every requested `startTime` is taken on day `d`:
every save is skipped as a duplicate. -/
theorem bulkDay_skips (doctor : Doctor) (d : Date) (ts : List SlotTime) (st : BulkState)
    (hth : st.thrown = false)
    (hts : ∀ t ∈ ts, ∃ b e, t.startTime = some b ∧ t.endTime = some e ∧
      tripleTaken st.db doctor._id d b) :
    (bulkDay doctor d ts st).db = st.db ∧
    (bulkDay doctor d ts st).createdSlots = st.createdSlots ∧
    (bulkDay doctor d ts st).thrown = false := by
  induction ts generalizing st with
  | nil => exact ⟨rfl, rfl, hth⟩
  | cons t ts ih =>
    obtain ⟨b, e, hb, he, u, hu, hu1, hu2, hu3⟩ := hts t (List.mem_cons_self t ts)
    unfold bulkDay
    rw [if_neg (by simp [hth])]
    rw [saveSlotTime_given st.db st.nextId doctor d t b e hb he]
    have hc : slotCollides st.db (bulkSlotDoc st.nextId doctor d b e t.maxPatients) = true :=
      (slotCollides_iff _ _).mpr ⟨u, hu, Or.inr ⟨hu1, hu2, hu3⟩⟩
    rw [if_pos hc]
    exact ih { st with nextId := st.nextId + 1 } hth
      (fun v hv => hts v (List.mem_cons_of_mem t hv))

theorem dayMs_pos : 0 < dayMs := by decide

/-- The outer loop of the bulk route on a body whose slot times are complete, with
unused ids from `nextId` on: nothing is thrown and the database grows by the created
slots, each of them a slot of the doctor on a working day between `d` and `endDate`
whose `(doctor, date, startTime)` was free. -/
theorem bulkLoop_grows (doctor : Doctor) (endDate : Date) (ts : List SlotTime) (fuel : Nat)
    (d : Date) (st : BulkState)
    (hth : st.thrown = false) (hts : timesGiven ts) (hfresh : idsBelow st.db st.nextId) :
    (bulkLoop doctor endDate ts fuel d st).thrown = false ∧
    idsBelow (bulkLoop doctor endDate ts fuel d st).db
      (bulkLoop doctor endDate ts fuel d st).nextId ∧
    ∃ new : List Slot,
      (bulkLoop doctor endDate ts fuel d st).db = { st.db with slots := st.db.slots ++ new } ∧
      (bulkLoop doctor endDate ts fuel d st).createdSlots = st.createdSlots ++ new ∧
      ∀ s ∈ new, s.doctor = doctor._id ∧ d ≤ s.date ∧ s.date ≤ endDate ∧
        worksOn doctor s.date = true ∧
        (∃ t ∈ ts, t.startTime = some s.startTime) ∧
        ¬ tripleTaken st.db doctor._id s.date s.startTime := by
  induction fuel generalizing d st with
  | zero =>
    refine ⟨hth, hfresh, [], ?_, ?_, ?_⟩
    · simp [bulkLoop]
    · simp [bulkLoop]
    · intro s hs
      simp at hs
  | succ n ih =>
    unfold bulkLoop
    rw [if_neg (by simp [hth])]
    by_cases hd : d ≤ endDate
    · rw [if_pos hd]
      dsimp only
      by_cases hw : worksOn doctor d = true
      · rw [if_pos hw]
        obtain ⟨g1, g2, _, new1, g4, g5, g6⟩ := bulkDay_grows doctor d ts st hth hts hfresh
        obtain ⟨h1, h2, new2, h4, h5, h6⟩ := ih (d + dayMs) (bulkDay doctor d ts st) g1 g2
        refine ⟨h1, h2, new1 ++ new2, ?_, ?_, ?_⟩
        · rw [h4, g4]
          simp
        · rw [h5, g5]
          simp
        · intro s hs
          rcases List.mem_append.mp hs with hs1 | hs2
          · obtain ⟨q1, q2, q3, q4⟩ := g6 s hs1
            refine ⟨q1, by rw [q2], by rw [q2]; exact hd, by rw [q2]; exact hw, q3, ?_⟩
            rw [q2]
            exact q4
          · obtain ⟨q1, q2, q3, q4, q5, q6⟩ := h6 s hs2
            refine ⟨q1, ?_, q3, q4, q5, ?_⟩
            · exact le_trans (le_add_of_nonneg_right dayMs_pos.le) q2
            · rintro ⟨v, hv, hv1⟩
              apply q6
              refine ⟨v, ?_, hv1⟩
              rw [g4]
              exact List.mem_append_left _ hv
      · rw [if_neg hw]
        obtain ⟨h1, h2, new2, h4, h5, h6⟩ := ih (d + dayMs) st hth hfresh
        refine ⟨h1, h2, new2, h4, h5, ?_⟩
        intro s hs
        obtain ⟨q1, q2, q3, q4, q5, q6⟩ := h6 s hs
        refine ⟨q1, ?_, q3, q4, q5, q6⟩
        exact le_trans (le_add_of_nonneg_right dayMs_pos.le) q2
    · rw [if_neg hd]
      refine ⟨hth, hfresh, [], ?_, ?_, ?_⟩
      · simp
      · simp
      · intro s hs
        simp at hs

/-- The bulk loop run a second time: when the first run, from a state with unused ids
from `nextId` on, threw nothing and all the slots it left are stored, the loop creates
nothing, changes nothing and throws nothing. -/
theorem bulkLoop_again (doctor : Doctor) (endDate : Date) (ts : List SlotTime) (fuel : Nat)
    (d : Date) (st1 st2 : BulkState)
    (hth1 : st1.thrown = false) (hth2 : st2.thrown = false) (hts : timesGiven ts)
    (hfresh : idsBelow st1.db st1.nextId)
    (hsub : ∀ s ∈ (bulkLoop doctor endDate ts fuel d st1).db.slots, s ∈ st2.db.slots) :
    (bulkLoop doctor endDate ts fuel d st2).db = st2.db ∧
    (bulkLoop doctor endDate ts fuel d st2).createdSlots = st2.createdSlots ∧
    (bulkLoop doctor endDate ts fuel d st2).thrown = false := by
  induction fuel generalizing d st1 st2 with
  | zero => exact ⟨rfl, rfl, hth2⟩
  | succ n ih =>
    unfold bulkLoop at hsub ⊢
    rw [if_neg (by simp [hth1])] at hsub
    rw [if_neg (by simp [hth2])]
    by_cases hd : d ≤ endDate
    · rw [if_pos hd] at hsub ⊢
      dsimp only at hsub ⊢
      by_cases hw : worksOn doctor d = true
      · rw [if_pos hw] at hsub ⊢
        obtain ⟨g1, g2, g3, _⟩ := bulkDay_grows doctor d ts st1 hth1 hts hfresh
        obtain ⟨_, _, new2, h4, _⟩ :=
          bulkLoop_grows doctor endDate ts n (d + dayMs) (bulkDay doctor d ts st1) g1 hts g2
        have htaken : ∀ t ∈ ts, ∃ b e, t.startTime = some b ∧ t.endTime = some e ∧
            tripleTaken st2.db doctor._id d b := by
          intro t ht
          obtain ⟨b, e, hb, he⟩ := timesGiven_get ts hts t ht
          obtain ⟨v, hv, hv1⟩ := g3 t ht b hb
          refine ⟨b, e, hb, he, v, hsub v ?_, hv1⟩
          rw [h4]
          exact List.mem_append_left _ hv
        obtain ⟨k1, k2, k3⟩ := bulkDay_skips doctor d ts st2 hth2 htaken
        obtain ⟨r1, r2, r3⟩ := ih (d + dayMs) (bulkDay doctor d ts st1) (bulkDay doctor d ts st2)
          g1 k3 g2 (by rw [k1]; exact hsub)
        exact ⟨by rw [r1, k1], by rw [r2, k2], r3⟩
      · rw [if_neg hw] at hsub ⊢
        exact ih (d + dayMs) st1 st2 hth1 hth2 hfresh hsub
    · rw [if_neg hd]
      exact ⟨rfl, rfl, hth2⟩

/-- The fuel `bulkFuel` lets the loop run to its end: with more fuel the loop gives
the same state. -/
theorem bulkLoop_fuel (doctor : Doctor) (endDate : Date) (ts : List SlotTime) (n : Nat)
    (d : Date) (st : BulkState) (hn : endDate < d + n * dayMs) (k : Nat) :
    bulkLoop doctor endDate ts (n + k) d st = bulkLoop doctor endDate ts n d st := by
  induction n generalizing d st with
  | zero =>
    have hd : ¬ d ≤ endDate := by
      simp only [Nat.cast_zero, zero_mul, add_zero] at hn
      exact not_le.mpr hn
    cases k with
    | zero => rfl
    | succ k =>
      rw [Nat.zero_add]
      show bulkLoop doctor endDate ts (k + 1) d st = st
      unfold bulkLoop
      split
      · rfl
      · rfl
  | succ n ih =>
    rw [show n + 1 + k = (n + k) + 1 from by omega]
    unfold bulkLoop
    split
    · rfl
    · split
      · apply ih
        push_cast at hn
        linarith
      · rfl

theorem bulkFuel_enough (start endDate : Date) :
    endDate < start + (bulkFuel start endDate : Nat) * dayMs := by
  unfold bulkFuel
  have hpos := dayMs_pos
  by_cases h : endDate < start
  · have : (0 : Int) ≤ (((endDate - start) / dayMs + 1).toNat : Int) * dayMs :=
      mul_nonneg (Int.ofNat_nonneg _) hpos.le
    linarith
  · have hq : 0 ≤ (endDate - start) / dayMs :=
      Int.ediv_nonneg (sub_nonneg.mpr (not_lt.mp h)) hpos.le
    rw [Int.toNat_of_nonneg (add_nonneg hq zero_le_one)]
    have := Int.lt_ediv_add_one_mul_self (endDate - start) hpos
    linarith

theorem bulkCreate_eq (db : Db) (newId : ObjectId) (user : User) (body : BulkBody)
    (doctor : Doctor) (start endDate : Date)
    (hrole : user.role = Role.doctor) (hdoc : findDoctorByUser db user._id = some doctor)
    (hstart : body.startDate = some start) (hend : body.endDate = some endDate)
    (hne : body.slots ≠ []) :
    bulkCreate db newId user body =
      if (bulkLoop doctor endDate body.slots (bulkFuel start endDate) start
          { db := db, nextId := newId }).thrown then
        (SlotResult.error,
          (bulkLoop doctor endDate body.slots (bulkFuel start endDate) start
            { db := db, nextId := newId }).db)
      else
        (SlotResult.createdMany
            (bulkLoop doctor endDate body.slots (bulkFuel start endDate) start
              { db := db, nextId := newId }).createdSlots,
          (bulkLoop doctor endDate body.slots (bulkFuel start endDate) start
            { db := db, nextId := newId }).db) := by
  unfold bulkCreate
  have hauth : authorize [Role.doctor] user = true := by simp [authorize, hrole]
  have hemp : body.slots.isEmpty = false := by
    cases hs : body.slots with
    | nil => exact absurd hs hne
    | cons x xs => rfl
  simp only [hauth, hdoc, hstart, hend, hemp, Bool.not_true, Bool.false_eq_true, if_false]

/-! ## Lemmas on the rating aggregate -/

/-- The four orders of three equal scores and another one. -/
theorem perm_three_one (x y : JsNumber) (hxy : x ≠ y) (l : List JsNumber)
    (h : l.Perm [x, x, x, y]) :
    l = [x, x, x, y] ∨ l = [x, x, y, x] ∨ l = [x, y, x, x] ∨ l = [y, x, x, x] := by
  have hlen := h.length_eq
  match l, hlen with
  | [a, b, c, d], _ =>
    have ha : a = x ∨ a = y := by
      have := h.subset (List.mem_cons_self a _)
      simpa using this
    have hb : b = x ∨ b = y := by
      have := h.subset (show b ∈ [a, b, c, d] by simp)
      simpa using this
    have hc : c = x ∨ c = y := by
      have := h.subset (show c ∈ [a, b, c, d] by simp)
      simpa using this
    have hd : d = x ∨ d = y := by
      have := h.subset (show d ∈ [a, b, c, d] by simp)
      simpa using this
    have hcount := h.count_eq y
    have hyx : y ≠ x := Ne.symm hxy
    rcases ha with ha | ha <;> rcases hb with hb | hb <;> rcases hc with hc | hc <;>
      rcases hd with hd | hd <;> rw [ha, hb, hc, hd] at hcount ⊢ <;>
      first
        | (simp; done)
        | (exfalso; revert hcount; simp [List.count_cons, hxy, hyx])

/-- The rating update on a score that is a Number. -/
theorem recordRating_number (env : RateEnv) (r : DoctorRating) (s : JsNumber) :
    recordRating env r (JsValue.number s)
      = { average := jsDiv (mathRound (jsMul (jsDiv (jsAdd (jsMul r.average r.count) s)
            (jsAdd r.count (JsNumber.ofNat 1))) (JsNumber.ofNat 10))) (JsNumber.ofNat 10)
          count := jsAdd r.count (JsNumber.ofNat 1) } := rfl

/-- A finite Number times the zero count. -/
theorem jsMul_zero (s : Bool) (a : Nat) :
    jsMul (JsNumber.finite s a) (JsNumber.finite false 0) = JsNumber.finite s 0 := by
  show JsNumber.ofRounded (s != false) (roundMagnitude (a * 0) unitsPerOne) = _
  rw [Nat.mul_zero]
  cases s <;> rfl

/-- The value of `round1` from the two bounds of the floor. -/
theorem specRound1_of_bounds (x : ℚ) (k : Int) (h1 : (k : ℚ) ≤ x * 10 + 1 / 2)
    (h2 : x * 10 + 1 / 2 < (k : ℚ) + 1) : specRound1 x = (k : ℚ) / 10 := by
  unfold specRound1
  rw [Int.floor_eq_iff.mpr ⟨h1, h2⟩]

/-- The double nearest to 1.4: `0x1.6666666666666p+0`. -/
theorem ofDecimal_14 :
    JsNumber.ofDecimal 14 1 = JsNumber.finite false (6305039478318694 <<< 1022) := by
  decide

/-- A score sent as the string `"4"` passes the guard and is stored as 4 on the
appointment, while `+` concatenates it in the aggregate: from `{average 5, count 1}`
the stored aggregate is `{average 27, count 2}`. -/
theorem rate_string_score :
    (rate dbRated51 rateEnvString4 patient1 30 rateBodyString4).1
      = RateResult.ok (ratedAppointment apptCompleted (some (JsNumber.ofNat 4)) none 7000) ∧
    (findDoctorById (rate dbRated51 rateEnvString4 patient1 30 rateBodyString4).2 10).map
        (fun d => d.rating)
      = some { average := JsNumber.ofNat 27, count := JsNumber.ofNat 2 } := by
  decide

/-- On a successful `book` of a slot whose `maxPatients` is at least 1, the
stored slot has `bookedCount` exactly one more than before, its lock is cleared (no
holder, no lock time, no expiry), it is marked unavailable exactly when the new
`bookedCount` equals `maxPatients`, and its blocked flag and capacity are unchanged. -/
theorem book_commits_slot (db : Db) (env : BookEnv) (user : User) (req : BookRequest)
    (a : Appointment) (cs : String) (s : Slot)
    (huniq : (db.slots.map (fun t => t._id)).Nodup)
    (hs : findSlotById db req.slotId = some s) (hcap : 1 ≤ s.maxPatients)
    (h : (book db env user req).1 = BookResult.created a cs) :
    ∃ s1, findSlotById (book db env user req).2.1 req.slotId = some s1 ∧
      s1.bookedCount = s.bookedCount + 1 ∧
      s1.lock.lockedBy = none ∧ s1.lock.lockedAt = none ∧ s1.lock.expiresAt = none ∧
      (s1.isAvailable = false ↔ s1.bookedCount = s1.maxPatients) ∧
      s1.isBlocked = s.isBlocked ∧ s1.maxPatients = s.maxPatients := by
  obtain ⟨doctor, slot, w, pi, _, _, hw, _, _, _, hdb, _⟩ :=
    book_created_inv db env user req a cs h
  obtain ⟨s0, hs0, hid, hf, hslot, hwdb, _⟩ :=
    tryAcquire_some db req.slotId user._id env.now slot w hw
  have hs0s : s0 = s := find_unique_id db.slots huniq s s0 req.slotId hs hs0 hid
  subst hs0s
  have hslotid : slot._id = req.slotId := by rw [hslot]; exact hid
  have hmem : ∃ t ∈ (insertAppointment w a).slots, t._id = (commitSlot slot)._id := by
    have := mem_saveSlot_id db slot ⟨s0, hs0, by rw [hslotid, hid]⟩
    rw [← hwdb] at this
    exact this
  have hfind := findSlotById_saveSlot (insertAppointment w a) (commitSlot slot) hmem
  have hcid : (commitSlot slot)._id = req.slotId := hslotid
  rw [hcid] at hfind
  refine ⟨commitSlot slot, by rw [hdb]; exact hfind, ?_⟩
  have hb : s0.bookedCount < 1 := by
    unfold acquireFilter at hf
    simp only [Bool.and_eq_true, decide_eq_true_eq] at hf
    exact hf.1.2
  subst hslot
  refine ⟨rfl, rfl, rfl, rfl, ?_, rfl, rfl⟩
  simp only [commitSlot, setLock, decide_eq_false_iff_not, not_lt]
  omega

/-! ## The claims -/

/-- C1 on the code: a slot that is bookable in the words of the specification is
refused.  After the first booking of a slot with `maxPatients = 2` the slot is not
blocked, has `bookedCount = 1 < 2` and carries no lock, so the specification calls it
bookable for the second patient; the conditional update finds no slot and the booking
is answered 'Slot not available'. -/
theorem C1_bookable_slot_refused :
    (findSlotById (run emptyDb traceCap2Booked) 20).map
        (fun s => (s.isBlocked, s.bookedCount, s.maxPatients, s.lock,
          specBookable s patient2._id bookEnv2.now))
      = some (false, 1, 2, {}, true) ∧
    (tryAcquire (run emptyDb traceCap2Booked) 20 patient2._id bookEnv2.now).isSome = false ∧
    (book (run emptyDb traceCap2Booked) bookEnv2 patient2 bookReq).1
      = BookResult.slotUnavailable := by
  decide

/-- C3 on the code: on a fresh, unblocked, unlocked slot with `maxPatients = 2` the
booking of the first patient succeeds and leaves `bookedCount = 1` with the slot
still marked available, and the booking of the second patient is answered with
'Slot not available'. -/
theorem C3_second_patient_rejected :
    (book dbCap2 bookEnv1 patient1 bookReq).1.isCreated = true ∧
    (findSlotById (book dbCap2 bookEnv1 patient1 bookReq).2.1 20).map
        (fun s => (s.bookedCount, s.maxPatients, s.isAvailable, s.isBlocked, s.lock))
      = some (1, 2, true, false, {}) ∧
    (book (book dbCap2 bookEnv1 patient1 bookReq).2.1 bookEnv2 patient2 bookReq).1
      = BookResult.slotUnavailable := by
  decide

/-- C4, as stated, fails: a reachable state holds a slot with `bookedCount = -1` (book,
cancel while the payment is pending, confirm the payment, cancel again), and a
reachable state holds a slot with `bookedCount = 0` above `maxPatients = -1` (a slot
created with `maxPatients: -1`). -/
theorem C4_counterexample :
    (∃ db, Reachable db ∧ ∃ s ∈ db.slots,
      s.maxPatients = 1 ∧ s.bookedCount = -1 ∧
        ¬ (0 ≤ s.bookedCount ∧ s.bookedCount ≤ s.maxPatients)) ∧
    (∃ db, Reachable db ∧ ∃ s ∈ db.slots,
      s.maxPatients = -1 ∧ s.bookedCount = 0 ∧
        ¬ (0 ≤ s.bookedCount ∧ s.bookedCount ≤ s.maxPatients)) := by
  refine ⟨⟨run emptyDb traceRecancelled, ⟨traceRecancelled, rfl⟩, ?_⟩,
    ⟨run emptyDb traceCapacityNegative, ⟨traceCapacityNegative, rfl⟩, ?_⟩⟩
  · decide
  · decide

/-- C4, amended: in every reachable state, hence after every operation that touches
a slot (slot creation, bulk creation, book, cancel, block, delete), each slot whose
`maxPatients` is at least 1 satisfies `bookedCount ≤ maxPatients`; and
`0 ≤ bookedCount` holds in every state reached by a run in which no payment
confirmation and no video start names an appointment that is already completed or
cancelled. -/
theorem C4_bounds (ops : List Op) (s : Slot) (hs : s ∈ (run emptyDb ops).slots) :
    (1 ≤ s.maxPatients → s.bookedCount ≤ s.maxPatients) ∧
    (noRestart emptyDb ops = true → 0 ≤ s.bookedCount) := by
  have hb := reachable_bounded (run emptyDb ops) ⟨ops, rfl⟩ s hs
  refine ⟨fun hcap => le_trans hb hcap, ?_⟩
  intro hnr
  have hinv := run_ledger ops emptyDb emptyDb_ledger hnr
  have hcov := hinv.covered s hs
  omega

/-- Witness of `C4_bounds`: the slot of capacity 1 after it was created and booked. -/
theorem C4_bounds_witness :
    slotBooked1 ∈ (run emptyDb traceBooked).slots ∧
    ((1 ≤ slotBooked1.maxPatients → slotBooked1.bookedCount ≤ slotBooked1.maxPatients) ∧
      (noRestart emptyDb traceBooked = true → 0 ≤ slotBooked1.bookedCount)) :=
  ⟨by decide, C4_bounds traceBooked slotBooked1 (by decide)⟩

/-- C5: whenever `book` does not answer 201 (doctor unavailable, slot unavailable,
the payment authorization throws, the appointment save fails, the slot save fails),
the database after the call is the database before it: no appointment is stored and
every slot keeps its `bookedCount`, its `isAvailable` flag and its lock. -/
theorem C5_book_all_or_nothing (db : Db) (env : BookEnv) (user : User) (req : BookRequest)
    (hfail : (book db env user req).1.isCreated = false) :
    (book db env user req).2.1 = db ∧
    (book db env user req).2.1.appointments = db.appointments ∧
    ∀ s, findSlotById (book db env user req).2.1 req.slotId = some s →
      ∃ s0, findSlotById db req.slotId = some s0 ∧ s.bookedCount = s0.bookedCount ∧
        s.isAvailable = s0.isAvailable ∧ s.lock = s0.lock := by
  have h := book_not_created_db db env user req hfail
  refine ⟨h, by rw [h], ?_⟩
  intro s hs
  rw [h] at hs
  exact ⟨s, hs, rfl, rfl, rfl⟩

/-- Witness of `C5_book_all_or_nothing`: the payment authorization throws after the
slot lock was taken, and the lock is gone with the aborted transaction. -/
theorem C5_book_all_or_nothing_witness :
    (book dbCap1 bookEnvNoHold patient1 bookReq).1.isCreated = false ∧
    ((book dbCap1 bookEnvNoHold patient1 bookReq).2.1 = dbCap1 ∧
    (book dbCap1 bookEnvNoHold patient1 bookReq).2.1.appointments = dbCap1.appointments ∧
    ∀ s, findSlotById (book dbCap1 bookEnvNoHold patient1 bookReq).2.1 bookReq.slotId = some s →
      ∃ s0, findSlotById dbCap1 bookReq.slotId = some s0 ∧ s.bookedCount = s0.bookedCount ∧
        s.isAvailable = s0.isAvailable ∧ s.lock = s0.lock) :=
  ⟨by decide, C5_book_all_or_nothing dbCap1 bookEnvNoHold patient1 bookReq (by decide)⟩

/-- C6, as stated, fails: the hold `pi_1` is authorized, `slot.save` is rejected,
`book` answers with an error, and the only call made to the payment collaborator is
the one that created the hold; the hold is never cancelled. -/
theorem C6_counterexample :
    bookEnvSlotFails.paymentIntent = some intent1 ∧
    (book dbCap1 bookEnvSlotFails patient1 bookReq).1 = BookResult.error ∧
    (book dbCap1 bookEnvSlotFails patient1 bookReq).2.2 = [StripeCall.create 150 10 1 20] ∧
    StripeCall.cancel intent1.id ∉ (book dbCap1 bookEnvSlotFails patient1 bookReq).2.2 := by
  decide

/-- C6, amended: if `book` fails after the payment hold was authorized (the
appointment save or the slot save throws), the database transaction is aborted, so
the database is unchanged, and the only call made to the payment collaborator is
the creation of the hold: no cancel call is made. -/
theorem C6_hold_not_cancelled (db : Db) (env : BookEnv) (user : User) (req : BookRequest)
    (pi : PaymentIntent) (hpi : env.paymentIntent = some pi)
    (hfail : (book db env user req).1 = BookResult.error) :
    (book db env user req).2.1 = db ∧
    (∃ doctor, findDoctorById db req.doctorId = some doctor ∧
      (book db env user req).2.2 =
        [StripeCall.create (calcFee doctor req.type) doctor._id user._id req.slotId]) ∧
    ∀ id, StripeCall.cancel id ∉ (book db env user req).2.2 := by
  refine ⟨book_not_created_db db env user req (by rw [hfail]; rfl), ?_⟩
  unfold book at hfail ⊢
  simp only [startTransaction, abortTransaction, commitTransaction] at hfail ⊢
  split at hfail
  · simp at hfail
  · rename_i doctor hd
    split at hfail
    · simp at hfail
    · rename_i hacc
      split at hfail
      · simp at hfail
      · rename_i slot w hw
        have hid : slot._id = req.slotId := by
          unfold tryAcquire at hw
          split at hw
          · simp at hw
          · rename_i s hs
            have hp := List.find?_some hs
            simp only [Bool.and_eq_true, decide_eq_true_eq] at hp
            simp only [Option.some.injEq, Prod.mk.injEq] at hw
            rw [← hw.1]
            exact hp.1
        simp only [hpi] at hfail ⊢
        simp only [Bool.not_eq_true, Bool.not_eq_false_eq_eq_true] at hacc
        simp only [hacc, hid]
        refine ⟨⟨doctor, hd, ?_⟩, ?_⟩
        · simp only [Bool.not_true, Bool.false_eq_true, if_false]
          split
          · rfl
          · split <;> rfl
        · intro id
          simp only [Bool.not_true, Bool.false_eq_true, if_false]
          split
          · simp
          · split <;> simp

/-- Witness of `C6_hold_not_cancelled`: the slot save fails after the hold `pi_1`
was authorized. -/
theorem C6_hold_not_cancelled_witness :
    (bookEnvSlotFails.paymentIntent = some intent1 ∧
      (book dbCap1 bookEnvSlotFails patient1 bookReq).1 = BookResult.error) ∧
    (book dbCap1 bookEnvSlotFails patient1 bookReq).2.1 = dbCap1 ∧
    (∃ doctor, findDoctorById dbCap1 bookReq.doctorId = some doctor ∧
      (book dbCap1 bookEnvSlotFails patient1 bookReq).2.2 =
        [StripeCall.create (calcFee doctor bookReq.type) doctor._id patient1._id
          bookReq.slotId]) ∧
    ∀ id, StripeCall.cancel id ∉ (book dbCap1 bookEnvSlotFails patient1 bookReq).2.2 :=
  ⟨⟨by decide, by decide⟩,
    C6_hold_not_cancelled dbCap1 bookEnvSlotFails patient1 bookReq intent1 (by decide)
      (by decide)⟩

/-- C7, as stated, fails: a doctor with `isVerified = false` who accepts appointments
passes the doctor check, and the booking is created. -/
theorem C7_counterexample :
    (findDoctorById dbUnverified bookReq.doctorId).map (fun d => d.isVerified) = some false ∧
    (book dbUnverified bookEnv1 patient1 bookReq).1.isCreated = true ∧
    (book dbUnverified bookEnv1 patient1 bookReq).1 ≠ BookResult.doctorUnavailable := by
  decide

/-- C7, amended: `book` answers 'Doctor not available' exactly when the doctor does not
exist or has `isAcceptingAppointments = false` (the `isVerified` flag is not read), and
that answer comes with the database unchanged, hence no lock and no appointment, and
with no call to the payment collaborator. -/
theorem C7_doctor_unavailable_iff (db : Db) (env : BookEnv) (user : User) (req : BookRequest) :
    ((book db env user req).1 = BookResult.doctorUnavailable ↔
      (findDoctorById db req.doctorId = none ∨
        ∃ d, findDoctorById db req.doctorId = some d ∧ d.isAcceptingAppointments = false)) ∧
    ((book db env user req).1 = BookResult.doctorUnavailable ↔
      book db env user req = (BookResult.doctorUnavailable, db, [])) := by
  unfold book
  simp only [startTransaction, abortTransaction, commitTransaction]
  cases hd : findDoctorById db req.doctorId with
  | none => simp
  | some d =>
    cases hacc : d.isAcceptingAppointments with
    | false => simp [hacc]
    | true =>
      simp only [hacc, Bool.not_true, Bool.false_eq_true, if_false]
      constructor
      · constructor
        · intro h
          exfalso
          revert h
          repeat' split
          all_goals simp
        · rintro (h | ⟨d1, h1, h2⟩)
          · simp at h
          · simp only [Option.some.injEq] at h1
            rw [← h1, hacc] at h2
            simp at h2
      · constructor
        · intro h
          exfalso
          revert h
          repeat' split
          all_goals simp
        · intro h
          rw [h]

/-- C8, as stated, fails: a doctor whose video fee is configured as 0 and whose
standard fee is 150 is booked for a video consultation, and the appointment carries
`payment.amount = 150`, not the configured video fee. -/
theorem C8_counterexample :
    (findDoctorById dbFreeVideo bookReqVideo.doctorId).map
        (fun d => (d.videoConsultationFee, d.consultationFee)) = some (some 0, 150) ∧
    bookReqVideo.type = ApptType.video ∧
    ((book dbFreeVideo bookEnv1 patient1 bookReqVideo).1.appointment?).map
        (fun a => a.payment.amount) = some 150 := by
  decide

/-- C8, amended: the fee charged by a successful `book`, which is the amount of the
hold requested from the payment collaborator and the `payment.amount` of the created
appointment, is the doctor's `videoConsultationFee` when the type is video and that
fee is set to a non-zero value, and `consultationFee` in every other case; with
`consultationFee = 150` and `videoConsultationFee = 120` a video booking yields 120
and an in-person booking yields 150. -/
theorem C8_fee (db : Db) (env : BookEnv) (user : User) (req : BookRequest)
    (a : Appointment) (cs : String) (h : (book db env user req).1 = BookResult.created a cs) :
    ∃ doctor, findDoctorById db req.doctorId = some doctor ∧
      (book db env user req).2.2 =
        [StripeCall.create a.payment.amount doctor._id user._id req.slotId] ∧
      (∀ v, req.type = ApptType.video → doctor.videoConsultationFee = some v → v ≠ 0 →
        a.payment.amount = v) ∧
      (req.type = ApptType.video →
        (doctor.videoConsultationFee = none ∨ doctor.videoConsultationFee = some 0) →
        a.payment.amount = doctor.consultationFee) ∧
      (req.type = ApptType.inPerson → a.payment.amount = doctor.consultationFee) ∧
      (doctor.consultationFee = 150 → doctor.videoConsultationFee = some 120 →
        (req.type = ApptType.video → a.payment.amount = 120) ∧
        (req.type = ApptType.inPerson → a.payment.amount = 150)) := by
  obtain ⟨doctor, slot, w, pi, hd, _, hw, _, ha, _, _, hcalls, _⟩ :=
    book_created_inv db env user req a cs h
  have hid : slot._id = req.slotId := by
    unfold tryAcquire at hw
    split at hw
    · simp at hw
    · rename_i s hs
      have hp := List.find?_some hs
      simp only [Bool.and_eq_true, decide_eq_true_eq] at hp
      simp only [Option.some.injEq, Prod.mk.injEq] at hw
      rw [← hw.1]
      exact hp.1
  have hamount : a.payment.amount = calcFee doctor req.type := by rw [ha]; rfl
  refine ⟨doctor, hd, by rw [hcalls, hamount, hid], ?_, ?_, ?_, ?_⟩
  · intro v ht hv hv0
    rw [hamount, ht]
    simp [calcFee, orElse, hv, hv0]
  · intro ht hv
    rw [hamount, ht]
    rcases hv with hv | hv <;> simp [calcFee, orElse, hv]
  · intro ht
    rw [hamount, ht]
    rfl
  · intro hc hv
    constructor
    · intro ht
      rw [hamount, ht]
      simp [calcFee, orElse, hv]
    · intro ht
      rw [hamount, ht]
      simp [calcFee, hc]

/-- Witness of `C8_fee`: the video booking with the doctor of fee 150 and video
fee 120. -/
theorem C8_fee_witness :
    (book dbCap1 bookEnv1 patient1 bookReqVideo).1 = BookResult.created apptVideo1 "cs_1" ∧
    ∃ doctor, findDoctorById dbCap1 bookReqVideo.doctorId = some doctor ∧
      (book dbCap1 bookEnv1 patient1 bookReqVideo).2.2 =
        [StripeCall.create apptVideo1.payment.amount doctor._id patient1._id
          bookReqVideo.slotId] ∧
      (∀ v, bookReqVideo.type = ApptType.video → doctor.videoConsultationFee = some v → v ≠ 0 →
        apptVideo1.payment.amount = v) ∧
      (bookReqVideo.type = ApptType.video →
        (doctor.videoConsultationFee = none ∨ doctor.videoConsultationFee = some 0) →
        apptVideo1.payment.amount = doctor.consultationFee) ∧
      (bookReqVideo.type = ApptType.inPerson →
        apptVideo1.payment.amount = doctor.consultationFee) ∧
      (doctor.consultationFee = 150 → doctor.videoConsultationFee = some 120 →
        (bookReqVideo.type = ApptType.video → apptVideo1.payment.amount = 120) ∧
        (bookReqVideo.type = ApptType.inPerson → apptVideo1.payment.amount = 150)) :=
  ⟨by decide, C8_fee dbCap1 bookEnv1 patient1 bookReqVideo apptVideo1 "cs_1" (by decide)⟩

/-- C9, as stated, fails: the request names a date one day after the date of the
slot, the booking succeeds, and the appointment carries the date of the request, not
the date of the slot. -/
theorem C9_counterexample :
    (findSlotById dbCap1 bookReqOtherDay.slotId).map (fun s => s.date) = some 86400000 ∧
    ((book dbCap1 bookEnv1 patient1 bookReqOtherDay).1.appointment?).map
        (fun a => (a.slot, a.date)) = some (20, 172800000) := by
  decide

/-- C9, amended: every appointment created by a successful `book` has
`status = 'pending'` and `payment.status = 'pending'`, references the acquired slot,
and carries the `startTime` and `endTime` of that slot; its `date` is the date given
in the request. -/
theorem C9_created_appointment (db : Db) (env : BookEnv) (user : User) (req : BookRequest)
    (a : Appointment) (cs : String) (h : (book db env user req).1 = BookResult.created a cs) :
    a.status = Status.pending ∧ a.payment.status = PayStatus.pending ∧
    a.slot = req.slotId ∧ a.date = req.date ∧
    ∃ s ∈ db.slots, s._id = req.slotId ∧ acquireFilter s user._id env.now = true ∧
      a.slot = s._id ∧ a.startTime = s.startTime ∧ a.endTime = s.endTime := by
  obtain ⟨doctor, slot, w, pi, _, _, hw, _, ha, _, _, _⟩ :=
    book_created_inv db env user req a cs h
  obtain ⟨s, hs, hid, hf, hslot, _⟩ := tryAcquire_some db req.slotId user._id env.now slot w hw
  subst ha
  subst hslot
  refine ⟨rfl, rfl, hid, rfl, s, hs, hid, hf, rfl, rfl, rfl⟩

/-- Witness of `C9_created_appointment`: the booking of the fresh slot of capacity 1. -/
theorem C9_created_appointment_witness :
    (book dbCap1 bookEnv1 patient1 bookReq).1 = BookResult.created appt1 "cs_1" ∧
    appt1.status = Status.pending ∧ appt1.payment.status = PayStatus.pending ∧
    appt1.slot = bookReq.slotId ∧ appt1.date = bookReq.date ∧
    ∃ s ∈ dbCap1.slots, s._id = bookReq.slotId ∧
      acquireFilter s patient1._id bookEnv1.now = true ∧
      appt1.slot = s._id ∧ appt1.startTime = s.startTime ∧ appt1.endTime = s.endTime :=
  ⟨by decide, C9_created_appointment dbCap1 bookEnv1 patient1 bookReq appt1 "cs_1" (by decide)⟩

/-- C10 on the code: the slot is marked unavailable although the new `bookedCount`
does not equal `maxPatients`.  Slot 20 was created with `maxPatients: 0`; the booking
is answered 201 and the stored slot has `bookedCount = 1`, `maxPatients = 0` and
`isAvailable = false`, with the lock cleared and the blocked flag unchanged. -/
theorem C10_commit_beyond_capacity :
    (findSlotById (run emptyDb traceCapacityZero) 20).map
        (fun s => (s.bookedCount, s.maxPatients, s.isAvailable, s.isBlocked))
      = some (0, 0, true, false) ∧
    (book (run emptyDb traceCapacityZero) bookEnv1 patient1 bookReq).1.isCreated = true ∧
    (findSlotById (book (run emptyDb traceCapacityZero) bookEnv1 patient1 bookReq).2.1 20).map
        (fun s => (s.bookedCount, s.maxPatients, s.isAvailable, s.isBlocked, s.lock))
      = some (1, 0, false, false, {}) := by
  decide

/-- C11, as stated, fails: on the cancelled appointment 30, whose payment is still
pending, a payment confirmation by the patient stores 'confirmed'; on the completed
appointment 30 the webhook event `payment_intent.payment_failed` stores 'cancelled'. -/
theorem C11_counterexample :
    (statusOf dbCancelled 30 = some Status.cancelled ∧
      payStatusOf dbCancelled 30 = some PayStatus.pending ∧
      statusOf (confirmPayment dbCancelled apptEnv1 patient1 30).2 30
        = some Status.confirmed) ∧
    (statusOf dbCompleted 30 = some Status.completed ∧
      statusOf (webhook dbCompleted 6000 (WebhookEvent.paymentFailed "pi_1")) 30
        = some Status.cancelled) := by
  decide

/-- C11, amended: for an appointment whose status is completed or cancelled, `cancel`
and `complete` change nothing, `confirmPayment` changes nothing unless its payment is
still pending, and `rate` and the webhook events `payment_intent.succeeded` and
`charge.refunded` change the status of no appointment. -/
theorem C11_terminal_kept (db : Db) (id : ObjectId)
    (huniq : (db.appointments.map (fun a => a._id)).Nodup)
    (hterm : ∀ a ∈ db.appointments, a._id = id → a.status.terminal = true) :
    (∀ env user reason, (cancel db env user id reason).2.1 = db) ∧
    (∀ env user, (complete db env user id).2.1 = db) ∧
    (∀ env user, (∀ a ∈ db.appointments, a._id = id → a.payment.status ≠ PayStatus.pending) →
      (confirmPayment db env user id).2 = db) ∧
    (∀ env user id2 body, statusTable (rate db env user id2 body).2 = statusTable db) ∧
    (∀ now pid,
      statusTable (webhook db now (WebhookEvent.succeeded pid)) = statusTable db ∧
      statusTable (webhook db now (WebhookEvent.refunded pid)) = statusTable db) := by
  refine ⟨?_, ?_, ?_, ?_, ?_⟩
  · intro env user reason
    rcases cancel_outcome db env user id reason with he | ⟨a, ha, hid, hnt, _⟩
    · exact he
    · have := hterm a ha hid
      rw [hnt] at this
      exact absurd this (by simp)
  · intro env user
    rcases complete_outcome db env user id with he | ⟨a, ha, hid, hs, _⟩
    · exact he
    · have := hterm a ha hid
      rcases hs with hs | hs <;> rw [hs] at this <;> simp [Status.terminal] at this
  · intro env user hnp
    rcases confirmPayment_outcome db env user id with he | ⟨a, ha, hid, _, hpend, _⟩
    · exact he
    · exact absurd hpend (hnp a ha hid)
  · intro env user id2 body
    rcases rate_db db env user id2 body with
      he | ⟨a, ha, score, _, _, _, _, _, _, he | ⟨d, _, he⟩⟩
    · rw [he]
    · rw [he]
      exact statusTable_saveAppointment db a _ huniq ha rfl rfl
    · rw [he]
      exact statusTable_saveAppointment db a (ratedAppointment a score body.review env.now)
        huniq ha rfl rfl
  · intro now pid
    constructor
    · show statusTable (updateByIntent db pid heldByWebhook) = statusTable db
      rcases updateByIntent_db db pid heldByWebhook with he | ⟨a, ha, he⟩
      · rw [he]
      · rw [he]
        exact statusTable_saveAppointment db a (heldByWebhook a) huniq ha rfl rfl
    · show statusTable (updateByIntent db pid (refundedByWebhook now)) = statusTable db
      rcases updateByIntent_db db pid (refundedByWebhook now) with he | ⟨a, ha, he⟩
      · rw [he]
      · rw [he]
        exact statusTable_saveAppointment db a (refundedByWebhook now a) huniq ha rfl rfl

/-- Witness of `C11_terminal_kept`: the cancelled appointment 30. -/
theorem C11_terminal_kept_witness :
    ((dbCancelled.appointments.map (fun a => a._id)).Nodup ∧
      ∀ a ∈ dbCancelled.appointments, a._id = 30 → a.status.terminal = true) ∧
    ((∀ env user reason, (cancel dbCancelled env user 30 reason).2.1 = dbCancelled) ∧
    (∀ env user, (complete dbCancelled env user 30).2.1 = dbCancelled) ∧
    (∀ env user,
      (∀ a ∈ dbCancelled.appointments, a._id = 30 → a.payment.status ≠ PayStatus.pending) →
      (confirmPayment dbCancelled env user 30).2 = dbCancelled) ∧
    (∀ env user id2 body,
      statusTable (rate dbCancelled env user id2 body).2 = statusTable dbCancelled) ∧
    (∀ now pid,
      statusTable (webhook dbCancelled now (WebhookEvent.succeeded pid))
        = statusTable dbCancelled ∧
      statusTable (webhook dbCancelled now (WebhookEvent.refunded pid))
        = statusTable dbCancelled)) :=
  ⟨⟨by decide, by decide⟩, C11_terminal_kept dbCancelled 30 (by decide) (by decide)⟩

/-- C12: for an appointment owned by the caller, `confirmPayment` on a pending payment
stores `payment.status = 'held'` and `status = 'confirmed'` and changes nothing else
of the appointment, in particular no other payment field, and answers with the
appointment when the notifications go out; on any other payment status it answers
'Payment already processed' and leaves the database unchanged. -/
theorem C12_confirmPayment (db : Db) (env : ApptEnv) (user : User) (id : ObjectId)
    (a : Appointment)
    (hfind : db.appointments.find?
      (fun b => decide (b._id = id) && decide (b.patient = user._id)) = some a) :
    (a.payment.status = PayStatus.pending → env.appointmentSaveOk = true →
      ∃ a1, findAppointmentById (confirmPayment db env user id).2 id = some a1 ∧
        (confirmPayment db env user id).2 = saveAppointment db a1 ∧
        a1.payment.status = PayStatus.held ∧ a1.status = Status.confirmed ∧
        a1.payment.amount = a.payment.amount ∧
        a1.payment.currency = a.payment.currency ∧
        a1.payment.stripePaymentIntentId = a.payment.stripePaymentIntentId ∧
        a1.payment.paidAt = a.payment.paidAt ∧
        a1.payment.refundedAt = a.payment.refundedAt ∧
        a1 = { a with payment := { a.payment with status := PayStatus.held },
                      status := Status.confirmed } ∧
        ((findDoctorById db a.doctor).isSome = true → env.emailOk = true →
          (user.phone.isSome = true → env.smsOk = true) →
          (confirmPayment db env user id).1 = ApptResult.ok a1)) ∧
    (a.payment.status ≠ PayStatus.pending →
      confirmPayment db env user id = (ApptResult.alreadyProcessed, db)) := by
  have hmem := List.mem_of_find?_eq_some hfind
  have hp := List.find?_some hfind
  simp only [Bool.and_eq_true, decide_eq_true_eq] at hp
  constructor
  · intro hpend hsave
    have hdb : (confirmPayment db env user id).2 = saveAppointment db (confirmedAppointment a) := by
      unfold confirmPayment
      simp only [hfind, hpend, hsave]
      simp only [ne_eq, not_true_eq_false, if_false, Bool.not_true, Bool.false_eq_true]
      split
      · rfl
      · split <;> rfl
    refine ⟨confirmedAppointment a, ?_, hdb, rfl, rfl, rfl, rfl, rfl, rfl, rfl, rfl, ?_⟩
    · rw [hdb]
      have := findAppointmentById_saveAppointment db (confirmedAppointment a)
        ⟨a, hmem, rfl⟩
      rw [← hp.1]
      exact this
    · intro hdoc hemail hsms
      unfold confirmPayment
      simp only [hfind, hpend, hsave, hemail]
      simp only [ne_eq, not_true_eq_false, if_false, Bool.not_true, Bool.false_eq_true,
        Bool.or_false]
      rw [Option.isSome_iff_ne_none] at hdoc
      have hnone : (findDoctorById db a.doctor).isNone = false := by
        cases hd : findDoctorById db a.doctor with
        | none => exact absurd hd hdoc
        | some d => rfl
      simp only [hnone, Bool.false_eq_true, if_false]
      cases hph : user.phone.isSome with
      | false => simp
      | true => simp [hsms hph]
  · intro hnp
    unfold confirmPayment
    simp only [hfind]
    rw [if_pos hnp]

/-- Witness of `C12_confirmPayment`: the patient confirms the payment of the booked
appointment 30. -/
theorem C12_confirmPayment_witness :
    dbBooked.appointments.find?
      (fun b => decide (b._id = 30) && decide (b.patient = patient1._id)) = some appt1 ∧
    ((appt1.payment.status = PayStatus.pending → apptEnv1.appointmentSaveOk = true →
      ∃ a1, findAppointmentById (confirmPayment dbBooked apptEnv1 patient1 30).2 30 = some a1 ∧
        (confirmPayment dbBooked apptEnv1 patient1 30).2 = saveAppointment dbBooked a1 ∧
        a1.payment.status = PayStatus.held ∧ a1.status = Status.confirmed ∧
        a1.payment.amount = appt1.payment.amount ∧
        a1.payment.currency = appt1.payment.currency ∧
        a1.payment.stripePaymentIntentId = appt1.payment.stripePaymentIntentId ∧
        a1.payment.paidAt = appt1.payment.paidAt ∧
        a1.payment.refundedAt = appt1.payment.refundedAt ∧
        a1 = { appt1 with payment := { appt1.payment with status := PayStatus.held },
                          status := Status.confirmed } ∧
        ((findDoctorById dbBooked appt1.doctor).isSome = true → apptEnv1.emailOk = true →
          (patient1.phone.isSome = true → apptEnv1.smsOk = true) →
          (confirmPayment dbBooked apptEnv1 patient1 30).1 = ApptResult.ok a1)) ∧
    (appt1.payment.status ≠ PayStatus.pending →
      confirmPayment dbBooked apptEnv1 patient1 30 = (ApptResult.alreadyProcessed, dbBooked))) :=
  ⟨by decide, C12_confirmPayment dbBooked apptEnv1 patient1 30 appt1 (by decide)⟩

/-- C13, as stated, fails: after book and the webhook event `payment_intent.succeeded`
the appointment is pending with a held payment; after confirmPayment and the webhook
event `charge.refunded` it is confirmed with a refunded payment; after complete and a
video start it is in progress with a captured payment. -/
theorem C13_counterexample :
    (statusOf (run emptyDb traceWebhookHeld) 30 = some Status.pending ∧
      payStatusOf (run emptyDb traceWebhookHeld) 30 = some PayStatus.held) ∧
    (statusOf (run emptyDb traceWebhookRefunded) 30 = some Status.confirmed ∧
      payStatusOf (run emptyDb traceWebhookRefunded) 30 = some PayStatus.refunded) ∧
    (statusOf (run emptyDb traceRestarted) 30 = some Status.inProgress ∧
      payStatusOf (run emptyDb traceRestarted) 30 = some PayStatus.captured) ∧
    (∃ db, Reachable db ∧ ∃ a ∈ db.appointments, ¬ Coupled a) := by
  refine ⟨by decide, by decide, by decide,
    run emptyDb traceWebhookHeld, ⟨traceWebhookHeld, rfl⟩, heldByWebhook appt1, by decide, ?_⟩
  intro h
  have h1 := h.1 rfl
  rcases h1 with h1 | h1 <;> exact absurd h1 (by decide)

/-- C13, amended: in every state reached by a run of book, confirmPayment, complete,
cancel, rate, the slot operations, the webhook event `payment_intent.payment_failed`
and video starts that name no completed or cancelled appointment, every appointment
has `payment.status = 'held'` only with status confirmed or in-progress,
`'captured'` only with status completed, and `'refunded'` only with status
cancelled. -/
theorem C13_coupling (ops : List Op) (a : Appointment)
    (hk : coupledRun emptyDb ops = true) (ha : a ∈ (run emptyDb ops).appointments) :
    (a.payment.status = PayStatus.held →
      a.status = Status.confirmed ∨ a.status = Status.inProgress) ∧
    (a.payment.status = PayStatus.captured → a.status = Status.completed) ∧
    (a.payment.status = PayStatus.refunded → a.status = Status.cancelled) := by
  have hinv := run_coupled ops emptyDb (fun b hb => by simp [emptyDb] at hb) hk
  exact hinv a ha

/-- Witness of `C13_coupling`: appointment 30 after it was booked, confirmed and
completed. -/
theorem C13_coupling_witness :
    (coupledRun emptyDb traceCompleted = true ∧
      completedAppointment (confirmedAppointment appt1) 5000
        ∈ (run emptyDb traceCompleted).appointments) ∧
    (((completedAppointment (confirmedAppointment appt1) 5000).payment.status = PayStatus.held →
      (completedAppointment (confirmedAppointment appt1) 5000).status = Status.confirmed ∨
      (completedAppointment (confirmedAppointment appt1) 5000).status = Status.inProgress) ∧
    ((completedAppointment (confirmedAppointment appt1) 5000).payment.status
        = PayStatus.captured →
      (completedAppointment (confirmedAppointment appt1) 5000).status = Status.completed) ∧
    ((completedAppointment (confirmedAppointment appt1) 5000).payment.status
        = PayStatus.refunded →
      (completedAppointment (confirmedAppointment appt1) 5000).status = Status.cancelled)) :=
  ⟨⟨by decide, by decide⟩,
    C13_coupling traceCompleted (completedAppointment (confirmedAppointment appt1) 5000)
      (by decide) (by decide)⟩

/-- C14, as stated, fails: the cancelled appointment 30, whose payment the webhook
event `payment_intent.succeeded` set to held, is not refunded: `cancel` answers
'Cannot cancel this appointment' and changes nothing; and after the doctor blocked
slot 20, `cancel` on the confirmed appointment 30 refunds the held payment and
decrements the count to 0, yet the slot stays blocked and does not pass the
acquisition filter. -/
theorem C14_counterexample :
    (statusOf (run emptyDb traceCancelledHeld) 30 = some Status.cancelled ∧
      payStatusOf (run emptyDb traceCancelledHeld) 30 = some PayStatus.held ∧
      cancel (run emptyDb traceCancelledHeld) apptEnv1 patient1 30 none
        = (ApptResult.cannotCancel, run emptyDb traceCancelledHeld, [])) ∧
    (payStatusOf (run emptyDb traceConfirmedBlocked) 30 = some PayStatus.held ∧
      payStatusOf (cancel (run emptyDb traceConfirmedBlocked) apptEnv1 patient1 30 none).2.1 30
        = some PayStatus.refunded ∧
      (findSlotById (cancel (run emptyDb traceConfirmedBlocked) apptEnv1 patient1 30 none).2.1
          20).map (fun s => (s.bookedCount, s.isBlocked, acquireFilter s patient2._id 6000))
        = some (0, true, false)) := by
  decide

/-- C14, amended: in a reachable state, `cancel` by an authorized caller on an
appointment that is neither completed nor cancelled and whose payment is held calls
`cancelPayment`, stores `payment.status = 'refunded'` with `refundedAt` set and
`status = 'cancelled'`, decrements the slot's `bookedCount` by exactly one and leaves
the slot passing the acquisition filter for every requester exactly when the slot is
not blocked; a second `cancel` on the same appointment is answered 'Cannot cancel this
appointment', calls no collaborator and leaves the database, hence the appointment
and the slot, unchanged. -/
theorem C14_cancel_held (db : Db) (env : ApptEnv) (user : User) (id : ObjectId)
    (reason : Option String) (a : Appointment) (s : Slot)
    (hreach : Reachable db)
    (ha : findAppointmentById db id = some a)
    (hauth : a.patient = user._id ∨
      (∃ d, findDoctorByUser db user._id = some d ∧ a.doctor = d._id) ∨
      user.role = Role.admin)
    (hpop : (findDoctorByUser db user._id).isSome = true →
      (findDoctorById db a.doctor).isSome = true)
    (hheld : a.payment.status = PayStatus.held)
    (hstatus : a.status.terminal = false)
    (hs : findSlotById db a.slot = some s)
    (hstripe : env.stripeOk = true) (hsave : env.appointmentSaveOk = true)
    (hslot : env.slotUpdateOk = true) :
    ∃ a1 s1,
      (cancel db env user id reason).2.2 = [StripeCall.cancel a.payment.stripePaymentIntentId] ∧
      findAppointmentById (cancel db env user id reason).2.1 id = some a1 ∧
      a1.payment.status = PayStatus.refunded ∧ a1.payment.refundedAt = some env.now ∧
      a1.status = Status.cancelled ∧
      findSlotById (cancel db env user id reason).2.1 a.slot = some s1 ∧
      s1.bookedCount = s.bookedCount - 1 ∧
      (∀ requester now, acquireFilter s1 requester now = !s.isBlocked) ∧
      (env.emailOk = true → (cancel db env user id reason).1 = ApptResult.ok a1) ∧
      ∀ env2 reason2, cancel (cancel db env user id reason).2.1 env2 user id reason2
        = (ApptResult.cannotCancel, (cancel db env user id reason).2.1, []) := by
  have hmem : a ∈ db.appointments := List.mem_of_find?_eq_some ha
  have hid : a._id = id := by
    have hp := List.find?_some ha
    simpa using hp
  have hsmem : s ∈ db.slots := List.mem_of_find?_eq_some hs
  have hinv := reachable_unlocked db hreach s hsmem
  have hpopf := populate_flag db user a hpop
  have hauthf := cancel_auth_flag db user a hauth
  have hst : ¬ (a.status = Status.completed ∨ a.status = Status.cancelled) := by
    rintro (h | h) <;> rw [h] at hstatus <;> simp [Status.terminal] at hstatus
  have hres := cancel_commits db env user id reason a ha hpopf hauthf hst (fun _ => hstripe)
    hsave hslot
  generalize hactor : cancelActor (decide (a.patient = user._id))
    (isDoctorOf (findDoctorByUser db user._id) a) = actor at hres
  have hdb : (cancel db env user id reason).2.1
      = releaseSlot (saveAppointment db (cancelledAppointment a env.now actor reason)) a.slot := by
    rw [hres]
  have hfa : findAppointmentById (cancel db env user id reason).2.1 id
      = some (cancelledAppointment a env.now actor reason) := by
    rw [hdb]
    have h1 := findAppointmentById_saveAppointment db
      (cancelledAppointment a env.now actor reason) ⟨a, hmem, rfl⟩
    have h2 : (cancelledAppointment a env.now actor reason)._id = id := hid
    rw [h2] at h1
    unfold findAppointmentById at h1 ⊢
    rw [releaseSlot_appointments]
    exact h1
  have hfs : findSlotById (cancel db env user id reason).2.1 a.slot
      = some { s with bookedCount := s.bookedCount - 1, isAvailable := true } := by
    rw [hdb]
    exact findSlotById_releaseSlot _ a.slot s hs
  have hdoctors : (cancel db env user id reason).2.1.doctors = db.doctors := by
    rw [hdb]
    unfold releaseSlot
    split <;> rfl
  refine ⟨cancelledAppointment a env.now actor reason,
    { s with bookedCount := s.bookedCount - 1, isAvailable := true }, ?_, hfa, ?_, ?_, rfl,
    hfs, rfl, ?_, ?_, ?_⟩
  · rw [hres]
    simp [cancelCalls, hheld]
  · simp [cancelledAppointment, refundIfHeld, hheld]
  · simp [cancelledAppointment, refundIfHeld, hheld]
  · intro requester now
    have hlock : s.lock.lockedBy = none := by rw [hinv.1]
    have hcount : decide (s.bookedCount - 1 < 1) = true := by
      have := hinv.2
      simp only [decide_eq_true_eq]
      omega
    simp [acquireFilter, lockFilter, hlock, hcount]
  · intro hemail
    rw [hres]
    simp [hemail]
  · intro env2 reason2
    apply cancel_terminal _ env2 user id reason2 (cancelledAppointment a env.now actor reason) hfa
    · have h1 : findDoctorByUser (cancel db env user id reason).2.1 user._id
          = findDoctorByUser db user._id := by
        unfold findDoctorByUser
        rw [hdoctors]
      have h2 : findDoctorById (cancel db env user id reason).2.1
          (cancelledAppointment a env.now actor reason).doctor = findDoctorById db a.doctor := by
        unfold findDoctorById
        rw [hdoctors]
        rfl
      rw [h1, h2]
      exact hpopf
    · have h1 : findDoctorByUser (cancel db env user id reason).2.1 user._id
          = findDoctorByUser db user._id := by
        unfold findDoctorByUser
        rw [hdoctors]
      rw [h1]
      exact hauthf
    · exact Or.inr rfl

/-- Witness of `C14_cancel_held`: the patient cancels the confirmed appointment 30,
whose payment is held, and the slot 20 is released. -/
theorem C14_cancel_held_witness :
    (Reachable dbConfirmed ∧
      findAppointmentById dbConfirmed 30 = some (confirmedAppointment appt1) ∧
      (confirmedAppointment appt1).patient = patient1._id ∧
      (confirmedAppointment appt1).payment.status = PayStatus.held ∧
      (confirmedAppointment appt1).status.terminal = false ∧
      findSlotById dbConfirmed (confirmedAppointment appt1).slot = some slotBooked1) ∧
    ∃ a1 s1,
      (cancel dbConfirmed apptEnv1 patient1 30 none).2.2
        = [StripeCall.cancel (confirmedAppointment appt1).payment.stripePaymentIntentId] ∧
      findAppointmentById (cancel dbConfirmed apptEnv1 patient1 30 none).2.1 30 = some a1 ∧
      a1.payment.status = PayStatus.refunded ∧ a1.payment.refundedAt = some apptEnv1.now ∧
      a1.status = Status.cancelled ∧
      findSlotById (cancel dbConfirmed apptEnv1 patient1 30 none).2.1
        (confirmedAppointment appt1).slot = some s1 ∧
      s1.bookedCount = slotBooked1.bookedCount - 1 ∧
      (∀ requester now, acquireFilter s1 requester now = !slotBooked1.isBlocked) ∧
      (apptEnv1.emailOk = true →
        (cancel dbConfirmed apptEnv1 patient1 30 none).1 = ApptResult.ok a1) ∧
      ∀ env2 reason2,
        cancel (cancel dbConfirmed apptEnv1 patient1 30 none).2.1 env2 patient1 30 reason2
          = (ApptResult.cannotCancel, (cancel dbConfirmed apptEnv1 patient1 30 none).2.1, []) :=
  ⟨⟨⟨traceConfirmed, rfl⟩, by decide, by decide, by decide, by decide, by decide⟩,
    C14_cancel_held dbConfirmed apptEnv1 patient1 30 none (confirmedAppointment appt1)
      slotBooked1 ⟨traceConfirmed, rfl⟩ (by decide) (Or.inl (by decide)) (by decide)
      (by decide) (by decide) (by decide) (by decide) (by decide) (by decide)⟩

/-- C15: `complete` on an appointment whose status is neither 'confirmed' nor
'in-progress' leaves the database unchanged, so the status and every payment field
stay as they were, makes no call to the payment collaborator and does not succeed;
for the owning doctor the answer is 'Cannot complete this appointment'. -/
theorem C15_complete_rejected (db : Db) (env : ApptEnv) (user : User) (id : ObjectId)
    (hstatus : ∀ a ∈ db.appointments, a._id = id →
      a.status ≠ Status.confirmed ∧ a.status ≠ Status.inProgress) :
    (complete db env user id).2.1 = db ∧
    (complete db env user id).2.2 = [] ∧
    (∀ a1, (complete db env user id).1 ≠ ApptResult.ok a1) ∧
    (user.role = Role.doctor → ∀ d a, findDoctorByUser db user._id = some d →
      a ∈ db.appointments → a._id = id → a.doctor = d._id →
      (complete db env user id).1 = ApptResult.cannotComplete) := by
  unfold complete
  split
  · refine ⟨rfl, rfl, fun a1 h => by simp at h, ?_⟩
    rename_i hauth
    intro hrole
    simp [authorize, hrole] at hauth
  · split
    · refine ⟨rfl, rfl, fun a1 h => by simp at h, ?_⟩
      rename_i hnone
      intro _ d a hd
      rw [hnone] at hd
      simp at hd
    · rename_i d0 hd0
      split
      · refine ⟨rfl, rfl, fun a1 h => by simp at h, ?_⟩
        rename_i hnone
        intro _ d a hd ha hid hdoc
        rw [hd0] at hd
        simp only [Option.some.injEq] at hd
        have := List.find?_eq_none.mp hnone a ha
        simp [hid, hdoc, hd] at this
      · rename_i a0 hf
        have hmem := List.mem_of_find?_eq_some hf
        have hp := List.find?_some hf
        simp only [Bool.and_eq_true, decide_eq_true_eq] at hp
        have hst := hstatus a0 hmem hp.1
        rw [if_pos hst]
        exact ⟨rfl, rfl, fun a1 h => by simp at h, fun _ _ _ _ _ _ _ => rfl⟩

/-- Witness of `C15_complete_rejected`: the doctor tries to complete the appointment
30 while it is still pending. -/
theorem C15_complete_rejected_witness :
    (∀ a ∈ dbBooked.appointments, a._id = 30 →
      a.status ≠ Status.confirmed ∧ a.status ≠ Status.inProgress) ∧
    ((complete dbBooked apptEnv1 doctorUser1 30).2.1 = dbBooked ∧
    (complete dbBooked apptEnv1 doctorUser1 30).2.2 = [] ∧
    (∀ a1, (complete dbBooked apptEnv1 doctorUser1 30).1 ≠ ApptResult.ok a1) ∧
    (doctorUser1.role = Role.doctor → ∀ d a, findDoctorByUser dbBooked doctorUser1._id = some d →
      a ∈ dbBooked.appointments → a._id = 30 → a.doctor = d._id →
      (complete dbBooked apptEnv1 doctorUser1 30).1 = ApptResult.cannotComplete)) :=
  ⟨by decide, C15_complete_rejected dbBooked apptEnv1 doctorUser1 30 (by decide)⟩

/-- C16: `complete` by the owning doctor on an appointment with status 'confirmed' or
'in-progress' stores `status = 'completed'`; a held payment becomes captured with
`paidAt` set, after one capture call, and any other payment is left unchanged, with
no call to the payment collaborator; nothing else of the appointment changes. -/
theorem C16_complete (db : Db) (env : ApptEnv) (user : User) (id : ObjectId)
    (d : Doctor) (a : Appointment)
    (hrole : user.role = Role.doctor) (hd : findDoctorByUser db user._id = some d)
    (hfind : db.appointments.find?
      (fun b => decide (b._id = id) && decide (b.doctor = d._id)) = some a)
    (hstatus : a.status = Status.confirmed ∨ a.status = Status.inProgress)
    (hsave : env.appointmentSaveOk = true)
    (hstripe : a.payment.status = PayStatus.held → env.stripeOk = true) :
    ∃ a1, (complete db env user id).1 = ApptResult.ok a1 ∧
      (complete db env user id).2.1 = saveAppointment db a1 ∧
      findAppointmentById (complete db env user id).2.1 id = some a1 ∧
      a1.status = Status.completed ∧
      a1 = { a with status := Status.completed, payment := a1.payment } ∧
      (a.payment.status = PayStatus.held →
        a1.payment = { a.payment with status := PayStatus.captured, paidAt := some env.now } ∧
        (complete db env user id).2.2 =
          [StripeCall.capture a.payment.stripePaymentIntentId]) ∧
      (a.payment.status ≠ PayStatus.held →
        a1.payment = a.payment ∧ (complete db env user id).2.2 = []) := by
  have hmem := List.mem_of_find?_eq_some hfind
  have hp := List.find?_some hfind
  simp only [Bool.and_eq_true, decide_eq_true_eq] at hp
  have hguard : ¬ (a.status ≠ Status.confirmed ∧ a.status ≠ Status.inProgress) := by
    rcases hstatus with h | h <;> simp [h]
  have hstripe1 : (decide (a.payment.status = PayStatus.held) && !env.stripeOk) = false := by
    by_cases hh : a.payment.status = PayStatus.held
    · simp [hstripe hh]
    · simp [hh]
  have hres : complete db env user id =
      (ApptResult.ok (completedAppointment a env.now),
        saveAppointment db (completedAppointment a env.now), completeCalls a) := by
    unfold complete
    simp only [authorize, hrole, hd, hfind, hsave, hstripe1]
    rw [if_neg hguard]
    simp
  refine ⟨completedAppointment a env.now, by rw [hres], by rw [hres], ?_, rfl, rfl, ?_, ?_⟩
  · rw [hres]
    have := findAppointmentById_saveAppointment db (completedAppointment a env.now)
      ⟨a, hmem, rfl⟩
    rw [← hp.1]
    exact this
  · intro hh
    rw [hres]
    simp [completedAppointment, captureIfHeld, completeCalls, hh]
  · intro hh
    rw [hres]
    simp [completedAppointment, captureIfHeld, completeCalls, hh]

/-- Witness of `C16_complete`: the doctor completes the confirmed appointment 30, whose
payment is held. -/
theorem C16_complete_witness :
    (doctorUser1.role = Role.doctor ∧ findDoctorByUser dbConfirmed doctorUser1._id = some doctor1 ∧
      dbConfirmed.appointments.find?
        (fun b => decide (b._id = 30) && decide (b.doctor = doctor1._id))
          = some (confirmedAppointment appt1) ∧
      ((confirmedAppointment appt1).status = Status.confirmed ∨
        (confirmedAppointment appt1).status = Status.inProgress) ∧
      apptEnv1.appointmentSaveOk = true ∧
      ((confirmedAppointment appt1).payment.status = PayStatus.held →
        apptEnv1.stripeOk = true)) ∧
    ∃ a1, (complete dbConfirmed apptEnv1 doctorUser1 30).1 = ApptResult.ok a1 ∧
      (complete dbConfirmed apptEnv1 doctorUser1 30).2.1 = saveAppointment dbConfirmed a1 ∧
      findAppointmentById (complete dbConfirmed apptEnv1 doctorUser1 30).2.1 30 = some a1 ∧
      a1.status = Status.completed ∧
      a1 = { confirmedAppointment appt1 with
             status := Status.completed, payment := a1.payment } ∧
      ((confirmedAppointment appt1).payment.status = PayStatus.held →
        a1.payment = { (confirmedAppointment appt1).payment with
                       status := PayStatus.captured, paidAt := some apptEnv1.now } ∧
        (complete dbConfirmed apptEnv1 doctorUser1 30).2.2 =
          [StripeCall.capture (confirmedAppointment appt1).payment.stripePaymentIntentId]) ∧
      ((confirmedAppointment appt1).payment.status ≠ PayStatus.held →
        a1.payment = (confirmedAppointment appt1).payment ∧
        (complete dbConfirmed apptEnv1 doctorUser1 30).2.2 = []) :=
  ⟨⟨by decide, by decide, by decide, by decide, by decide, by decide⟩,
    C16_complete dbConfirmed apptEnv1 doctorUser1 30 doctor1 (confirmedAppointment appt1)
      (by decide) (by decide) (by decide) (by decide) (by decide) (by decide)⟩

/-- C17: for a stored appointment, `cancel` answers 'Not authorized' exactly when the
caller is neither the appointment's patient, nor the user of the appointment's doctor,
nor an admin, and that answer leaves the database unchanged and calls no collaborator;
on success `cancelledBy` is 'patient' for the patient, else 'doctor' for the doctor,
else 'admin'. -/
theorem C17_cancel_authorization (db : Db) (env : ApptEnv) (user : User) (id : ObjectId)
    (reason : Option String) (a : Appointment)
    (ha : findAppointmentById db id = some a)
    (hpop : (findDoctorByUser db user._id).isSome = true →
      (findDoctorById db a.doctor).isSome = true) :
    ((cancel db env user id reason).1 = ApptResult.notAuthorized ↔
      ¬ (a.patient = user._id ∨
          (∃ d, findDoctorByUser db user._id = some d ∧ a.doctor = d._id) ∨
          user.role = Role.admin)) ∧
    ((cancel db env user id reason).1 = ApptResult.notAuthorized →
      (cancel db env user id reason).2.1 = db ∧ (cancel db env user id reason).2.2 = []) ∧
    (∀ a1, (cancel db env user id reason).1 = ApptResult.ok a1 →
      (a.patient = user._id → a1.cancelledBy = some CancelledBy.patient) ∧
      (a.patient ≠ user._id →
        (∃ d, findDoctorByUser db user._id = some d ∧ a.doctor = d._id) →
        a1.cancelledBy = some CancelledBy.doctor) ∧
      (a.patient ≠ user._id →
        ¬ (∃ d, findDoctorByUser db user._id = some d ∧ a.doctor = d._id) →
        a1.cancelledBy = some CancelledBy.admin)) := by
  have hpop1 : ((findDoctorByUser db user._id).isSome &&
      (findDoctorById db a.doctor).isNone) = false := by
    cases h1 : (findDoctorByUser db user._id).isSome with
    | false => rfl
    | true =>
      have h2 := hpop h1
      rw [Option.isSome_iff_ne_none] at h2
      cases h3 : findDoctorById db a.doctor with
      | none => exact absurd h3 h2
      | some d => rfl
  have hdoc : isDoctorOf (findDoctorByUser db user._id) a = true ↔
      ∃ d, findDoctorByUser db user._id = some d ∧ a.doctor = d._id := by
    unfold isDoctorOf
    cases findDoctorByUser db user._id with
    | none => simp
    | some d => simp
  have hauth : (!decide (a.patient = user._id) &&
      !isDoctorOf (findDoctorByUser db user._id) a && !decide (user.role = Role.admin)) = true ↔
      ¬ (a.patient = user._id ∨
          (∃ d, findDoctorByUser db user._id = some d ∧ a.doctor = d._id) ∨
          user.role = Role.admin) := by
    rw [← hdoc]
    simp only [Bool.and_eq_true, Bool.not_eq_true', decide_eq_false_iff_not, not_or]
    constructor
    · rintro ⟨⟨h1, h2⟩, h3⟩
      exact ⟨h1, by simp [h2], h3⟩
    · rintro ⟨h1, h2, h3⟩
      exact ⟨⟨h1, by simpa using h2⟩, h3⟩
  unfold cancel
  dsimp only [startTransaction, abortTransaction, commitTransaction]
  simp only [ha, hpop1, Bool.false_eq_true, if_false]
  by_cases hna : (!decide (a.patient = user._id) &&
      !isDoctorOf (findDoctorByUser db user._id) a && !decide (user.role = Role.admin)) = true
  · rw [if_pos hna]
    refine ⟨⟨fun _ => hauth.mp hna, fun _ => rfl⟩, fun _ => ⟨rfl, rfl⟩, ?_⟩
    intro a1 h
    simp at h
  · rw [if_neg hna]
    have hyes : ¬ ¬ (a.patient = user._id ∨
          (∃ d, findDoctorByUser db user._id = some d ∧ a.doctor = d._id) ∨
          user.role = Role.admin) := fun hc => hna (hauth.mpr hc)
    have hne : ∀ (x : ApptResult × Db × List StripeCall),
        (x.1 ≠ ApptResult.notAuthorized) →
        ((x.1 = ApptResult.notAuthorized ↔ ¬ (a.patient = user._id ∨
          (∃ d, findDoctorByUser db user._id = some d ∧ a.doctor = d._id) ∨
          user.role = Role.admin)) ∧
        (x.1 = ApptResult.notAuthorized → x.2.1 = db ∧ x.2.2 = [])) := by
      intro x hx
      exact ⟨⟨fun h => absurd h hx, fun h => absurd h hyes⟩, fun h => absurd h hx⟩
    have hby : ∀ (x : ApptResult × Db × List StripeCall),
        (∀ a1, x.1 = ApptResult.ok a1 → a1 = cancelledAppointment a env.now
          (cancelActor (decide (a.patient = user._id))
            (isDoctorOf (findDoctorByUser db user._id) a)) reason) →
        ∀ a1, x.1 = ApptResult.ok a1 →
          (a.patient = user._id → a1.cancelledBy = some CancelledBy.patient) ∧
          (a.patient ≠ user._id →
            (∃ d, findDoctorByUser db user._id = some d ∧ a.doctor = d._id) →
            a1.cancelledBy = some CancelledBy.doctor) ∧
          (a.patient ≠ user._id →
            ¬ (∃ d, findDoctorByUser db user._id = some d ∧ a.doctor = d._id) →
            a1.cancelledBy = some CancelledBy.admin) := by
      intro x hx a1 h1
      rw [hx a1 h1]
      refine ⟨fun hp => ?_, fun hp hd => ?_, fun hp hd => ?_⟩
      · simp [cancelledAppointment, cancelActor, hp]
      · simp [cancelledAppointment, cancelActor, hp, hdoc.mpr hd]
      · have : isDoctorOf (findDoctorByUser db user._id) a = false := by
          cases h : isDoctorOf (findDoctorByUser db user._id) a with
          | false => rfl
          | true => exact absurd (hdoc.mp h) hd
        simp [cancelledAppointment, cancelActor, hp, this]
    split
    · exact ⟨(hne _ (by simp)).1, (hne _ (by simp)).2, hby _ (fun a1 h => by simp at h)⟩
    · split
      · exact ⟨(hne _ (by simp)).1, (hne _ (by simp)).2, hby _ (fun a1 h => by simp at h)⟩
      · split
        · exact ⟨(hne _ (by simp)).1, (hne _ (by simp)).2, hby _ (fun a1 h => by simp at h)⟩
        · split
          · exact ⟨(hne _ (by simp)).1, (hne _ (by simp)).2,
              hby _ (fun a1 h => by simp at h)⟩
          · split
            · exact ⟨(hne _ (by simp)).1, (hne _ (by simp)).2,
                hby _ (fun a1 h => by simp at h)⟩
            · exact ⟨(hne _ (by simp)).1, (hne _ (by simp)).2,
                hby _ (fun a1 h => by
                  simp only [ApptResult.ok.injEq] at h
                  exact h.symm)⟩

/-- Witness of `C17_cancel_authorization`: a patient who has no part in the confirmed
appointment 30 tries to cancel it. -/
theorem C17_cancel_authorization_witness :
    (findAppointmentById dbConfirmed 30 = some (confirmedAppointment appt1) ∧
      ((findDoctorByUser dbConfirmed patientOther._id).isSome = true →
        (findDoctorById dbConfirmed (confirmedAppointment appt1).doctor).isSome = true)) ∧
    (((cancel dbConfirmed apptEnv1 patientOther 30 none).1 = ApptResult.notAuthorized ↔
      ¬ ((confirmedAppointment appt1).patient = patientOther._id ∨
          (∃ d, findDoctorByUser dbConfirmed patientOther._id = some d ∧
            (confirmedAppointment appt1).doctor = d._id) ∨
          patientOther.role = Role.admin)) ∧
    ((cancel dbConfirmed apptEnv1 patientOther 30 none).1 = ApptResult.notAuthorized →
      (cancel dbConfirmed apptEnv1 patientOther 30 none).2.1 = dbConfirmed ∧
      (cancel dbConfirmed apptEnv1 patientOther 30 none).2.2 = []) ∧
    (∀ a1, (cancel dbConfirmed apptEnv1 patientOther 30 none).1 = ApptResult.ok a1 →
      ((confirmedAppointment appt1).patient = patientOther._id →
        a1.cancelledBy = some CancelledBy.patient) ∧
      ((confirmedAppointment appt1).patient ≠ patientOther._id →
        (∃ d, findDoctorByUser dbConfirmed patientOther._id = some d ∧
          (confirmedAppointment appt1).doctor = d._id) →
        a1.cancelledBy = some CancelledBy.doctor) ∧
      ((confirmedAppointment appt1).patient ≠ patientOther._id →
        ¬ (∃ d, findDoctorByUser dbConfirmed patientOther._id = some d ∧
          (confirmedAppointment appt1).doctor = d._id) →
        a1.cancelledBy = some CancelledBy.admin))) :=
  ⟨⟨by decide, by decide⟩,
    C17_cancel_authorization dbConfirmed apptEnv1 patientOther 30 none
      (confirmedAppointment appt1) (by decide) (by decide)⟩

/-- C18, as stated, fails: the patient of the confirmed appointment 30 and an admin
both call `complete` on it and both are answered 403 by `authorize('doctor')`, the
appointment staying confirmed, although each of them may cancel it. -/
theorem C18_counterexample :
    (findAppointmentById dbConfirmed 30).map (fun a => (a.patient, a.status))
      = some (patient1._id, Status.confirmed) ∧
    adminUser.role = Role.admin ∧
    (complete dbConfirmed apptEnv1 patient1 30).1 = ApptResult.forbidden ∧
    (complete dbConfirmed apptEnv1 adminUser 30).1 = ApptResult.forbidden ∧
    statusOf (complete dbConfirmed apptEnv1 patient1 30).2.1 30 = some Status.confirmed ∧
    statusOf (complete dbConfirmed apptEnv1 adminUser 30).2.1 30 = some Status.confirmed ∧
    statusOf (cancel dbConfirmed apptEnv1 patient1 30 none).2.1 30 = some Status.cancelled ∧
    statusOf (cancel dbConfirmed apptEnv1 adminUser 30 none).2.1 30 = some Status.cancelled := by
  decide

/-- C18, amended: `complete` is permitted only for a caller with role doctor whose
doctor profile is the doctor of the appointment.  A caller with any other role, the
owning patient and an admin included, is answered 403 with the database unchanged; a
doctor without a profile is answered 'Doctor profile not found' and a doctor who does
not own the appointment 'Appointment not found'; every success comes from the owning
doctor on a confirmed or in-progress appointment. -/
theorem C18_complete_doctor_only (db : Db) (env : ApptEnv) (user : User) (id : ObjectId) :
    (user.role ≠ Role.doctor → complete db env user id = (ApptResult.forbidden, db, [])) ∧
    (user.role = Role.doctor → findDoctorByUser db user._id = none →
      complete db env user id = (ApptResult.noDoctorProfile, db, [])) ∧
    (user.role = Role.doctor → ∀ d, findDoctorByUser db user._id = some d →
      (∀ a ∈ db.appointments, a._id = id → a.doctor ≠ d._id) →
      complete db env user id = (ApptResult.notFound, db, [])) ∧
    (∀ a1, (complete db env user id).1 = ApptResult.ok a1 →
      user.role = Role.doctor ∧
      ∃ d, findDoctorByUser db user._id = some d ∧
        ∃ a ∈ db.appointments, a._id = id ∧ a.doctor = d._id ∧
          (a.status = Status.confirmed ∨ a.status = Status.inProgress)) := by
  refine ⟨?_, ?_, ?_, ?_⟩
  · intro hrole
    unfold complete
    have : authorize [Role.doctor] user = false := by
      cases h : user.role <;> simp_all [authorize]
    simp [this]
  · intro hrole hnone
    unfold complete
    simp [authorize, hrole, hnone]
  · intro hrole d hd hnot
    unfold complete
    have hf : db.appointments.find?
        (fun a => decide (a._id = id) && decide (a.doctor = d._id)) = none := by
      rw [List.find?_eq_none]
      intro a ha
      simp only [Bool.and_eq_true, decide_eq_true_eq, not_and]
      intro hid
      exact hnot a ha hid
    simp [authorize, hrole, hd, hf]
  · intro a1 h
    unfold complete at h
    split at h
    · simp at h
    · rename_i hauth
      have hrole : user.role = Role.doctor := by
        cases hr : user.role <;> simp_all [authorize]
      split at h
      · simp at h
      · rename_i d hd
        split at h
        · simp at h
        · rename_i a hf
          have hmem := List.mem_of_find?_eq_some hf
          have hp := List.find?_some hf
          simp only [Bool.and_eq_true, decide_eq_true_eq] at hp
          split at h
          · simp at h
          · rename_i hst
            refine ⟨hrole, d, hd, a, hmem, hp.1, hp.2, ?_⟩
            by_cases hc : a.status = Status.confirmed
            · exact Or.inl hc
            · by_cases hi : a.status = Status.inProgress
              · exact Or.inr hi
              · exact absurd ⟨hc, hi⟩ hst

/-- Witness of `C18_complete_doctor_only`: the patient of the confirmed appointment 30
is answered 403 and nothing changes. -/
theorem C18_complete_doctor_only_witness :
    patient1.role ≠ Role.doctor ∧
    complete dbConfirmed apptEnv1 patient1 30 = (ApptResult.forbidden, dbConfirmed, []) :=
  ⟨by decide, (C18_complete_doctor_only dbConfirmed apptEnv1 patient1 30).1 (by decide)⟩

/-- C19 on the code: the rating handler saves the appointment before the doctor and
opens no transaction.  The completed appointment 30 has no score; the patient rates
it 5 while the storage engine rejects `doctor.save`: the request fails with the error
of the `catch` block, yet the score 5 stays stored on the appointment, the aggregate
of the doctor is unchanged, and the same request sent again is answered 'Already
rated'. -/
theorem C19_rating_kept_on_failure :
    (findAppointmentById dbCompleted 30).map (fun a => a.rating.score) = some none ∧
    (rate dbCompleted rateEnvDoctorDown patient1 30 rateBody5).1 = RateResult.error ∧
    (findAppointmentById (rate dbCompleted rateEnvDoctorDown patient1 30 rateBody5).2 30).map
        (fun a => a.rating.score) = some (some (JsNumber.ofNat 5)) ∧
    (rate dbCompleted rateEnvDoctorDown patient1 30 rateBody5).2.doctors
      = dbCompleted.doctors ∧
    rate (rate dbCompleted rateEnvDoctorDown patient1 30 rateBody5).2 rateEnv1 patient1 30
        rateBody5
      = (RateResult.alreadyRated,
          (rate dbCompleted rateEnvDoctorDown patient1 30 rateBody5).2) := by
  decide

/-- C20, as stated, fails: the ratings 2, 5, 5, 5, 5, 5, 5 lead from the default
aggregate to average 4.6 and count 7, and a rating of 1 on it stores the average 4.1
where `round1((4.6 * 7 + 1) / 8)` is 4.2, the double product `4.6 * 7` being
32.199999999999996.  Read on the exact values of the stored doubles the formula fails
as well: the ratings 1, 1, 1, 1, 1, 1, 4 lead to average 1.4 and count 7, a rating
of 5 stores the average 1.9, and `round1` of the exact quotient is 1.8. -/
theorem C20_counterexample :
    (([2, 5, 5, 5, 5, 5, 5].map JsValue.ofNat).foldl (recordRating rateEnv1) {} = rating46 ∧
      (findDoctorById (rate dbRated46 rateEnv1 patient1 30 rateBody1).2 10).map
          (fun d => d.rating)
        = some { average := JsNumber.ofDecimal 41 1, count := JsNumber.ofNat 8 } ∧
      specAverage (46 / 10) 7 1 = 42 / 10 ∧
      JsNumber.ofDecimal 41 1 ≠ JsNumber.ofDecimal 42 1) ∧
    (([1, 1, 1, 1, 1, 1, 4].map JsValue.ofNat).foldl (recordRating rateEnv1) {} = rating14 ∧
      recordRating rateEnv1 rating14 (JsValue.ofNat 5)
        = { average := JsNumber.ofDecimal 19 1, count := JsNumber.ofNat 8 } ∧
      specAverage rating14.average.toRat 7 5 = 18 / 10 ∧
      JsNumber.ofDecimal 19 1 ≠ JsNumber.ofDecimal 18 1) := by
  refine ⟨⟨by decide, by decide, ?_, by decide⟩, ⟨by decide, by decide, ?_, by decide⟩⟩
  · exact (specRound1_of_bounds _ 42 (by norm_num) (by norm_num)).trans (by norm_num)
  · unfold specAverage rating14
    simp only [ofDecimal_14, JsNumber.toRat, Nat.shiftLeft_eq]
    exact (specRound1_of_bounds _ 18 (by norm_num) (by norm_num)).trans (by norm_num)

/-- C20, amended: a successful `rate` whose score is the JSON number `s`, on a doctor
whose aggregate is `{average a, count c}`, stores `count = c + 1` and
`average = Math.round(((a * c) + s) / (c + 1) * 10) / 10`, where `*`, `+` and `/`
round their result to the nearest double, a tie going to the even one, and
`Math.round` goes to the nearest integer, a tie going up; no other field of the
doctor and no other doctor changes; the appointment stores the score `s`, which is
neither below 1 nor above 5. -/
theorem C20_record_rating (db : Db) (env : RateEnv) (user : User) (id : ObjectId)
    (body : RateBody) (a1 : Appointment) (s : JsNumber)
    (h : (rate db env user id body).1 = RateResult.ok a1)
    (hs : body.score = JsValue.number s) :
    ∃ d d1,
      findDoctorById db a1.doctor = some d ∧
      findDoctorById (rate db env user id body).2 a1.doctor = some d1 ∧
      d1.rating.count = jsAdd d.rating.count (JsNumber.ofNat 1) ∧
      d1.rating.average
        = jsDiv (mathRound (jsMul
            (jsDiv (jsAdd (jsMul d.rating.average d.rating.count) s)
              (jsAdd d.rating.count (JsNumber.ofNat 1)))
            (JsNumber.ofNat 10))) (JsNumber.ofNat 10) ∧
      d1 = { d with rating := d1.rating } ∧
      (∀ e ∈ (rate db env user id body).2.doctors, e = d1 ∨ e ∈ db.doctors) ∧
      a1.rating.score = some s ∧ jsLt s (JsNumber.ofNat 1) = false ∧
      jsLt (JsNumber.ofNat 5) s = false := by
  obtain ⟨a, score, d, hf, hscore, hrej, _, ha1, hd, hdb⟩ := rate_ok_inv db env user id body a1 h
  have hdoc : a1.doctor = a.doctor := by rw [ha1]; rfl
  have hdmem : d ∈ db.doctors := List.mem_of_find?_eq_some hd
  have hdid : d._id = a.doctor := by
    have hp := List.find?_some hd
    simpa using hp
  rw [hs] at hscore hrej hdb
  have hcast : score = some s := by
    simp only [castNumber] at hscore
    split at hscore
    · simp at hscore
    · simpa using hscore.symm
  unfold scoreRejected at hrej
  simp only [Bool.or_eq_false_iff, Bool.not_eq_false'] at hrej
  refine ⟨d, ratedDoctor env d (JsValue.number s), by rw [hdoc]; exact hd, ?_, rfl, rfl, rfl, ?_,
    by rw [ha1, hcast]; rfl, hrej.1.2, hrej.2⟩
  · rw [hdb, hdoc, ← hdid]
    exact find_map_replace_doctor db.doctors (ratedDoctor env d (JsValue.number s))
      ⟨d, hdmem, rfl⟩
  · intro e he
    rw [hdb] at he
    unfold saveDoctor at he
    simp only [List.mem_map] at he
    obtain ⟨x, hx, rfl⟩ := he
    split
    · exact Or.inl rfl
    · exact Or.inr hx

/-- Witness of `C20_record_rating`: the patient rates the completed appointment 30
with 5, and the unrated doctor gets the aggregate `{average 5, count 1}`. -/
theorem C20_record_rating_witness :
    ((rate dbCompleted rateEnv1 patient1 30 rateBody5).1
        = RateResult.ok (ratedAppointment apptCompleted (some (JsNumber.ofNat 5)) none 7000) ∧
      rateBody5.score = JsValue.number (JsNumber.ofNat 5)) ∧
    ∃ d d1,
      findDoctorById dbCompleted
        (ratedAppointment apptCompleted (some (JsNumber.ofNat 5)) none 7000).doctor = some d ∧
      findDoctorById (rate dbCompleted rateEnv1 patient1 30 rateBody5).2
        (ratedAppointment apptCompleted (some (JsNumber.ofNat 5)) none 7000).doctor = some d1 ∧
      d1.rating.count = jsAdd d.rating.count (JsNumber.ofNat 1) ∧
      d1.rating.average
        = jsDiv (mathRound (jsMul
            (jsDiv (jsAdd (jsMul d.rating.average d.rating.count) (JsNumber.ofNat 5))
              (jsAdd d.rating.count (JsNumber.ofNat 1)))
            (JsNumber.ofNat 10))) (JsNumber.ofNat 10) ∧
      d1 = { d with rating := d1.rating } ∧
      (∀ e ∈ (rate dbCompleted rateEnv1 patient1 30 rateBody5).2.doctors,
        e = d1 ∨ e ∈ dbCompleted.doctors) ∧
      (ratedAppointment apptCompleted (some (JsNumber.ofNat 5)) none 7000).rating.score
        = some (JsNumber.ofNat 5) ∧
      jsLt (JsNumber.ofNat 5) (JsNumber.ofNat 1) = false ∧
      jsLt (JsNumber.ofNat 5) (JsNumber.ofNat 5) = false :=
  ⟨⟨by decide, rfl⟩, C20_record_rating dbCompleted rateEnv1 patient1 30 rateBody5
    (ratedAppointment apptCompleted (some (JsNumber.ofNat 5)) none 7000) (JsNumber.ofNat 5)
    (by decide) rfl⟩

/-- C21: starting from the default aggregate `{average 0, count 0}`, the rating
update applied to the four scores 5, 5, 5, 1 in any order ends on average 4 and
count 4, the numbers being IEEE doubles. -/
theorem C21_ratings_any_order (env : RateEnv) (l : List JsNumber)
    (h : l.Perm [JsNumber.ofNat 5, JsNumber.ofNat 5, JsNumber.ofNat 5, JsNumber.ofNat 1]) :
    l.foldl (fun r s => recordRating env r (JsValue.number s)) {}
      = { average := JsNumber.ofNat 4, count := JsNumber.ofNat 4 } := by
  rcases perm_three_one _ _ (by decide) l h with rfl | rfl | rfl | rfl <;>
    simp only [List.foldl, recordRating_number] <;> decide

/-- Witness of `C21_ratings_any_order`: the order 1, 5, 5, 5. -/
theorem C21_ratings_any_order_witness :
    [JsNumber.ofNat 1, JsNumber.ofNat 5, JsNumber.ofNat 5, JsNumber.ofNat 5].Perm
      [JsNumber.ofNat 5, JsNumber.ofNat 5, JsNumber.ofNat 5, JsNumber.ofNat 1] ∧
    [JsNumber.ofNat 1, JsNumber.ofNat 5, JsNumber.ofNat 5, JsNumber.ofNat 5].foldl
        (fun r s => recordRating rateEnv1 r (JsValue.number s)) {}
      = { average := JsNumber.ofNat 4, count := JsNumber.ofNat 4 } :=
  ⟨(List.perm_append_comm : ([JsNumber.ofNat 1] ++ [JsNumber.ofNat 5, JsNumber.ofNat 5,
      JsNumber.ofNat 5]).Perm ([JsNumber.ofNat 5, JsNumber.ofNat 5, JsNumber.ofNat 5] ++
      [JsNumber.ofNat 1])),
    C21_ratings_any_order rateEnv1
      [JsNumber.ofNat 1, JsNumber.ofNat 5, JsNumber.ofNat 5, JsNumber.ofNat 5]
      (List.perm_append_comm : ([JsNumber.ofNat 1] ++ [JsNumber.ofNat 5, JsNumber.ofNat 5,
        JsNumber.ofNat 5]).Perm ([JsNumber.ofNat 5, JsNumber.ofNat 5, JsNumber.ofNat 5] ++
        [JsNumber.ofNat 1]))⟩

/-- C22: for a slot whose lock has `expiresAt` before `now`, the lock filter of the
public listing, the virtual `isBookable` and the acquisition filter of the booking
each answer as they do for the same slot without a lock; the acquisition filter then
lets every requester through when the slot is available, not blocked and has
`bookedCount < 1`, and the conditional update of the booking finds the slot. -/
theorem C22_expired_lock_absent (s : Slot) (now e : Date)
    (he : s.lock.expiresAt = some e) (hlt : e < now) :
    listingLockFilter s now = listingLockFilter { s with lock := {} } now ∧
    isBookable s now = isBookable { s with lock := {} } now ∧
    (∀ r, acquireFilter s r now = acquireFilter { s with lock := {} } r now) ∧
    (∀ r, s.isAvailable = true → s.isBlocked = false → s.bookedCount < 1 →
      acquireFilter s r now = true) ∧
    (∀ db r, s ∈ db.slots → s.isAvailable = true → s.isBlocked = false →
      s.bookedCount < 1 → (tryAcquire db s._id r now).isSome = true) := by
  have hacq : ∀ r, s.isAvailable = true → s.isBlocked = false → s.bookedCount < 1 →
      acquireFilter s r now = true := by
    intro r ha hb hc
    simp [acquireFilter, lockFilter, lockExpired, he, hlt, ha, hb, hc]
  refine ⟨?_, ?_, ?_, hacq, ?_⟩
  · simp [listingLockFilter, he, hlt]
  · simp [isBookable, he, hlt]
  · intro r
    simp [acquireFilter, lockFilter, lockExpired, he, hlt]
  · intro db r hs ha hb hc
    exact (tryAcquire_isSome_iff db s._id r now).mpr ⟨s, hs, rfl, hacq r ha hb hc⟩

/-- Witness of `C22_expired_lock_absent`: the slot locked by user 2 until 300000, read
at 300001. -/
theorem C22_expired_lock_absent_witness :
    (slotLocked.lock.expiresAt = some 300000 ∧ (300000 : Date) < 300001) ∧
    (listingLockFilter slotLocked 300001
        = listingLockFilter { slotLocked with lock := {} } 300001 ∧
    isBookable slotLocked 300001 = isBookable { slotLocked with lock := {} } 300001 ∧
    (∀ r, acquireFilter slotLocked r 300001
        = acquireFilter { slotLocked with lock := {} } r 300001) ∧
    (∀ r, slotLocked.isAvailable = true → slotLocked.isBlocked = false →
      slotLocked.bookedCount < 1 → acquireFilter slotLocked r 300001 = true) ∧
    (∀ db r, slotLocked ∈ db.slots → slotLocked.isAvailable = true →
      slotLocked.isBlocked = false → slotLocked.bookedCount < 1 →
      (tryAcquire db slotLocked._id r 300001).isSome = true)) :=
  ⟨⟨rfl, by decide⟩, C22_expired_lock_absent slotLocked 300001 300000 rfl (by decide)⟩

/-- C23 on the code: the start route rejects neither an appointment that is not
confirmed nor an in-person appointment.  The owning doctor starts a session on the
in-person appointment 30 while it is pending, and on the same appointment after it
was cancelled; both requests are answered with the appointment and store the status
'in-progress'. -/
theorem C23_start_not_rejected :
    (findAppointmentById dbBooked 30).map (fun a => (a.type, a.status))
      = some (ApptType.inPerson, Status.pending) ∧
    (videoStart dbBooked apptEnv1 doctorUser1 30).1
      = ApptResult.ok (startedAppointment appt1 5000) ∧
    statusOf (videoStart dbBooked apptEnv1 doctorUser1 30).2 30 = some Status.inProgress ∧
    statusOf dbCancelled 30 = some Status.cancelled ∧
    statusOf (videoStart dbCancelled apptEnv1 doctorUser1 30).2 30
      = some Status.inProgress := by
  decide

/-- C24 on the code: a notification that throws makes the request fail although the
transition is stored.  With the mailer throwing, `confirmPayment` on the pending
appointment 30 is answered through `next(error)` and the appointment is stored as
confirmed; the same happens when the patient has a phone number and the SMS gateway
throws; `cancel` on the confirmed appointment 30 with the mailer throwing sends no
answer and the appointment is stored as cancelled.  With the collaborators working
both requests are answered with the appointment. -/
theorem C24_notification_failure_fails :
    ((confirmPayment dbBooked apptEnvNoMail patient1 30).1 = ApptResult.error ∧
      statusOf (confirmPayment dbBooked apptEnvNoMail patient1 30).2 30
        = some Status.confirmed) ∧
    ((confirmPayment dbBooked apptEnvNoSms patientPhone1 30).1 = ApptResult.error ∧
      statusOf (confirmPayment dbBooked apptEnvNoSms patientPhone1 30).2 30
        = some Status.confirmed) ∧
    ((cancel dbConfirmed apptEnvNoMail patient1 30 none).1 = ApptResult.unhandled ∧
      statusOf (cancel dbConfirmed apptEnvNoMail patient1 30 none).2.1 30
        = some Status.cancelled) ∧
    ((confirmPayment dbBooked apptEnv1 patient1 30).1
        = ApptResult.ok (confirmedAppointment appt1) ∧
      (cancel dbConfirmed apptEnv1 patient1 30 none).1
        = ApptResult.ok (cancelledAppointment (confirmedAppointment appt1) 5000
            CancelledBy.patient none)) := by
  decide

/-- C25: a bulk request of a doctor whose slot times are complete, sent when the ids
from `newId` on are unused, is answered 201 and appends the created slots; each
created slot is a slot of the doctor on a day between `startDate` and `endDate` that
the weekly template marks available, at a requested `startTime`, and its
`(doctor, date, startTime)` was not stored before; the same request sent again is
answered 201 with no slot created and leaves the database as it is; and the loop over
the days runs to its end within the fuel of the model. -/
theorem C25_bulk_create (db : Db) (newId : ObjectId) (user : User) (body : BulkBody)
    (doctor : Doctor) (start endDate : Date)
    (hrole : user.role = Role.doctor) (hdoc : findDoctorByUser db user._id = some doctor)
    (hstart : body.startDate = some start) (hend : body.endDate = some endDate)
    (hne : body.slots ≠ []) (hts : timesGiven body.slots) (hfresh : idsBelow db newId) :
    ∃ created : List Slot,
      bulkCreate db newId user body
        = (SlotResult.createdMany created, { db with slots := db.slots ++ created }) ∧
      (∀ s ∈ created, s.doctor = doctor._id ∧ start ≤ s.date ∧ s.date ≤ endDate ∧
        worksOn doctor s.date = true ∧
        (∃ t ∈ body.slots, t.startTime = some s.startTime) ∧
        ¬ tripleTaken db doctor._id s.date s.startTime) ∧
      (∀ newId2, bulkCreate (bulkCreate db newId user body).2 newId2 user body
        = (SlotResult.createdMany [], (bulkCreate db newId user body).2)) ∧
      (∀ k, bulkLoop doctor endDate body.slots (bulkFuel start endDate + k) start
          { db := db, nextId := newId }
        = bulkLoop doctor endDate body.slots (bulkFuel start endDate) start
          { db := db, nextId := newId }) := by
  obtain ⟨h1, _, new, h4, h5, h6⟩ :=
    bulkLoop_grows doctor endDate body.slots (bulkFuel start endDate) start
      { db := db, nextId := newId } rfl hts hfresh
  have hfirst : bulkCreate db newId user body
      = (SlotResult.createdMany new, { db with slots := db.slots ++ new }) := by
    rw [bulkCreate_eq db newId user body doctor start endDate hrole hdoc hstart hend hne]
    rw [h1, h4, h5]
    simp
  refine ⟨new, hfirst, h6, ?_, ?_⟩
  · intro newId2
    rw [hfirst]
    have hdoc2 : findDoctorByUser { db with slots := db.slots ++ new } user._id = some doctor :=
      hdoc
    rw [bulkCreate_eq { db with slots := db.slots ++ new } newId2 user body doctor start endDate
      hrole hdoc2 hstart hend hne]
    obtain ⟨r1, r2, r3⟩ :=
      bulkLoop_again doctor endDate body.slots (bulkFuel start endDate) start
        { db := db, nextId := newId }
        { db := { db with slots := db.slots ++ new }, nextId := newId2 }
        rfl rfl hts hfresh (by rw [h4]; exact fun s hs => hs)
    rw [r1, r2, r3]
    simp
  · intro k
    exact bulkLoop_fuel doctor endDate body.slots (bulkFuel start endDate) start _
      (bulkFuel_enough start endDate) k

/-- Witness of `C25_bulk_create`: `doctor1`, who has the slot 09:00 on Friday, asks for
09:00 and 10:00 on Friday and Saturday. -/
theorem C25_bulk_create_witness :
    (doctorUser1.role = Role.doctor ∧ findDoctorByUser dbCap1 doctorUser1._id = some doctor1 ∧
      bulkBody1.startDate = some 86400000 ∧ bulkBody1.endDate = some 172800000 ∧
      bulkBody1.slots ≠ [] ∧ timesGiven bulkBody1.slots ∧ idsBelow dbCap1 21) ∧
    ∃ created : List Slot,
      bulkCreate dbCap1 21 doctorUser1 bulkBody1
        = (SlotResult.createdMany created, { dbCap1 with slots := dbCap1.slots ++ created }) ∧
      (∀ s ∈ created, s.doctor = doctor1._id ∧ 86400000 ≤ s.date ∧ s.date ≤ 172800000 ∧
        worksOn doctor1 s.date = true ∧
        (∃ t ∈ bulkBody1.slots, t.startTime = some s.startTime) ∧
        ¬ tripleTaken dbCap1 doctor1._id s.date s.startTime) ∧
      (∀ newId2, bulkCreate (bulkCreate dbCap1 21 doctorUser1 bulkBody1).2 newId2 doctorUser1
          bulkBody1
        = (SlotResult.createdMany [], (bulkCreate dbCap1 21 doctorUser1 bulkBody1).2)) ∧
      (∀ k, bulkLoop doctor1 172800000 bulkBody1.slots (bulkFuel 86400000 172800000 + k)
          86400000 { db := dbCap1, nextId := 21 }
        = bulkLoop doctor1 172800000 bulkBody1.slots (bulkFuel 86400000 172800000)
          86400000 { db := dbCap1, nextId := 21 }) :=
  ⟨⟨by decide, by decide, rfl, rfl, by decide, by unfold timesGiven; decide,
      by unfold idsBelow; decide⟩,
    C25_bulk_create dbCap1 21 doctorUser1 bulkBody1 doctor1 86400000 172800000 (by decide)
      (by decide) rfl rfl (by decide) (by unfold timesGiven; decide)
      (by unfold idsBelow; decide)⟩

/-- C26: when no two stored slots share an `_id` or a `(doctor, date, startTime)`, two
stored slots with the same `(doctor, date, startTime)` are the same slot; a valid
creation request of a doctor whose `(doctor, date, startTime)` is stored is answered
'Slot already exists' and changes nothing; every request, and every sequence of
requests, keeps the uniqueness; and the uniqueness holds in every reachable state. -/
theorem C26_slot_uniqueness (db : Db) (h : SlotsUnique db) :
    (∀ s ∈ db.slots, ∀ t ∈ db.slots, s.doctor = t.doctor → s.date = t.date →
      s.startTime = t.startTime → s = t) ∧
    (∀ newId user body doctor, user.role = Role.doctor →
      validTime body.startTime = true → validTime body.endTime = true →
      findDoctorByUser db user._id = some doctor →
      tripleTaken db doctor._id body.date body.startTime →
      createSlot db newId user body = (SlotResult.alreadyExists, db)) ∧
    (∀ op, SlotsUnique (step db op)) ∧
    (∀ ops, SlotsUnique (run db ops)) ∧
    (∀ db1, Reachable db1 → SlotsUnique db1) := by
  refine ⟨?_, ?_, fun op => step_unique db op h, fun ops => run_unique ops db h,
    reachable_unique⟩
  · intro s hs t ht h1 h2 h3
    by_contra hne
    exact (slotsUnique_apart db h s t hs ht hne).2 (by rw [h1, h2, h3])
  · intro newId user body doctor hrole hv1 hv2 hdoc htaken
    obtain ⟨t, ht, ht1, ht2, ht3⟩ := htaken
    unfold createSlot
    have hauth : authorize [Role.doctor] user = true := by simp [authorize, hrole]
    cases hf : db.slots.find? (fun s =>
        decide (s.doctor = doctor._id) && decide (s.date = body.date) &&
          decide (s.startTime = body.startTime)) with
    | none =>
      have := List.find?_eq_none.mp hf t ht
      simp [ht1, ht2, ht3] at this
    | some x =>
      simp [hauth, hv1, hv2, hdoc, hf]

/-- Witness of `C26_slot_uniqueness`: the database in which slot 20 is booked. -/
theorem C26_slot_uniqueness_witness :
    SlotsUnique dbBooked ∧
    ((∀ s ∈ dbBooked.slots, ∀ t ∈ dbBooked.slots, s.doctor = t.doctor → s.date = t.date →
      s.startTime = t.startTime → s = t) ∧
    (∀ newId user body doctor, user.role = Role.doctor →
      validTime body.startTime = true → validTime body.endTime = true →
      findDoctorByUser dbBooked user._id = some doctor →
      tripleTaken dbBooked doctor._id body.date body.startTime →
      createSlot dbBooked newId user body = (SlotResult.alreadyExists, dbBooked)) ∧
    (∀ op, SlotsUnique (step dbBooked op)) ∧
    (∀ ops, SlotsUnique (run dbBooked ops)) ∧
    (∀ db1, Reachable db1 → SlotsUnique db1)) :=
  ⟨reachable_unique dbBooked ⟨traceBooked, rfl⟩,
    C26_slot_uniqueness dbBooked (reachable_unique dbBooked ⟨traceBooked, rfl⟩)⟩

/-- C27, as stated, fails: after book, cancel, a payment confirmation of the cancelled
appointment and a second cancel, slot 20 has `bookedCount = -1`; the delete request of
the owning doctor is answered 200 and the slot is removed. -/
theorem C27_counterexample :
    (findSlotById (run emptyDb traceRecancelled) 20).map (fun s => s.bookedCount)
      = some (-1) ∧
    (deleteSlot (run emptyDb traceRecancelled) doctorUser1 20).1 = SlotResult.ok ∧
    findSlotById (deleteSlot (run emptyDb traceRecancelled) doctorUser1 20).2 20 = none := by
  decide

/-- C27, amended: for the owning doctor and a stored slot, with slot ids unique: when
`bookedCount > 0` the delete request is answered 'Cannot delete slot with bookings'
and changes nothing; when `bookedCount ≤ 0` it is answered 200 and the slots left are
the stored slots other than this one, doctors and appointments unchanged; so the
request is answered 200 exactly when `bookedCount ≤ 0`, and then `bookedCount = 0` in
a state reached by a run in which no payment confirmation and no video start names a
completed or cancelled appointment. -/
theorem C27_delete_slot (db : Db) (user : User) (id : ObjectId) (doctor : Doctor)
    (slot : Slot) (hu : SlotsUnique db) (hrole : user.role = Role.doctor)
    (hdoc : findDoctorByUser db user._id = some doctor)
    (hslot : slot ∈ db.slots) (hid : slot._id = id) (hown : slot.doctor = doctor._id) :
    (0 < slot.bookedCount → deleteSlot db user id = (SlotResult.hasBookings, db)) ∧
    (slot.bookedCount ≤ 0 →
      (deleteSlot db user id).1 = SlotResult.ok ∧
      (deleteSlot db user id).2.doctors = db.doctors ∧
      (deleteSlot db user id).2.appointments = db.appointments ∧
      ∀ t, t ∈ (deleteSlot db user id).2.slots ↔ (t ∈ db.slots ∧ t ≠ slot)) ∧
    ((deleteSlot db user id).1 = SlotResult.ok ↔ slot.bookedCount ≤ 0) ∧
    (∀ ops, db = run emptyDb ops → noRestart emptyDb ops = true →
      (deleteSlot db user id).1 = SlotResult.ok → slot.bookedCount = 0) := by
  have hauth : authorize [Role.doctor] user = true := by simp [authorize, hrole]
  have hf : db.slots.find? (fun s => decide (s._id = id) && decide (s.doctor = doctor._id))
      = some slot := by
    cases hfind : db.slots.find?
        (fun s => decide (s._id = id) && decide (s.doctor = doctor._id)) with
    | none =>
      have := List.find?_eq_none.mp hfind slot hslot
      simp [hid, hown] at this
    | some x =>
      have hx := List.find?_some hfind
      simp only [Bool.and_eq_true, decide_eq_true_eq] at hx
      rw [slotsUnique_id_inj db hu x slot (List.mem_of_find?_eq_some hfind) hslot
        (by rw [hx.1, hid])]
  have hok : (deleteSlot db user id).1 = SlotResult.ok → slot.bookedCount ≤ 0 := by
    intro h
    by_contra hpos
    have hpos1 : slot.bookedCount > 0 := lt_of_not_ge hpos
    unfold deleteSlot at h
    simp [hauth, hdoc, hf, hpos1] at h
  have hdel : slot.bookedCount ≤ 0 →
      (deleteSlot db user id).1 = SlotResult.ok ∧
      (deleteSlot db user id).2.doctors = db.doctors ∧
      (deleteSlot db user id).2.appointments = db.appointments ∧
      ∀ t, t ∈ (deleteSlot db user id).2.slots ↔ (t ∈ db.slots ∧ t ≠ slot) := by
    intro hz
    have hnot : ¬ slot.bookedCount > 0 := not_lt.mpr hz
    have hres : deleteSlot db user id
        = (SlotResult.ok, { db with slots := db.slots.filter (fun s => s._id != slot._id) }) := by
      unfold deleteSlot
      simp [hauth, hdoc, hf, hnot]
    rw [hres]
    refine ⟨rfl, rfl, rfl, ?_⟩
    intro t
    simp only [List.mem_filter, bne_iff_ne, ne_eq]
    constructor
    · rintro ⟨ht, hne⟩
      exact ⟨ht, fun he => hne (by rw [he])⟩
    · rintro ⟨ht, hne⟩
      exact ⟨ht, (slotsUnique_apart db hu t slot ht hslot hne).1⟩
  refine ⟨?_, hdel, ⟨hok, fun hz => (hdel hz).1⟩, ?_⟩
  · intro hpos
    unfold deleteSlot
    have hpos1 : slot.bookedCount > 0 := hpos
    simp [hauth, hdoc, hf, hpos1]
  · intro ops hdb hnr h
    have hle := hok h
    have hinv := run_ledger ops emptyDb emptyDb_ledger hnr
    rw [← hdb] at hinv
    have hcov := hinv.covered slot hslot
    omega

/-- Witness of `C27_delete_slot`: `doctor1` asks to delete slot 20 while it is booked,
and after the count of the slot went to -1. -/
theorem C27_delete_slot_witness :
    ((SlotsUnique dbBooked ∧ doctorUser1.role = Role.doctor ∧
      findDoctorByUser dbBooked doctorUser1._id = some doctor1 ∧
      slotBooked1 ∈ dbBooked.slots ∧ slotBooked1._id = 20 ∧
      slotBooked1.doctor = doctor1._id) ∧
    ((0 < slotBooked1.bookedCount →
      deleteSlot dbBooked doctorUser1 20 = (SlotResult.hasBookings, dbBooked)) ∧
    (slotBooked1.bookedCount ≤ 0 →
      (deleteSlot dbBooked doctorUser1 20).1 = SlotResult.ok ∧
      (deleteSlot dbBooked doctorUser1 20).2.doctors = dbBooked.doctors ∧
      (deleteSlot dbBooked doctorUser1 20).2.appointments = dbBooked.appointments ∧
      ∀ t, t ∈ (deleteSlot dbBooked doctorUser1 20).2.slots ↔
        (t ∈ dbBooked.slots ∧ t ≠ slotBooked1)) ∧
    ((deleteSlot dbBooked doctorUser1 20).1 = SlotResult.ok ↔ slotBooked1.bookedCount ≤ 0) ∧
    (∀ ops, dbBooked = run emptyDb ops → noRestart emptyDb ops = true →
      (deleteSlot dbBooked doctorUser1 20).1 = SlotResult.ok →
      slotBooked1.bookedCount = 0))) ∧
    ((SlotsUnique (run emptyDb traceRecancelled) ∧ doctorUser1.role = Role.doctor ∧
      findDoctorByUser (run emptyDb traceRecancelled) doctorUser1._id = some doctor1 ∧
      slotReleasedTwice ∈ (run emptyDb traceRecancelled).slots ∧ slotReleasedTwice._id = 20 ∧
      slotReleasedTwice.doctor = doctor1._id) ∧
    ((0 < slotReleasedTwice.bookedCount →
      deleteSlot (run emptyDb traceRecancelled) doctorUser1 20
        = (SlotResult.hasBookings, run emptyDb traceRecancelled)) ∧
    (slotReleasedTwice.bookedCount ≤ 0 →
      (deleteSlot (run emptyDb traceRecancelled) doctorUser1 20).1 = SlotResult.ok ∧
      (deleteSlot (run emptyDb traceRecancelled) doctorUser1 20).2.doctors
        = (run emptyDb traceRecancelled).doctors ∧
      (deleteSlot (run emptyDb traceRecancelled) doctorUser1 20).2.appointments
        = (run emptyDb traceRecancelled).appointments ∧
      ∀ t, t ∈ (deleteSlot (run emptyDb traceRecancelled) doctorUser1 20).2.slots ↔
        (t ∈ (run emptyDb traceRecancelled).slots ∧ t ≠ slotReleasedTwice)) ∧
    ((deleteSlot (run emptyDb traceRecancelled) doctorUser1 20).1 = SlotResult.ok ↔
      slotReleasedTwice.bookedCount ≤ 0) ∧
    (∀ ops, run emptyDb traceRecancelled = run emptyDb ops → noRestart emptyDb ops = true →
      (deleteSlot (run emptyDb traceRecancelled) doctorUser1 20).1 = SlotResult.ok →
      slotReleasedTwice.bookedCount = 0))) :=
  ⟨⟨⟨reachable_unique dbBooked ⟨traceBooked, rfl⟩, by decide, by decide, by decide, rfl, rfl⟩,
    C27_delete_slot dbBooked doctorUser1 20 doctor1 slotBooked1
      (reachable_unique dbBooked ⟨traceBooked, rfl⟩) (by decide) (by decide) (by decide)
      rfl rfl⟩,
   ⟨⟨reachable_unique _ ⟨traceRecancelled, rfl⟩, by decide, by decide, by decide, rfl, rfl⟩,
    C27_delete_slot (run emptyDb traceRecancelled) doctorUser1 20 doctor1 slotReleasedTwice
      (reachable_unique _ ⟨traceRecancelled, rfl⟩) (by decide) (by decide) (by decide)
      rfl rfl⟩⟩

/-- C28 on the code: the count of a slot and its appointments come apart.  After the
webhook event `payment_intent.payment_failed` appointment 30 is cancelled while slot 20
keeps `bookedCount = 1` with no appointment left that is not cancelled, and the slot
is marked unavailable; after a video start on the cancelled appointment 30 slot 20 has
`bookedCount = 0` with one appointment that is not cancelled. -/
theorem C28_count_mismatch :
    (statusOf (run emptyDb tracePaymentFailed) 30 = some Status.cancelled ∧
      (findSlotById (run emptyDb tracePaymentFailed) 20).map
          (fun s => (s.bookedCount, s.isAvailable)) = some (1, false) ∧
      liveCount (run emptyDb tracePaymentFailed) 20 = 0) ∧
    (statusOf (run emptyDb traceStartCancelled) 30 = some Status.inProgress ∧
      (findSlotById (run emptyDb traceStartCancelled) 20).map (fun s => s.bookedCount)
        = some 0 ∧
      liveCount (run emptyDb traceStartCancelled) 20 = 1) := by
  decide

/-- C29 on the code: the booking links a slot of another doctor.  Slot 20 belongs to
doctor 10; a booking that names doctor 11 and slot 20 is answered 201 with an
appointment of doctor 11 on slot 20 at the fee of doctor 11, and slot 20 of doctor 10
is counted as booked. -/
theorem C29_slot_of_other_doctor :
    (findSlotById dbTwoDoctors 20).map (fun s => s.doctor) = some 10 ∧
    (book dbTwoDoctors bookEnv1 patient1 bookReqOtherDoctor).1.isCreated = true ∧
    (book dbTwoDoctors bookEnv1 patient1 bookReqOtherDoctor).1.appointment?.map
        (fun a => (a.doctor, a.slot, a.payment.amount)) = some (11, 20, 90) ∧
    (findSlotById (book dbTwoDoctors bookEnv1 patient1 bookReqOtherDoctor).2.1 20).map
        (fun s => (s.doctor, s.bookedCount)) = some (10, 1) := by
  decide

/-- C30, as stated, fails: the aggregate `{average 1, count 2}` is reached from the
default by the ratings 1 and 1; from it the scores 1 then 2 give the average 1.3 and
the scores 2 then 1 the average 1.2, the count being 4 in both orders. -/
theorem C30_counterexample :
    ([1, 1].map JsValue.ofNat).foldl (recordRating rateEnv1) {}
      = { average := JsNumber.ofNat 1, count := JsNumber.ofNat 2 } ∧
    recordRating rateEnv1
        (recordRating rateEnv1 { average := JsNumber.ofNat 1, count := JsNumber.ofNat 2 }
          (JsValue.ofNat 1)) (JsValue.ofNat 2)
      = { average := JsNumber.ofDecimal 13 1, count := JsNumber.ofNat 4 } ∧
    recordRating rateEnv1
        (recordRating rateEnv1 { average := JsNumber.ofNat 1, count := JsNumber.ofNat 2 }
          (JsValue.ofNat 2)) (JsValue.ofNat 1)
      = { average := JsNumber.ofDecimal 12 1, count := JsNumber.ofNat 4 } ∧
    JsNumber.ofDecimal 13 1 ≠ JsNumber.ofDecimal 12 1 := by
  decide

/-- C30, amended: the two orders of two ratings give the same count, for every
aggregate and all scores; they give the same aggregate when the aggregate has count
0, as the default has, and when it is reached from the default by one rating, the
scores being integers from 1 to 5. -/
theorem C30_order (env : RateEnv) (r : DoctorRating) :
    (∀ s1 s2 : JsValue,
      (recordRating env (recordRating env r s1) s2).count
        = (recordRating env (recordRating env r s2) s1).count) ∧
    (r.count = JsNumber.finite false 0 → ∀ i j : Nat, 1 ≤ i → i ≤ 5 → 1 ≤ j → j ≤ 5 →
      recordRating env (recordRating env r (JsValue.ofNat i)) (JsValue.ofNat j)
        = recordRating env (recordRating env r (JsValue.ofNat j)) (JsValue.ofNat i)) ∧
    (∀ k i j : Nat, 1 ≤ k → k ≤ 5 → 1 ≤ i → i ≤ 5 → 1 ≤ j → j ≤ 5 →
      recordRating env (recordRating env (recordRating env {} (JsValue.ofNat k))
          (JsValue.ofNat i)) (JsValue.ofNat j)
        = recordRating env (recordRating env (recordRating env {} (JsValue.ofNat k))
          (JsValue.ofNat j)) (JsValue.ofNat i)) := by
  refine ⟨fun _ _ => rfl, ?_, ?_⟩
  · intro hc i j hi1 hi5 hj1 hj5
    obtain ⟨avg, cnt⟩ := r
    simp only at hc
    subst hc
    unfold JsValue.ofNat
    cases avg with
    | nan =>
      interval_cases i <;> interval_cases j <;> simp only [recordRating_number] <;> decide
    | infinite s =>
      cases s <;> interval_cases i <;> interval_cases j <;>
        simp only [recordRating_number] <;> decide
    | finite s a =>
      cases s <;> interval_cases i <;> interval_cases j <;>
        simp only [recordRating_number, jsMul_zero] <;> decide
  · intro k i j hk1 hk5 hi1 hi5 hj1 hj5
    unfold JsValue.ofNat
    interval_cases k <;> interval_cases i <;> interval_cases j <;>
      simp only [recordRating_number] <;> decide

end MedBook
